import Mathlib

/-!
# Card-payment ledger: shallow embedding of `router.go`

The four payment handlers (`PaymentsAuthorization`, `PaymentsCapture`,
`PaymentsReversal`, `PaymentsRefund`) and the two mutating account handlers
(`AccountsCreate`, `AccountsDeposit`) of `router.go` are embedded as pure
functions on an explicit store `DB`.  A handler takes the store, the `From`
header, the route parameter, the decoded request body and the identifier the
payment constructor draws for the new record, and returns the store after all
its writes together with the response it encodes.

The packages `model`, `dto`, `constant` and the persistence helpers
(`getAccount`, `saveAccount`, `getPayment`, `savePayment`) are used by
`router.go` but their sources are not part of the two files; they are modelled
from the specification's data model and persistence contract and marked so.
Amounts are mathematical integers (`Int`): the specification calls them
numeric and speaks of negative amounts.  A request body that fails to decode
(the handlers' `http.Error(..., 500)` exit) is outside the embedding: requests
are already decoded values.
-/

namespace constant

/-- Modelled from the spec: the operation kind `AUTHORIZATION` of package `constant`. -/
def AUTHORIZATION : String := "AUTHORIZATION"

/-- Modelled from the spec: the operation kind `CAPTURE` of package `constant`. -/
def CAPTURE : String := "CAPTURE"

/-- Modelled from the spec: the operation kind `REVERSAL` of package `constant`. -/
def REVERSAL : String := "REVERSAL"

/-- Modelled from the spec: the operation kind `REFUND` of package `constant`. -/
def REFUND : String := "REFUND"

end constant

namespace model

/-- Modelled from the spec: the record type `model.Account` (data model, Account). -/
structure Account where
  Id : String
  CardNumber : String
  CardSecurityCode : String
  CardExpiryMonth : String
  CardExpiryYear : String
  Available : Int
  Blocked : Int
  Statement : List String
deriving DecidableEq, Repr

/-- Modelled from the spec: the record type `model.Payment` (data model, Payment). -/
structure Payment where
  Id : String
  Operation : String
  ReferenceId : String
  OrderId : String
  CardNumber : String
  Amount : Int
  CurrentAmount : Int
  Status : String
  StatusMessage : String
deriving DecidableEq, Repr

/-- The Go zero value of `model.Account`, which a failed `getAccount` leaves in its result. -/
def Account.zero : Account :=
  { Id := "", CardNumber := "", CardSecurityCode := "", CardExpiryMonth := "",
    CardExpiryYear := "", Available := 0, Blocked := 0, Statement := [] }

/-- The Go zero value of `model.Payment` (`var successivePayment model.Payment`). -/
def Payment.zero : Payment :=
  { Id := "", Operation := "", ReferenceId := "", OrderId := "", CardNumber := "",
    Amount := 0, CurrentAmount := 0, Status := "", StatusMessage := "" }

end model

namespace dto

/-- Modelled from the spec: the decoded body of an authorization request. -/
structure AuthorizationRequestDto where
  OrderId : String
  CardNumber : String
  CardSecurityCode : String
  CardExpiryMonth : String
  CardExpiryYear : String
  Amount : Int
deriving DecidableEq, Repr

/-- Modelled from the spec: the decoded body of a capture, reversal or refund request;
`Type_` (the Go field `Type`) and `ReferenceId` are filled in by the handler. -/
structure SuccessiveRequestDto where
  Type_ : String
  ReferenceId : String
  Amount : Int
deriving DecidableEq, Repr

/-- Modelled from the spec: the decoded body of an account request. -/
structure AccountRequestDto where
  Id : String
  Amount : Int
deriving DecidableEq, Repr

/-- Modelled from the spec: the response `(paymentId, status, message)` of a payment operation. -/
structure PaymentResponseDto where
  Id : String
  Status : String
  StatusMessage : String
deriving DecidableEq, Repr

/-- Modelled from the spec: the response of an account operation. -/
structure AccountResponseDto where
  Id : String
  Status : String
  StatusMessage : String
deriving DecidableEq, Repr

/-- Modelled from the spec: `dto.CreatePaymentResponseDto`, the response constructor. -/
def CreatePaymentResponseDto (id status message : String) : PaymentResponseDto :=
  { Id := id, Status := status, StatusMessage := message }

/-- Modelled from the spec: `dto.CreateAccountResponseDto`, the response constructor. -/
def CreateAccountResponseDto (id status message : String) : AccountResponseDto :=
  { Id := id, Status := status, StatusMessage := message }

end dto

namespace model

/-- Modelled from the spec: `model.CreateAuthorizationPayment`.  The new record is an
`AUTHORIZATION` with empty `referenceId`, the request's order, card and amount, and
`currentAmount = amount`; `newId` is the identifier the constructor generates. -/
def CreateAuthorizationPayment (newId : String) (req : dto.AuthorizationRequestDto)
    (_personalAccount _businessAccount : Account) (status message : String) : Payment :=
  { Id := newId, Operation := constant.AUTHORIZATION, ReferenceId := "",
    OrderId := req.OrderId, CardNumber := req.CardNumber, Amount := req.Amount,
    CurrentAmount := req.Amount, Status := status, StatusMessage := message }

/-- Modelled from the spec: `model.CreateSuccessivePayment`.  The new record has the
request's operation kind and amount, references the parent and carries the parent's
order and card; its own `currentAmount` starts at its amount.  `newId` is the
identifier the constructor generates. -/
def CreateSuccessivePayment (newId : String) (req : dto.SuccessiveRequestDto)
    (referencedPayment : Payment) (status message : String) : Payment :=
  { Id := newId, Operation := req.Type_, ReferenceId := referencedPayment.Id,
    OrderId := referencedPayment.OrderId, CardNumber := referencedPayment.CardNumber,
    Amount := req.Amount, CurrentAmount := req.Amount, Status := status,
    StatusMessage := message }

/-- Modelled from the spec: `model.GenerateAccount`.  A new account has zero balances and
an empty statement; its identifier is its card number.  The generated identifier and
card credentials are the arguments. -/
def GenerateAccount (cardNumber securityCode expiryMonth expiryYear : String) : Account :=
  { Id := cardNumber, CardNumber := cardNumber, CardSecurityCode := securityCode,
    CardExpiryMonth := expiryMonth, CardExpiryYear := expiryYear,
    Available := 0, Blocked := 0, Statement := [] }

end model

open model

/-- Modelled from the spec: the persistence gateway's two entity stores, each keyed by
the record's identifier. -/
structure DB where
  accounts : List Account
  payments : List Payment
deriving DecidableEq, Repr

/-- The store before any request. -/
def DB.empty : DB := { accounts := [], payments := [] }

/-- The account stored under key `k`, if any. -/
def lookupAccount : List Account → String → Option Account
  | [], _ => none
  | a :: rest, k => if a.Id = k then some a else lookupAccount rest k

/-- The payment stored under key `k`, if any. -/
def lookupPayment : List Payment → String → Option Payment
  | [], _ => none
  | p :: rest, k => if p.Id = k then some p else lookupPayment rest k

/-- Writes `a` under its identifier: replaces the record with that key or adds one. -/
def putAccount : List Account → Account → List Account
  | [], a => [a]
  | x :: rest, a => if x.Id = a.Id then a :: rest else x :: putAccount rest a

/-- Writes `p` under its identifier: replaces the record with that key or adds one. -/
def putPayment : List Payment → Payment → List Payment
  | [], p => [p]
  | x :: rest, p => if x.Id = p.Id then p :: rest else x :: putPayment rest p

/-- Modelled from the spec: `getAccount`, the gateway's `get` for accounts.  Every caller
discards the error, so a missing key yields the zero account. -/
def getAccount (db : DB) (id : String) : Account :=
  (lookupAccount db.accounts id).getD Account.zero

/-- Modelled from the spec: `getPayment`, the gateway's `get` for payments.  Every caller
discards the error, so a missing key yields the zero payment. -/
def getPayment (db : DB) (id : String) : Payment :=
  (lookupPayment db.payments id).getD Payment.zero

/-- Modelled from the spec: `saveAccount`, the gateway's `put` for accounts. -/
def saveAccount (db : DB) (a : Account) : DB :=
  { db with accounts := putAccount db.accounts a }

/-- Modelled from the spec: `savePayment`, the gateway's `put` for payments. -/
def savePayment (db : DB) (p : Payment) : DB :=
  { db with payments := putPayment db.payments p }

/-- Handler `PaymentsAuthorization` of `router.go`: `From` is the request header,
`req` the decoded body, `newId` the identifier of the payment record it may create. -/
def PaymentsAuthorization (db : DB) (From : String) (req : dto.AuthorizationRequestDto)
    (newId : String) : DB × dto.PaymentResponseDto :=
  let businessAccountId := From
  if businessAccountId.length > 0 then
    let businessAccount := getAccount db businessAccountId
    if businessAccount.Id ≠ businessAccountId then
      (db, dto.CreatePaymentResponseDto req.OrderId "15" "No Such Issuer")
    else
      let personalAccountId := req.CardNumber
      if personalAccountId.length > 0 then
        let personalAccount := getAccount db personalAccountId
        if personalAccount.Id ≠ personalAccountId then
          (db, dto.CreatePaymentResponseDto req.OrderId "56" "No Card Record")
        else if personalAccount.CardNumber ≠ req.CardNumber ∨
            personalAccount.CardSecurityCode ≠ req.CardSecurityCode ∨
            personalAccount.CardExpiryYear ≠ req.CardExpiryYear ∨
            personalAccount.CardExpiryMonth ≠ req.CardExpiryMonth then
          let payment := CreateAuthorizationPayment newId req personalAccount businessAccount
            "5" "Do Not Honour"
          let db1 := savePayment db payment
          let businessAccount1 :=
            { businessAccount with Statement := businessAccount.Statement ++ [payment.Id] }
          let db2 := saveAccount db1 businessAccount1
          (db2, dto.CreatePaymentResponseDto payment.Id "5" "Do Not Honour")
        else if personalAccount.Available < req.Amount then
          let payment := CreateAuthorizationPayment newId req personalAccount businessAccount
            "51" "Insufficient Funds"
          let db1 := savePayment db payment
          let businessAccount1 :=
            { businessAccount with Statement := businessAccount.Statement ++ [payment.Id] }
          let db2 := saveAccount db1 businessAccount1
          (db2, dto.CreatePaymentResponseDto payment.Id "51" "Insufficient Funds")
        else
          let personalAccount1 :=
            { personalAccount with
              Available := personalAccount.Available - req.Amount,
              Blocked := personalAccount.Blocked + req.Amount }
          let db1 := saveAccount db personalAccount1
          let businessAccount1 :=
            { businessAccount with Blocked := businessAccount.Blocked + req.Amount }
          let db2 := saveAccount db1 businessAccount1
          let payment := CreateAuthorizationPayment newId req personalAccount1 businessAccount1
            "0" "Approved"
          let db3 := savePayment db2 payment
          let businessAccount2 :=
            { businessAccount1 with Statement := businessAccount1.Statement ++ [payment.Id] }
          let db4 := saveAccount db3 businessAccount2
          let personalAccount2 :=
            { personalAccount1 with Statement := personalAccount1.Statement ++ [payment.Id] }
          let db5 := saveAccount db4 personalAccount2
          (db5, dto.CreatePaymentResponseDto payment.Id "0" "Approved")
      else
        (db, dto.CreatePaymentResponseDto req.OrderId "12" "Invalid Card Number")
  else
    (db, dto.CreatePaymentResponseDto req.OrderId "3" "Invalid Merchant")

/-- Handler `PaymentsCapture` of `router.go`: `From` is the request header,
`referenceId` the route parameter `authorization_id`, `req` the decoded body, `newId`
the identifier of the payment record it may create. -/
def PaymentsCapture (db : DB) (From : String) (referenceId : String)
    (req : dto.SuccessiveRequestDto) (newId : String) : DB × dto.PaymentResponseDto :=
  let businessAccountId := From
  if businessAccountId.length > 0 then
    let businessAccount := getAccount db businessAccountId
    if businessAccount.Id ≠ businessAccountId then
      (db, dto.CreatePaymentResponseDto referenceId "15" "No Such Issuer")
    else
      let successiveRequestDto :=
        { req with Type_ := constant.CAPTURE, ReferenceId := referenceId }
      if referenceId.length ≤ 0 then
        (db, dto.CreatePaymentResponseDto referenceId "12" "Invalid Transaction\t")
      else
        let referencedPayment := getPayment db referenceId
        if referencedPayment.Id ≠ referenceId then
          (db, dto.CreatePaymentResponseDto referenceId "12" "Invalid Transaction\t")
        else
          let successivePayment := Payment.zero
          if referencedPayment.Operation = constant.AUTHORIZATION ∧
              referencedPayment.Status = "0" then
            if referencedPayment.CurrentAmount < successiveRequestDto.Amount then
              let successivePayment := CreateSuccessivePayment newId successiveRequestDto
                referencedPayment "13" "Invalid Amount"
              let db1 := savePayment db successivePayment
              let businessAccount1 :=
                { businessAccount with
                  Statement := businessAccount.Statement ++ [successivePayment.Id] }
              let db2 := saveAccount db1 businessAccount1
              (db2, dto.CreatePaymentResponseDto successivePayment.Id "13" "Invalid Amount")
            else
              let referencedPayment1 :=
                { referencedPayment with
                  CurrentAmount := referencedPayment.CurrentAmount - successiveRequestDto.Amount }
              let db1 := savePayment db referencedPayment1
              let successivePayment := CreateSuccessivePayment newId successiveRequestDto
                referencedPayment1 "0" "Approved"
              let db2 := savePayment db1 successivePayment
              let personalAccountId := referencedPayment1.CardNumber
              let personalAccount := getAccount db2 personalAccountId
              let personalAccount1 :=
                { personalAccount with
                  Blocked := personalAccount.Blocked - successiveRequestDto.Amount,
                  Statement := personalAccount.Statement ++ [successivePayment.Id] }
              let db3 := saveAccount db2 personalAccount1
              let businessAccount1 :=
                { businessAccount with
                  Blocked := businessAccount.Blocked - successiveRequestDto.Amount,
                  Available := businessAccount.Available + successiveRequestDto.Amount,
                  Statement := businessAccount.Statement ++ [successivePayment.Id] }
              let db4 := saveAccount db3 businessAccount1
              (db4, dto.CreatePaymentResponseDto successivePayment.Id "0" "Approved")
          else
            (db, dto.CreatePaymentResponseDto successivePayment.Id "12" "Invalid Transaction")
  else
    (db, dto.CreatePaymentResponseDto referenceId "3" "Invalid Merchant")

/-- Handler `PaymentsReversal` of `router.go`: `From` is the request header,
`referenceId` the route parameter `authorization_id`, `req` the decoded body, `newId`
the identifier of the payment record it may create. -/
def PaymentsReversal (db : DB) (From : String) (referenceId : String)
    (req : dto.SuccessiveRequestDto) (newId : String) : DB × dto.PaymentResponseDto :=
  let businessAccountId := From
  if businessAccountId.length > 0 then
    let businessAccount := getAccount db businessAccountId
    if businessAccount.Id ≠ businessAccountId then
      (db, dto.CreatePaymentResponseDto referenceId "15" "No Such Issuer")
    else
      let successiveRequestDto :=
        { req with Type_ := constant.REVERSAL, ReferenceId := referenceId }
      if referenceId.length ≤ 0 then
        (db, dto.CreatePaymentResponseDto referenceId "12" "Invalid Transaction\t")
      else
        let referencedPayment := getPayment db referenceId
        if referencedPayment.Id ≠ successiveRequestDto.ReferenceId then
          (db, dto.CreatePaymentResponseDto referenceId "12" "Invalid Transaction\t")
        else
          let successivePayment := Payment.zero
          if referencedPayment.Operation = constant.AUTHORIZATION ∧
              referencedPayment.Status = "0" then
            if referencedPayment.CurrentAmount < successiveRequestDto.Amount then
              let successivePayment := CreateSuccessivePayment newId successiveRequestDto
                referencedPayment "13" "Invalid Amount"
              let db1 := savePayment db successivePayment
              let businessAccount1 :=
                { businessAccount with
                  Statement := businessAccount.Statement ++ [successivePayment.Id] }
              let db2 := saveAccount db1 businessAccount1
              (db2, dto.CreatePaymentResponseDto successivePayment.Id "13" "Invalid Amount")
            else
              let referencedPayment1 :=
                { referencedPayment with
                  CurrentAmount := referencedPayment.CurrentAmount - successiveRequestDto.Amount }
              let db1 := savePayment db referencedPayment1
              let successivePayment := CreateSuccessivePayment newId successiveRequestDto
                referencedPayment1 "0" "Approved"
              let db2 := savePayment db1 successivePayment
              let personalAccountId := referencedPayment1.CardNumber
              let personalAccount := getAccount db2 personalAccountId
              let personalAccount1 :=
                { personalAccount with
                  Blocked := personalAccount.Blocked - successiveRequestDto.Amount,
                  Available := personalAccount.Available + successiveRequestDto.Amount,
                  Statement := personalAccount.Statement ++ [successivePayment.Id] }
              let db3 := saveAccount db2 personalAccount1
              let businessAccount1 :=
                { businessAccount with
                  Blocked := businessAccount.Blocked - successiveRequestDto.Amount,
                  Statement := businessAccount.Statement ++ [successivePayment.Id] }
              let db4 := saveAccount db3 businessAccount1
              (db4, dto.CreatePaymentResponseDto successivePayment.Id "0" "Approved")
          else
            (db, dto.CreatePaymentResponseDto successivePayment.Id "12" "Invalid Transaction")
  else
    (db, dto.CreatePaymentResponseDto referenceId "3" "Invalid Merchant")

/-- Handler `PaymentsRefund` of `router.go`: `From` is the request header,
`referenceId` the route parameter `capture_id`, `req` the decoded body, `newId` the
identifier of the payment record it may create. -/
def PaymentsRefund (db : DB) (From : String) (referenceId : String)
    (req : dto.SuccessiveRequestDto) (newId : String) : DB × dto.PaymentResponseDto :=
  let businessAccountId := From
  if businessAccountId.length > 0 then
    let businessAccount := getAccount db businessAccountId
    if businessAccount.Id ≠ businessAccountId then
      (db, dto.CreatePaymentResponseDto referenceId "15" "No Such Issuer")
    else
      let successiveRequestDto :=
        { req with Type_ := constant.REFUND, ReferenceId := referenceId }
      if referenceId.length ≤ 0 then
        (db, dto.CreatePaymentResponseDto referenceId "12" "Invalid Transaction\t")
      else
        let referencedPayment := getPayment db referenceId
        if referencedPayment.Id ≠ successiveRequestDto.ReferenceId then
          (db, dto.CreatePaymentResponseDto referenceId "12" "Invalid Transaction\t")
        else
          let successivePayment := Payment.zero
          if referencedPayment.Operation = constant.CAPTURE ∧
              referencedPayment.Status = "0" then
            if referencedPayment.CurrentAmount < successiveRequestDto.Amount then
              let successivePayment := CreateSuccessivePayment newId successiveRequestDto
                referencedPayment "13" "Invalid Amount"
              let db1 := savePayment db successivePayment
              let businessAccount1 :=
                { businessAccount with
                  Statement := businessAccount.Statement ++ [successivePayment.Id] }
              let db2 := saveAccount db1 businessAccount1
              (db2, dto.CreatePaymentResponseDto successivePayment.Id "13" "Invalid Amount")
            else
              let referencedPayment1 :=
                { referencedPayment with
                  CurrentAmount := referencedPayment.CurrentAmount - successiveRequestDto.Amount }
              let db1 := savePayment db referencedPayment1
              let successivePayment := CreateSuccessivePayment newId successiveRequestDto
                referencedPayment1 "0" "Approved"
              let db2 := savePayment db1 successivePayment
              let personalAccountId := referencedPayment1.CardNumber
              let personalAccount := getAccount db2 personalAccountId
              let personalAccount1 :=
                { personalAccount with
                  Available := personalAccount.Available + successiveRequestDto.Amount,
                  Statement := personalAccount.Statement ++ [successivePayment.Id] }
              let db3 := saveAccount db2 personalAccount1
              let businessAccount1 :=
                { businessAccount with
                  Available := businessAccount.Available - successiveRequestDto.Amount,
                  Statement := businessAccount.Statement ++ [successivePayment.Id] }
              let db4 := saveAccount db3 businessAccount1
              (db4, dto.CreatePaymentResponseDto successivePayment.Id "0" "Approved")
          else
            (db, dto.CreatePaymentResponseDto successivePayment.Id "12" "Invalid Transaction")
  else
    (db, dto.CreatePaymentResponseDto referenceId "3" "Invalid Merchant")

/-- Handler `AccountsCreate` of `router.go`: `account` is the value `model.GenerateAccount()`
returns; it is saved and echoed with its statement cleared. -/
def AccountsCreate (db : DB) (account : Account) : DB × Account :=
  let db1 := saveAccount db account
  (db1, { account with Statement := [] })

/-- Handler `AccountsDeposit` of `router.go`: `req` is the decoded body. -/
def AccountsDeposit (db : DB) (req : dto.AccountRequestDto) : DB × dto.AccountResponseDto :=
  let accountResponseDto := dto.CreateAccountResponseDto req.Id "14" "Invalid Card Number"
  if req.Id.length > 0 then
    let account := getAccount db req.Id
    if account.Id.length > 0 then
      let account1 := { account with Available := account.Available + req.Amount }
      let db1 := saveAccount db account1
      (db1, dto.CreateAccountResponseDto req.Id "0" "Approved")
    else
      (db, accountResponseDto)
  else
    (db, accountResponseDto)

/-- One request to the API, with everything the handler reads from outside the store. -/
inductive Request where
  | create (cardNumber securityCode expiryMonth expiryYear : String)
  | deposit (req : dto.AccountRequestDto)
  | authorization (From : String) (req : dto.AuthorizationRequestDto) (newId : String)
  | capture (From referenceId : String) (req : dto.SuccessiveRequestDto) (newId : String)
  | reversal (From referenceId : String) (req : dto.SuccessiveRequestDto) (newId : String)
  | refund (From referenceId : String) (req : dto.SuccessiveRequestDto) (newId : String)
deriving DecidableEq, Repr

/-- The store after the handler routed to by `setupRouter` has served the request. -/
def step (db : DB) : Request → DB
  | .create c s m y => (AccountsCreate db (GenerateAccount c s m y)).1
  | .deposit req => (AccountsDeposit db req).1
  | .authorization f req n => (PaymentsAuthorization db f req n).1
  | .capture f r req n => (PaymentsCapture db f r req n).1
  | .reversal f r req n => (PaymentsReversal db f r req n).1
  | .refund f r req n => (PaymentsRefund db f r req n).1

/-- The store after a sequence of requests served one after the other. -/
def run (db : DB) : List Request → DB
  | [] => db
  | r :: rest => run (step db r) rest

/-- Every stored account has non-negative `available` and `blocked`. -/
def BalancesNonneg (db : DB) : Prop :=
  ∀ a ∈ db.accounts, 0 ≤ a.Available ∧ 0 ≤ a.Blocked

instance (db : DB) : Decidable (BalancesNonneg db) := by
  unfold BalancesNonneg; infer_instance

/-- The identifier is present and `getAccount` finds an account stored under it
(the handlers' test `len(id) > 0` followed by `account.Id == id`). -/
def ResolvesAccount (db : DB) (id : String) : Prop :=
  id.length > 0 ∧ (getAccount db id).Id = id

instance (db : DB) (id : String) : Decidable (ResolvesAccount db id) := by
  unfold ResolvesAccount; infer_instance

/-- The reference is present and `getPayment` finds a payment stored under it
(the handlers' test `len(referenceId) > 0` followed by `referencedPayment.Id == referenceId`). -/
def ResolvesPayment (db : DB) (id : String) : Prop :=
  id.length > 0 ∧ (getPayment db id).Id = id

instance (db : DB) (id : String) : Decidable (ResolvesPayment db id) := by
  unfold ResolvesPayment; infer_instance

/-- The ledger view of the account store: identifier, `available` and `blocked` of every
stored account, in storage order. -/
def balances (db : DB) : List (String × Int × Int) :=
  db.accounts.map (fun a => (a.Id, a.Available, a.Blocked))

/-- A store the scenario of the specification passes through: merchant `M` and cardholder
`C` exist and `C` holds a deposit of 1000. -/
def dbFunded : DB :=
  run DB.empty
    [.create "M" "000" "01" "2030", .create "C" "123" "12" "2030", .deposit ⟨"C", 1000⟩]

/-- The authorization request of the scenario: order `O1`, 200 on card `C`, matching
credentials. -/
def authO1 : dto.AuthorizationRequestDto :=
  { OrderId := "O1", CardNumber := "C", CardSecurityCode := "123", CardExpiryMonth := "12",
    CardExpiryYear := "2030", Amount := 200 }

/-- The store after the scenario's authorization `p1` of 200 by merchant `M` on card `C`. -/
def dbAuthorized : DB := (PaymentsAuthorization dbFunded "M" authO1 "p1").1

/-- The body of a capture, reversal or refund request for the given amount. -/
def successive (amount : Int) : dto.SuccessiveRequestDto :=
  { Type_ := "", ReferenceId := "", Amount := amount }

/-- The store after the scenario's capture `p2` of 150 against `p1`. -/
def dbCaptured : DB := (PaymentsCapture dbAuthorized "M" "p1" (successive 150) "p2").1

/-- An account `X` that holds a deposit of 100 and authorizes 100 on its own card, acting
as its own merchant (`From` is `X`, card is `X`). -/
def dbSelfAuthorized : DB :=
  run DB.empty
    [.create "X" "777" "07" "2031", .deposit ⟨"X", 100⟩,
     .authorization "X" ⟨"O9", "X", "777", "07", "2031", 100⟩ "q1"]

/-- The store `dbSelfAuthorized` after `X` has captured the whole authorization `q1`. -/
def dbSelfCaptured : DB := (PaymentsCapture dbSelfAuthorized "X" "q1" (successive 100) "q2").1

/-- What a declined payment request may do to the accounts: the ledger view is the same,
every account other than the requesting merchant is the same record, and the merchant's
record is the same or has exactly the identifier `newId` appended to its statement. -/
def DeclineFrame (db db' : DB) (merchant newId : String) : Prop :=
  balances db' = balances db ∧
  (∀ k, k ≠ merchant → getAccount db' k = getAccount db k) ∧
  (getAccount db' merchant = getAccount db merchant ∨
    getAccount db' merchant =
      { getAccount db merchant with
        Statement := (getAccount db merchant).Statement ++ [newId] })

/-- A store with the single account `X`, which holds no funds. -/
def dbLoneAccount : DB := run DB.empty [.create "X" "777" "07" "2031"]

/-- The scenario of the specification: accounts `M` and `C`, a deposit of 1000 into `C`,
an authorization of 200, captures of 150, 100 (declined) and 50, and a refund of 50
against the first capture. -/
def scenario : List Request :=
  [.create "M" "000" "01" "2030", .create "C" "123" "12" "2030", .deposit ⟨"C", 1000⟩,
   .authorization "M" authO1 "p1",
   .capture "M" "p1" (successive 150) "p2",
   .capture "M" "p1" (successive 100) "p3",
   .capture "M" "p1" (successive 50) "p4",
   .refund "M" "p2" (successive 50) "p5"]

/-- The payment is an approved capture or reversal that references the payment `id`. -/
def isApprovedChildOf (id : String) (p : Payment) : Prop :=
  (p.Operation = constant.CAPTURE ∨ p.Operation = constant.REVERSAL) ∧
    p.Status = "0" ∧ p.ReferenceId = id

instance (id : String) (p : Payment) : Decidable (isApprovedChildOf id p) := by
  unfold isApprovedChildOf; infer_instance

/-- Sum of the amounts of the approved captures and reversals in `l` that reference `id`. -/
def childSumL (l : List Payment) (id : String) : Int :=
  ((l.filter (fun p => decide (isApprovedChildOf id p))).map (fun p => p.Amount)).sum

/-- Sum of the amounts of all stored approved captures and reversals that reference the
payment `id`. -/
def childSum (db : DB) (id : String) : Int :=
  childSumL db.payments id

/-- The identifier a payment request brings for the record it may create is not the key
of any stored payment, and an authorization asks for a non-negative amount. -/
def Orderly (db : DB) : Request → Prop
  | .create _ _ _ _ => True
  | .deposit _ => True
  | .authorization _ req n => n ∉ db.payments.map (fun p => p.Id) ∧ 0 ≤ req.Amount
  | .capture _ _ _ n => n ∉ db.payments.map (fun p => p.Id)
  | .reversal _ _ _ n => n ∉ db.payments.map (fun p => p.Id)
  | .refund _ _ _ n => n ∉ db.payments.map (fun p => p.Id)

instance (db : DB) (r : Request) : Decidable (Orderly db r) := by
  cases r <;> unfold Orderly <;> infer_instance

/-- Every request of the sequence is orderly in the store it is served from. -/
def OrderlyRun (db : DB) : List Request → Prop
  | [] => True
  | r :: rest => Orderly db r ∧ OrderlyRun (step db r) rest

instance decidableOrderlyRun : (db : DB) → (reqs : List Request) → Decidable (OrderlyRun db reqs)
  | _, [] => isTrue trivial
  | db, r :: rest =>
    have := decidableOrderlyRun (step db r) rest
    by unfold OrderlyRun; infer_instance

/-- The chain invariant of the payment store: keys are unique, every approved capture or
reversal references a stored payment, and every approved authorization has a non-negative
`currentAmount` equal to its amount less the approved captures and reversals against it. -/
def ChainInv (l : List Payment) : Prop :=
  (l.map (fun p => p.Id)).Nodup ∧
  (∀ p ∈ l, (p.Operation = constant.CAPTURE ∨ p.Operation = constant.REVERSAL) →
    p.Status = "0" → p.ReferenceId ∈ l.map (fun p => p.Id)) ∧
  (∀ p ∈ l, p.Operation = constant.AUTHORIZATION → p.Status = "0" →
    0 ≤ p.CurrentAmount ∧ p.CurrentAmount = p.Amount - childSumL l p.Id)

/-- The store after merchant `M` has obtained an authorization of −5 on card `C`, both
accounts being new. -/
def dbNegativeAuthorization : DB :=
  run DB.empty
    [.create "M" "000" "01" "2030", .create "C" "123" "12" "2030",
     .authorization "M" { authO1 with Amount := -5 } "p1"]

/-- The store after the scenario's declined capture `p3` of 100 against the 50 left on
`p1`. -/
def dbOverdrawn : DB := (PaymentsCapture dbCaptured "M" "p1" (successive 100) "p3").1

/-- The store after the scenario's capture `p4` of the remaining 50 of `p1`. -/
def dbSettled : DB := (PaymentsCapture dbOverdrawn "M" "p1" (successive 50) "p4").1

/-- The store after the scenario's refund `p5` of 50 against the capture `p2`. -/
def dbRefunded : DB := (PaymentsRefund dbSettled "M" "p2" (successive 50) "p5").1

/-- The authorization request of the scenario with a wrong security code. -/
def authWrongCode : dto.AuthorizationRequestDto :=
  { authO1 with CardSecurityCode := "999" }

/-- The money a payment between `merchant` and `card` can move: the cardholder's available
and blocked and the merchant's available. -/
def ledgerTotal (db : DB) (merchant card : String) : Int :=
  (getAccount db card).Available + (getAccount db card).Blocked
    + (getAccount db merchant).Available

/-- The payment is an approved authorization on the card `card`. -/
def isApprovedAuthorizationOn (card : String) (p : Payment) : Prop :=
  p.Operation = constant.AUTHORIZATION ∧ p.Status = "0" ∧ p.CardNumber = card

instance (card : String) (p : Payment) : Decidable (isApprovedAuthorizationOn card p) := by
  unfold isApprovedAuthorizationOn; infer_instance

/-- Sum of `currentAmount` over the approved authorizations in `l` on the card `card`. -/
def heldSumL (l : List Payment) (card : String) : Int :=
  ((l.filter (fun p => decide (isApprovedAuthorizationOn card p))).map
    (fun p => p.CurrentAmount)).sum

/-- Sum of `currentAmount` over the stored approved authorizations on the card `card`:
the outstanding authorized amount of the card. -/
def heldSum (db : DB) (card : String) : Int :=
  heldSumL db.payments card

/-- The account a payment request names as merchant (its `From` header), if any. -/
def Request.merchant? : Request → Option String
  | .create _ _ _ _ => none
  | .deposit _ => none
  | .authorization f _ _ => some f
  | .capture f _ _ _ => some f
  | .reversal f _ _ _ => some f
  | .refund f _ _ _ => some f

/-- The account an authorization request names as cardholder, if any. -/
def Request.card? : Request → Option String
  | .authorization _ req _ => some req.CardNumber
  | _ => none

/-- The identifiers used as merchant by the requests. -/
def merchantsOf (reqs : List Request) : List String :=
  reqs.filterMap Request.merchant?

/-- The identifiers used as cardholder by the requests. -/
def cardsOf (reqs : List Request) : List String :=
  reqs.filterMap Request.card?

/-- The identifier generated for the request is new: an account is created under an
identifier that is not the key of a stored account, and a payment request brings an
identifier that is not the key of a stored payment. -/
def FreshIds (db : DB) : Request → Prop
  | .create c _ _ _ => c ∉ db.accounts.map (fun a => a.Id)
  | .deposit _ => True
  | .authorization _ _ n => n ∉ db.payments.map (fun p => p.Id)
  | .capture _ _ _ n => n ∉ db.payments.map (fun p => p.Id)
  | .reversal _ _ _ n => n ∉ db.payments.map (fun p => p.Id)
  | .refund _ _ _ n => n ∉ db.payments.map (fun p => p.Id)

instance (db : DB) (r : Request) : Decidable (FreshIds db r) := by
  cases r <;> unfold FreshIds <;> infer_instance

/-- Every request of the sequence is served with a new identifier. -/
def FreshRun (db : DB) : List Request → Prop
  | [] => True
  | r :: rest => FreshIds db r ∧ FreshRun (step db r) rest

instance decidableFreshRun : (db : DB) → (reqs : List Request) → Decidable (FreshRun db reqs)
  | _, [] => isTrue trivial
  | db, r :: rest =>
    have := decidableFreshRun (step db r) rest
    by unfold FreshRun; infer_instance

/-- The request keeps to the roles fixed by the list `M` of merchants: its merchant is in
`M` and the card of an authorization is not. -/
def RoleOk (M : List String) : Request → Prop
  | .create _ _ _ _ => True
  | .deposit _ => True
  | .authorization f req _ => f ∈ M ∧ req.CardNumber ∉ M
  | .capture f _ _ _ => f ∈ M
  | .reversal f _ _ _ => f ∈ M
  | .refund f _ _ _ => f ∈ M

/-- The held-funds invariant for the merchants `M`: under every identifier that is not a
merchant's, the stored account's blocked is the outstanding authorized amount of that
card; and the card of every approved payment is a stored account that is not a merchant. -/
def HeldInv (M : List String) (db : DB) : Prop :=
  (∀ k, k ∉ M → (getAccount db k).Blocked = heldSum db k) ∧
  (∀ p ∈ db.payments, p.Status = "0" →
    (getAccount db p.CardNumber).Id = p.CardNumber ∧ p.CardNumber ∉ M)

/-- The scenario up to and including its first capture: 50 of the authorization of 200
are still held on card `C`. -/
def scenarioHeld : List Request := scenario.take 5

/-- The card of every stored approved payment is the identifier of a stored account. -/
def CardsStored (db : DB) : Prop :=
  ∀ p ∈ db.payments, p.Status = "0" → (getAccount db p.CardNumber).Id = p.CardNumber

/-- Every amount the request carries is non-negative. -/
def NonnegAmount : Request → Prop
  | .create _ _ _ _ => True
  | .deposit req => 0 ≤ req.Amount
  | .authorization _ req _ => 0 ≤ req.Amount
  | .capture _ _ req _ => 0 ≤ req.Amount
  | .reversal _ _ req _ => 0 ≤ req.Amount
  | .refund _ _ req _ => 0 ≤ req.Amount

instance (r : Request) : Decidable (NonnegAmount r) := by
  cases r <;> unfold NonnegAmount <;> infer_instance

/-- An approved capture, reversal or refund is requested by the merchant on whose
statement the referenced payment stands, that is, by the merchant that requested it. -/
def OwnReference (db : DB) : Request → Prop
  | .create _ _ _ _ => True
  | .deposit _ => True
  | .authorization _ _ _ => True
  | .capture f r req n =>
      (PaymentsCapture db f r req n).2.Status = "0" → r ∈ (getAccount db f).Statement
  | .reversal f r req n =>
      (PaymentsReversal db f r req n).2.Status = "0" → r ∈ (getAccount db f).Statement
  | .refund f r req n =>
      (PaymentsRefund db f r req n).2.Status = "0" → r ∈ (getAccount db f).Statement

instance (db : DB) (r : Request) : Decidable (OwnReference db r) := by
  cases r <;> unfold OwnReference <;> infer_instance

/-- The request is served with a new identifier, carries no negative amount and, when it
is an approved capture, reversal or refund, comes from the merchant that requested the
referenced payment. -/
def Disciplined (db : DB) (r : Request) : Prop :=
  FreshIds db r ∧ NonnegAmount r ∧ OwnReference db r

instance (db : DB) (r : Request) : Decidable (Disciplined db r) := by
  unfold Disciplined; infer_instance

/-- Every request of the sequence is disciplined in the store it is served from. -/
def DisciplinedRun (db : DB) : List Request → Prop
  | [] => True
  | r :: rest => Disciplined db r ∧ DisciplinedRun (step db r) rest

instance decidableDisciplinedRun :
    (db : DB) → (reqs : List Request) → Decidable (DisciplinedRun db reqs)
  | _, [] => isTrue trivial
  | db, r :: rest =>
    have := decidableDisciplinedRun (step db r) rest
    by unfold DisciplinedRun; infer_instance

/-- The payment is an approved payment of the given kind whose identifier stands on the
statement `stmt`. -/
def isApprovedOwned (kind : String) (stmt : List String) (p : Payment) : Prop :=
  p.Operation = kind ∧ p.Status = "0" ∧ p.Id ∈ stmt

instance (kind : String) (stmt : List String) (p : Payment) :
    Decidable (isApprovedOwned kind stmt p) := by
  unfold isApprovedOwned; infer_instance

/-- Sum of `currentAmount` over the approved payments of the given kind in `l` whose
identifier stands on the statement `stmt`. -/
def ownedSumL (kind : String) (stmt : List String) (l : List Payment) : Int :=
  ((l.filter (fun p => decide (isApprovedOwned kind stmt p))).map
    (fun p => p.CurrentAmount)).sum

/-- Sum of `currentAmount` over the stored approved payments of the given kind that stand
on the statement of the account `m`: for `AUTHORIZATION` the amount `m` holds as merchant,
for `CAPTURE` the settled amount `m` may still have to refund. -/
def ownedSum (db : DB) (kind : String) (m : String) : Int :=
  ownedSumL kind (getAccount db m).Statement db.payments

/-- The `currentAmount` of every stored approved payment is non-negative. -/
def AmountsInv (db : DB) : Prop :=
  ∀ p ∈ db.payments, p.Status = "0" → 0 ≤ p.CurrentAmount

/-- Under every identifier that is not a merchant's, the available balance is
non-negative. -/
def CardAvailInv (M : List String) (db : DB) : Prop :=
  ∀ k, k ∉ M → 0 ≤ (getAccount db k).Available

/-- Account keys are unique in the account store. -/
def AccountsNodup (db : DB) : Prop :=
  (db.accounts.map (fun a => a.Id)).Nodup

/-- The merchant-side ledger invariant for the merchants `M`: a merchant's blocked is the
amount left on the approved authorizations of its statement, its available covers the
amount left on the approved captures of its statement, every statement entry is a stored
payment, and no payment stands on the statements of two merchants. -/
def MerchantInv (M : List String) (db : DB) : Prop :=
  (∀ m ∈ M, (getAccount db m).Blocked = ownedSum db constant.AUTHORIZATION m) ∧
  (∀ m ∈ M, ownedSum db constant.CAPTURE m ≤ (getAccount db m).Available) ∧
  (∀ k, ∀ id ∈ (getAccount db k).Statement, id ∈ db.payments.map (fun p => p.Id)) ∧
  (∀ m ∈ M, ∀ m' ∈ M, m ≠ m' →
    ∀ id ∈ (getAccount db m).Statement, id ∉ (getAccount db m').Statement)

/-- A run with one negative amount: a deposit of −1 into the new account `X`. -/
def runNegativeDeposit : List Request :=
  [.create "X" "777" "07" "2031", .deposit ⟨"X", -1⟩]

/-- The opening of the scenario: accounts `M` and `C`, 1000 on `C`, and the authorization
`p1` of 200 obtained by `M`. -/
def scenarioAuthorized : List Request := scenario.take 4

/-- A run in which the merchant `N`, which never requested it, captures the authorization
`p1` of merchant `M`. -/
def runForeignCapture : List Request :=
  scenarioAuthorized ++
    [.create "N" "555" "05" "2032", .capture "N" "p1" (successive 200) "p2"]

/-- A run in which the merchant `N`, which never requested it, refunds the capture `p2`
of merchant `M`. -/
def runForeignRefund : List Request :=
  scenarioAuthorized ++
    [.capture "M" "p1" (successive 150) "p2", .create "N" "555" "05" "2032",
     .refund "N" "p2" (successive 150) "p3"]

/-- A run in which the merchant `M`, after capturing 150, is itself used as a cardholder:
merchant `N` obtains an authorization of 150 on `M`'s card, and `M` then refunds its
capture of 150. -/
def runMerchantAsCard : List Request :=
  scenarioAuthorized ++
    [.capture "M" "p1" (successive 150) "p2", .create "N" "555" "05" "2032",
     .authorization "N" ⟨"O2", "M", "000", "01", "2030", 150⟩ "p3",
     .refund "M" "p2" (successive 150) "p4"]

/-- A run whose only negative amount is a capture of −5 by merchant `M` against its own
authorization `p1`. -/
def runNegativeCapture : List Request :=
  scenarioAuthorized ++ [.capture "M" "p1" (successive (-5)) "p2"]

/-- A run whose only negative amount is a reversal of −900 by merchant `M` against its own
authorization `p1`. -/
def runNegativeReversal : List Request :=
  scenarioAuthorized ++ [.reversal "M" "p1" (successive (-900)) "p2"]

/-- A run whose only negative amount is a refund of −900 by merchant `M` against its own
capture `p2`. -/
def runNegativeRefund : List Request :=
  scenarioAuthorized ++
    [.capture "M" "p1" (successive 150) "p2", .refund "M" "p2" (successive (-900)) "p3"]

/-! ## The persistence gateway: reads after writes -/

theorem lookupAccount_putAccount (l : List Account) (a : Account) (k : String) :
    lookupAccount (putAccount l a) k = if a.Id = k then some a else lookupAccount l k := by
  induction l with
  | nil => simp [putAccount, lookupAccount]
  | cons x rest ih =>
    by_cases hx : x.Id = a.Id
    · by_cases hk : a.Id = k
      · simp [putAccount, lookupAccount, hx, hk]
      · simp [putAccount, lookupAccount, hx, hk]
    · by_cases hk : a.Id = k
      · have hxk : ¬ x.Id = k := fun h => hx (h.trans hk.symm)
        simp [putAccount, lookupAccount, hx, hk, hxk, ih]
      · simp [putAccount, lookupAccount, hx, hk, ih]

theorem lookupPayment_putPayment (l : List Payment) (p : Payment) (k : String) :
    lookupPayment (putPayment l p) k = if p.Id = k then some p else lookupPayment l k := by
  induction l with
  | nil => simp [putPayment, lookupPayment]
  | cons x rest ih =>
    by_cases hx : x.Id = p.Id
    · by_cases hk : p.Id = k
      · simp [putPayment, lookupPayment, hx, hk]
      · simp [putPayment, lookupPayment, hx, hk]
    · by_cases hk : p.Id = k
      · have hxk : ¬ x.Id = k := fun h => hx (h.trans hk.symm)
        simp [putPayment, lookupPayment, hx, hk, hxk, ih]
      · simp [putPayment, lookupPayment, hx, hk, ih]

theorem getAccount_saveAccount (db : DB) (a : Account) (k : String) :
    getAccount (saveAccount db a) k = if a.Id = k then a else getAccount db k := by
  unfold getAccount saveAccount
  simp only [lookupAccount_putAccount]
  split_ifs <;> rfl

theorem getPayment_savePayment (db : DB) (p : Payment) (k : String) :
    getPayment (savePayment db p) k = if p.Id = k then p else getPayment db k := by
  unfold getPayment savePayment
  simp only [lookupPayment_putPayment]
  split_ifs <;> rfl

theorem getAccount_savePayment (db : DB) (p : Payment) (k : String) :
    getAccount (savePayment db p) k = getAccount db k := rfl

theorem getPayment_saveAccount (db : DB) (a : Account) (k : String) :
    getPayment (saveAccount db a) k = getPayment db k := rfl

theorem mem_putAccount {l : List Account} {a x : Account} (h : x ∈ putAccount l a) :
    x = a ∨ x ∈ l := by
  induction l with
  | nil => simpa [putAccount] using h
  | cons y rest ih =>
    unfold putAccount at h
    split_ifs at h with hy
    · rcases List.mem_cons.mp h with h | h
      · exact Or.inl h
      · exact Or.inr (List.mem_cons_of_mem _ h)
    · rcases List.mem_cons.mp h with h | h
      · exact Or.inr (h ▸ List.mem_cons_self _ _)
      · rcases ih h with h | h
        · exact Or.inl h
        · exact Or.inr (List.mem_cons_of_mem _ h)


theorem lookupAccount_of_resolves {db : DB} {id : String} (h : ResolvesAccount db id) :
    lookupAccount db.accounts id = some (getAccount db id) := by
  obtain ⟨hlen, hid⟩ := h
  unfold getAccount at hid ⊢
  cases hl : lookupAccount db.accounts id with
  | none =>
    rw [hl] at hid
    simp only [Option.getD_none, Account.zero] at hid
    rw [← hid] at hlen
    exact absurd hlen (by decide)
  | some a => rfl

theorem lookupPayment_of_resolves {db : DB} {id : String} (h : ResolvesPayment db id) :
    lookupPayment db.payments id = some (getPayment db id) := by
  obtain ⟨hlen, hid⟩ := h
  unfold getPayment at hid ⊢
  cases hl : lookupPayment db.payments id with
  | none =>
    rw [hl] at hid
    simp only [Option.getD_none, Payment.zero] at hid
    rw [← hid] at hlen
    exact absurd hlen (by decide)
  | some a => rfl

theorem map_putAccount_of_same (l : List Account) (a a0 : Account)
    (hl : lookupAccount l a.Id = some a0) (hA : a.Available = a0.Available)
    (hB : a.Blocked = a0.Blocked) :
    (putAccount l a).map (fun a => (a.Id, a.Available, a.Blocked))
      = l.map (fun a => (a.Id, a.Available, a.Blocked)) := by
  induction l with
  | nil => simp [lookupAccount] at hl
  | cons x rest ih =>
    unfold lookupAccount at hl
    unfold putAccount
    by_cases hx : x.Id = a.Id
    · rw [if_pos hx] at hl
      rw [if_pos hx]
      have hxa : x = a0 := Option.some.inj hl
      subst hxa
      simp [hx, hA, hB]
    · rw [if_neg hx] at hl
      rw [if_neg hx]
      simp [ih hl]

theorem balances_saveAccount_of_same (db : DB) (a a0 : Account)
    (hl : lookupAccount db.accounts a.Id = some a0) (hA : a.Available = a0.Available)
    (hB : a.Blocked = a0.Blocked) :
    balances (saveAccount db a) = balances db := by
  unfold balances saveAccount
  exact map_putAccount_of_same db.accounts a a0 hl hA hB

/-- Appending to the statement of a resolved account leaves the ledger view unchanged,
whatever was written to the payment store in between. -/
theorem balances_append_statement (db : DB) (p : Payment) (k : String) (stmt : List String)
    (hk : ResolvesAccount db k) :
    balances (saveAccount (savePayment db p) { getAccount db k with Statement := stmt })
      = balances db := by
  have h := balances_saveAccount_of_same (savePayment db p)
    { getAccount db k with Statement := stmt } (getAccount db k)
    (by
      show lookupAccount db.accounts (getAccount db k).Id = some (getAccount db k)
      rw [hk.2]; exact lookupAccount_of_resolves hk) rfl rfl
  exact h

/-! ## Effects of the approved operations -/

/-- C2: whenever `PaymentsAuthorization` approves (status "0"), the cardholder's available
has gone down by the amount, the cardholder's blocked has gone up by the amount, and the
merchant's blocked has gone up by the amount. -/
theorem authorization_approved_moves_amount (db : DB) (From : String)
    (req : dto.AuthorizationRequestDto) (newId : String)
    (h : (PaymentsAuthorization db From req newId).2.Status = "0") :
    (getAccount (PaymentsAuthorization db From req newId).1 req.CardNumber).Available
        = (getAccount db req.CardNumber).Available - req.Amount ∧
    (getAccount (PaymentsAuthorization db From req newId).1 req.CardNumber).Blocked
        = (getAccount db req.CardNumber).Blocked + req.Amount ∧
    (getAccount (PaymentsAuthorization db From req newId).1 From).Blocked
        = (getAccount db From).Blocked + req.Amount := by
  unfold PaymentsAuthorization at h ⊢
  simp only at h ⊢
  split_ifs at h ⊢ with h1 h2 h3 h4 h5 h6
  all_goals first
    | (exfalso; revert h; simp [dto.CreatePaymentResponseDto]; done)
    | skip
  push_neg at h2 h4
  simp only [getAccount_saveAccount, getAccount_savePayment, h2, h4]
  by_cases hal : req.CardNumber = From
  · simp [hal]
  · have hal2 : ¬ From = req.CardNumber := fun h => hal h.symm
    simp [hal, hal2]

/-- Witness for C2: the scenario's authorization of 200 from the funded store. -/
theorem authorization_approved_moves_amount_witness :
    (PaymentsAuthorization dbFunded "M" authO1 "p1").2.Status = "0" ∧
    (getAccount (PaymentsAuthorization dbFunded "M" authO1 "p1").1 "C").Available = 1000 - 200 ∧
    (getAccount (PaymentsAuthorization dbFunded "M" authO1 "p1").1 "C").Blocked = 0 + 200 ∧
    (getAccount (PaymentsAuthorization dbFunded "M" authO1 "p1").1 "M").Blocked = 0 + 200 :=
  ⟨by decide, authorization_approved_moves_amount dbFunded "M" authO1 "p1" (by decide)⟩

/-- C3: whenever `PaymentsCapture` approves a capture of amount `a` (the new record's
identifier differing from the reference, and the card of the referenced payment being a
stored account), the amount was at most the referenced `currentAmount`, the stored
authorization's `currentAmount` has gone down by `a`, the cardholder's blocked has gone
down by `a`, the merchant's blocked has gone down by `a` and the merchant's available has
gone up by `a`. -/
theorem capture_approved_effects (db : DB) (From referenceId : String)
    (req : dto.SuccessiveRequestDto) (newId : String)
    (happ : (PaymentsCapture db From referenceId req newId).2.Status = "0")
    (hfresh : newId ≠ referenceId)
    (hcard : (getAccount db (getPayment db referenceId).CardNumber).Id
      = (getPayment db referenceId).CardNumber) :
    (getPayment db referenceId).Operation = constant.AUTHORIZATION ∧
    req.Amount ≤ (getPayment db referenceId).CurrentAmount ∧
    (getPayment (PaymentsCapture db From referenceId req newId).1 referenceId).CurrentAmount
        = (getPayment db referenceId).CurrentAmount - req.Amount ∧
    (getAccount (PaymentsCapture db From referenceId req newId).1
        (getPayment db referenceId).CardNumber).Blocked
        = (getAccount db (getPayment db referenceId).CardNumber).Blocked - req.Amount ∧
    (getAccount (PaymentsCapture db From referenceId req newId).1 From).Blocked
        = (getAccount db From).Blocked - req.Amount ∧
    (getAccount (PaymentsCapture db From referenceId req newId).1 From).Available
        = (getAccount db From).Available + req.Amount := by
  unfold PaymentsCapture at happ ⊢
  simp only at happ ⊢
  split_ifs at happ ⊢ with h1 h2 h3 h4 h5 h6
  all_goals first
    | (exfalso; revert happ; simp [dto.CreatePaymentResponseDto]; done)
    | skip
  push_neg at h2 h4
  refine ⟨h5.1, not_lt.mp h6, ?_, ?_, ?_, ?_⟩
  · simp [getPayment_saveAccount, getPayment_savePayment, CreateSuccessivePayment, hfresh, h4]
  · simp only [getAccount_saveAccount, getAccount_savePayment, h2, hcard]
    by_cases hal : From = (getPayment db referenceId).CardNumber
    · simp [hal]
    · simp [hal]
  · simp [getAccount_saveAccount, getAccount_savePayment, h2]
  · simp [getAccount_saveAccount, getAccount_savePayment, h2]

/-- Witness for C3: the scenario's capture of 150 against the authorization of 200. -/
theorem capture_approved_effects_witness :
    (PaymentsCapture dbAuthorized "M" "p1" (successive 150) "p2").2.Status = "0" ∧
    (getPayment dbAuthorized "p1").CurrentAmount = 200 ∧
    (getPayment (PaymentsCapture dbAuthorized "M" "p1" (successive 150) "p2").1 "p1").CurrentAmount
      = 50 ∧
    (getPayment dbAuthorized "p1").Operation = constant.AUTHORIZATION ∧
    (successive 150).Amount ≤ (getPayment dbAuthorized "p1").CurrentAmount ∧
    (getPayment (PaymentsCapture dbAuthorized "M" "p1" (successive 150) "p2").1 "p1").CurrentAmount
        = (getPayment dbAuthorized "p1").CurrentAmount - (successive 150).Amount ∧
    (getAccount (PaymentsCapture dbAuthorized "M" "p1" (successive 150) "p2").1
        (getPayment dbAuthorized "p1").CardNumber).Blocked
        = (getAccount dbAuthorized (getPayment dbAuthorized "p1").CardNumber).Blocked
          - (successive 150).Amount ∧
    (getAccount (PaymentsCapture dbAuthorized "M" "p1" (successive 150) "p2").1 "M").Blocked
        = (getAccount dbAuthorized "M").Blocked - (successive 150).Amount ∧
    (getAccount (PaymentsCapture dbAuthorized "M" "p1" (successive 150) "p2").1 "M").Available
        = (getAccount dbAuthorized "M").Available + (successive 150).Amount :=
  ⟨by decide, by decide, by decide,
    capture_approved_effects dbAuthorized "M" "p1" (successive 150) "p2"
      (by decide) (by decide) (by decide)⟩

/-- C4 (counterexample): account `X` acts as merchant for an authorization on its own
card.  The reversal of the 100 it holds is approved, yet the cardholder's available does
not go up by 100: the handler writes the merchant's copy of the account, read before the
release, over the released balance. -/
theorem reversal_own_merchant_release_lost :
    (PaymentsReversal dbSelfAuthorized "X" "q1" (successive 100) "q2").2.Status = "0" ∧
    (getPayment dbSelfAuthorized "q1").CardNumber = "X" ∧
    (getAccount dbSelfAuthorized "X").Available = 0 ∧
    (getAccount dbSelfAuthorized "X").Blocked = 100 ∧
    (getAccount (PaymentsReversal dbSelfAuthorized "X" "q1" (successive 100) "q2").1 "X").Blocked
      = 0 ∧
    (getAccount (PaymentsReversal dbSelfAuthorized "X" "q1" (successive 100) "q2").1 "X").Available
      = 0 ∧
    (getAccount (PaymentsReversal dbSelfAuthorized "X" "q1" (successive 100) "q2").1 "X").Available
      ≠ (getAccount dbSelfAuthorized "X").Available + 100 := by
  decide

/-- C4 (amended): whenever `PaymentsReversal` approves a reversal of amount `a` and the
requesting merchant is a different account from the cardholder (the card of the referenced
payment being a stored account), the cardholder's blocked has gone down by `a` and its
available up by `a`, the merchant's blocked has gone down by `a`, and the merchant's
available is unchanged. -/
theorem reversal_approved_effects (db : DB) (From referenceId : String)
    (req : dto.SuccessiveRequestDto) (newId : String)
    (happ : (PaymentsReversal db From referenceId req newId).2.Status = "0")
    (hcard : (getAccount db (getPayment db referenceId).CardNumber).Id
      = (getPayment db referenceId).CardNumber)
    (hdistinct : From ≠ (getPayment db referenceId).CardNumber) :
    (getAccount (PaymentsReversal db From referenceId req newId).1
        (getPayment db referenceId).CardNumber).Blocked
        = (getAccount db (getPayment db referenceId).CardNumber).Blocked - req.Amount ∧
    (getAccount (PaymentsReversal db From referenceId req newId).1
        (getPayment db referenceId).CardNumber).Available
        = (getAccount db (getPayment db referenceId).CardNumber).Available + req.Amount ∧
    (getAccount (PaymentsReversal db From referenceId req newId).1 From).Blocked
        = (getAccount db From).Blocked - req.Amount ∧
    (getAccount (PaymentsReversal db From referenceId req newId).1 From).Available
        = (getAccount db From).Available := by
  unfold PaymentsReversal at happ ⊢
  simp only at happ ⊢
  split_ifs at happ ⊢ with h1 h2 h3 h4 h5 h6
  all_goals first
    | (exfalso; revert happ; simp [dto.CreatePaymentResponseDto]; done)
    | skip
  push_neg at h2 h4
  refine ⟨?_, ?_, ?_, ?_⟩
  · simp [getAccount_saveAccount, getAccount_savePayment, h2, hcard, hdistinct]
  · simp [getAccount_saveAccount, getAccount_savePayment, h2, hcard, hdistinct]
  · simp [getAccount_saveAccount, getAccount_savePayment, h2]
  · simp [getAccount_saveAccount, getAccount_savePayment, h2]

/-- Witness for C4 (amended): merchant `M` reverses 80 of the authorization of 200 on card
`C`. -/
theorem reversal_approved_effects_witness :
    (PaymentsReversal dbAuthorized "M" "p1" (successive 80) "p2").2.Status = "0" ∧
    (getAccount (PaymentsReversal dbAuthorized "M" "p1" (successive 80) "p2").1 "C").Blocked
      = 120 ∧
    (getAccount (PaymentsReversal dbAuthorized "M" "p1" (successive 80) "p2").1 "C").Available
      = 880 ∧
    (getAccount (PaymentsReversal dbAuthorized "M" "p1" (successive 80) "p2").1
        (getPayment dbAuthorized "p1").CardNumber).Blocked
        = (getAccount dbAuthorized (getPayment dbAuthorized "p1").CardNumber).Blocked
          - (successive 80).Amount ∧
    (getAccount (PaymentsReversal dbAuthorized "M" "p1" (successive 80) "p2").1
        (getPayment dbAuthorized "p1").CardNumber).Available
        = (getAccount dbAuthorized (getPayment dbAuthorized "p1").CardNumber).Available
          + (successive 80).Amount ∧
    (getAccount (PaymentsReversal dbAuthorized "M" "p1" (successive 80) "p2").1 "M").Blocked
        = (getAccount dbAuthorized "M").Blocked - (successive 80).Amount ∧
    (getAccount (PaymentsReversal dbAuthorized "M" "p1" (successive 80) "p2").1 "M").Available
        = (getAccount dbAuthorized "M").Available :=
  ⟨by decide, by decide, by decide,
    reversal_approved_effects dbAuthorized "M" "p1" (successive 80) "p2"
      (by decide) (by decide) (by decide)⟩

/-- C5 (counterexample): account `X` has captured, as its own merchant, the 100 authorized
on its own card and holds them as available.  Its refund of these 100 is approved, yet the
cardholder's available does not go up by 100: it drops from 100 to 0, because the
merchant's copy of the account, read before the credit, is written over the credited
balance. -/
theorem refund_own_merchant_credit_lost :
    (PaymentsRefund dbSelfCaptured "X" "q2" (successive 100) "q3").2.Status = "0" ∧
    (getPayment dbSelfCaptured "q2").Operation = constant.CAPTURE ∧
    (getPayment dbSelfCaptured "q2").CardNumber = "X" ∧
    (getPayment dbSelfCaptured "q2").CurrentAmount = 100 ∧
    (getAccount dbSelfCaptured "X").Available = 100 ∧
    (getAccount (PaymentsRefund dbSelfCaptured "X" "q2" (successive 100) "q3").1 "X").Available
      = 0 ∧
    (getAccount (PaymentsRefund dbSelfCaptured "X" "q2" (successive 100) "q3").1 "X").Available
      ≠ (getAccount dbSelfCaptured "X").Available + 100 := by
  decide

/-- C5 (amended): whenever `PaymentsRefund` approves a refund of amount `a` and the
requesting merchant is a different account from the cardholder (the new record's
identifier differing from the reference, and the card of the referenced payment being a
stored account), the referenced payment is a capture with `currentAmount` at least `a`,
the cardholder's available has gone up by `a`, the merchant's available has gone down by
`a`, and the capture's stored `currentAmount` has gone down by `a`. -/
theorem refund_approved_effects (db : DB) (From referenceId : String)
    (req : dto.SuccessiveRequestDto) (newId : String)
    (happ : (PaymentsRefund db From referenceId req newId).2.Status = "0")
    (hfresh : newId ≠ referenceId)
    (hcard : (getAccount db (getPayment db referenceId).CardNumber).Id
      = (getPayment db referenceId).CardNumber)
    (hdistinct : From ≠ (getPayment db referenceId).CardNumber) :
    (getPayment db referenceId).Operation = constant.CAPTURE ∧
    req.Amount ≤ (getPayment db referenceId).CurrentAmount ∧
    (getAccount (PaymentsRefund db From referenceId req newId).1
        (getPayment db referenceId).CardNumber).Available
        = (getAccount db (getPayment db referenceId).CardNumber).Available + req.Amount ∧
    (getAccount (PaymentsRefund db From referenceId req newId).1 From).Available
        = (getAccount db From).Available - req.Amount ∧
    (getPayment (PaymentsRefund db From referenceId req newId).1 referenceId).CurrentAmount
        = (getPayment db referenceId).CurrentAmount - req.Amount := by
  unfold PaymentsRefund at happ ⊢
  simp only at happ ⊢
  split_ifs at happ ⊢ with h1 h2 h3 h4 h5 h6
  all_goals first
    | (exfalso; revert happ; simp [dto.CreatePaymentResponseDto]; done)
    | skip
  push_neg at h2 h4
  refine ⟨h5.1, not_lt.mp h6, ?_, ?_, ?_⟩
  · simp [getAccount_saveAccount, getAccount_savePayment, h2, hcard, hdistinct]
  · simp [getAccount_saveAccount, getAccount_savePayment, h2]
  · simp [getPayment_saveAccount, getPayment_savePayment, CreateSuccessivePayment, hfresh, h4]

/-- Witness for C5 (amended): merchant `M` refunds 50 of the capture of 150 to card `C`. -/
theorem refund_approved_effects_witness :
    (PaymentsRefund dbCaptured "M" "p2" (successive 50) "p5").2.Status = "0" ∧
    (getAccount (PaymentsRefund dbCaptured "M" "p2" (successive 50) "p5").1 "C").Available
      = 850 ∧
    (getAccount (PaymentsRefund dbCaptured "M" "p2" (successive 50) "p5").1 "M").Available
      = 100 ∧
    (getPayment dbCaptured "p2").Operation = constant.CAPTURE ∧
    (successive 50).Amount ≤ (getPayment dbCaptured "p2").CurrentAmount ∧
    (getAccount (PaymentsRefund dbCaptured "M" "p2" (successive 50) "p5").1
        (getPayment dbCaptured "p2").CardNumber).Available
        = (getAccount dbCaptured (getPayment dbCaptured "p2").CardNumber).Available
          + (successive 50).Amount ∧
    (getAccount (PaymentsRefund dbCaptured "M" "p2" (successive 50) "p5").1 "M").Available
        = (getAccount dbCaptured "M").Available - (successive 50).Amount ∧
    (getPayment (PaymentsRefund dbCaptured "M" "p2" (successive 50) "p5").1 "p2").CurrentAmount
        = (getPayment dbCaptured "p2").CurrentAmount - (successive 50).Amount :=
  ⟨by decide, by decide, by decide,
    refund_approved_effects dbCaptured "M" "p2" (successive 50) "p5"
      (by decide) (by decide) (by decide) (by decide)⟩

/-! ## The authorization chain -/

theorem childSumL_nil (id : String) : childSumL [] id = 0 := rfl

theorem childSumL_cons (p : Payment) (l : List Payment) (id : String) :
    childSumL (p :: l) id
      = (if isApprovedChildOf id p then p.Amount else 0) + childSumL l id := by
  unfold childSumL
  by_cases h : isApprovedChildOf id p
  · simp [List.filter_cons, h]
  · simp [List.filter_cons, h]

theorem childSumL_append (l1 l2 : List Payment) (id : String) :
    childSumL (l1 ++ l2) id = childSumL l1 id + childSumL l2 id := by
  unfold childSumL
  simp [List.filter_append]

theorem putPayment_fresh {l : List Payment} {p : Payment}
    (h : p.Id ∉ l.map (fun p => p.Id)) : putPayment l p = l ++ [p] := by
  induction l with
  | nil => rfl
  | cons x rest ih =>
    have hx : ¬ x.Id = p.Id := fun e => h (by simp [e])
    have hr : p.Id ∉ rest.map (fun p => p.Id) := fun e => h (by simp at e ⊢; exact Or.inr e)
    simp [putPayment, hx, ih hr]

theorem putPayment_split {l : List Payment} {p q : Payment}
    (h : lookupPayment l p.Id = some q) :
    ∃ l1 l2, l = l1 ++ q :: l2 ∧ putPayment l p = l1 ++ p :: l2 := by
  induction l with
  | nil => simp [lookupPayment] at h
  | cons x rest ih =>
    unfold lookupPayment at h
    by_cases hx : x.Id = p.Id
    · rw [if_pos hx] at h
      have hxq : x = q := Option.some.inj h
      exact ⟨[], rest, by simp [hxq], by simp [putPayment, hx]⟩
    · rw [if_neg hx] at h
      obtain ⟨l1, l2, e1, e2⟩ := ih h
      exact ⟨x :: l1, l2, by simp [e1], by simp [putPayment, hx, e2]⟩

theorem lookupPayment_id {l : List Payment} {k : String} {q : Payment}
    (h : lookupPayment l k = some q) : q.Id = k := by
  induction l with
  | nil => simp [lookupPayment] at h
  | cons x rest ih =>
    unfold lookupPayment at h
    split_ifs at h with hx
    · exact (Option.some.inj h) ▸ hx
    · exact ih h

theorem childSumL_eq_zero {l : List Payment} {id : String}
    (h : ∀ p ∈ l, ¬ isApprovedChildOf id p) : childSumL l id = 0 := by
  induction l with
  | nil => rfl
  | cons x rest ih =>
    rw [childSumL_cons, if_neg (h x (List.mem_cons_self _ _)),
      ih (fun p hp => h p (List.mem_cons_of_mem _ hp))]
    rfl

theorem chainInv_nil : ChainInv [] :=
  ⟨List.nodup_nil, fun _ hp => absurd hp (List.not_mem_nil _),
    fun _ hp => absurd hp (List.not_mem_nil _)⟩

/-- Adding, under a new key, a record that is not an approved capture or reversal keeps the
chain invariant, provided that an approved authorization starts with its full amount. -/
theorem chainInv_put_fresh {l : List Payment} (h : ChainInv l) {q : Payment}
    (hfresh : q.Id ∉ l.map (fun p => p.Id))
    (hq : ¬ ((q.Operation = constant.CAPTURE ∨ q.Operation = constant.REVERSAL) ∧
      q.Status = "0"))
    (hauth : q.Operation = constant.AUTHORIZATION → q.Status = "0" →
      0 ≤ q.CurrentAmount ∧ q.CurrentAmount = q.Amount) :
    ChainInv (putPayment l q) := by
  obtain ⟨h1, h2, h3⟩ := h
  rw [putPayment_fresh hfresh]
  have hw : ∀ id, childSumL (l ++ [q]) id = childSumL l id := by
    intro id
    have : ¬ isApprovedChildOf id q := fun hc => hq ⟨hc.1, hc.2.1⟩
    rw [childSumL_append, childSumL_cons, if_neg this, childSumL_nil]
    simp
  refine ⟨?_, ?_, ?_⟩
  · rw [List.map_append]
    refine List.Nodup.append h1 (List.nodup_singleton _) ?_
    intro x hx1 hx2
    simp only [List.map_cons, List.map_nil, List.mem_singleton] at hx2
    exact hfresh (hx2 ▸ hx1)
  · intro p hp hop hst
    rcases List.mem_append.mp hp with hp | hp
    · rw [List.map_append]
      exact List.mem_append_left _ (h2 p hp hop hst)
    · rw [List.mem_singleton] at hp
      subst hp
      exact absurd ⟨hop, hst⟩ hq
  · intro p hp hop hst
    rw [hw]
    rcases List.mem_append.mp hp with hp | hp
    · exact h3 p hp hop hst
    · rw [List.mem_singleton] at hp
      subst hp
      have hz : childSumL l p.Id = 0 := by
        apply childSumL_eq_zero
        intro x hx hc
        exact hfresh (hc.2.2 ▸ h2 x hx hc.1 hc.2.1)
      obtain ⟨ha, hb⟩ := hauth hop hst
      rw [hz]
      exact ⟨ha, by omega⟩

/-- Rewriting a stored record `ref` as `ref1` (same key, kind, status, reference and
amount) and adding `child` under a new key keeps the chain invariant, provided that
`child` is not an authorization, that it references `ref` if it is an approved capture or
reversal, and that an approved authorization `ref` gives up exactly the amount of such a
child and stays non-negative. -/
theorem chainInv_modify_append {l1 l2 : List Payment} {ref ref1 child : Payment}
    (h : ChainInv (l1 ++ ref :: l2))
    (hid : ref1.Id = ref.Id) (hop : ref1.Operation = ref.Operation)
    (hst : ref1.Status = ref.Status) (hrid : ref1.ReferenceId = ref.ReferenceId)
    (ham : ref1.Amount = ref.Amount)
    (hfresh : child.Id ∉ (l1 ++ ref :: l2).map (fun p => p.Id))
    (hcauth : child.Operation ≠ constant.AUTHORIZATION)
    (hcref : (child.Operation = constant.CAPTURE ∨ child.Operation = constant.REVERSAL) →
      child.Status = "0" → child.ReferenceId = ref.Id)
    (hcur : ref.Operation = constant.AUTHORIZATION → ref.Status = "0" →
      0 ≤ ref1.CurrentAmount ∧
      ref1.CurrentAmount = ref.CurrentAmount
        - (if isApprovedChildOf ref.Id child then child.Amount else 0)) :
    ChainInv (l1 ++ ref1 :: l2 ++ [child]) := by
  obtain ⟨h1, h2, h3⟩ := h
  have hids : (l1 ++ ref1 :: l2 ++ [child]).map (fun p => p.Id)
      = (l1 ++ ref :: l2).map (fun p => p.Id) ++ [child.Id] := by
    simp [hid]
  have hw1 : ∀ id, (if isApprovedChildOf id ref1 then ref1.Amount else 0)
      = (if isApprovedChildOf id ref then ref.Amount else 0) := by
    intro id
    simp only [isApprovedChildOf, hop, hst, hrid, ham]
  have hsum : ∀ id, childSumL (l1 ++ ref1 :: l2 ++ [child]) id
      = childSumL (l1 ++ ref :: l2) id
        + (if isApprovedChildOf id child then child.Amount else 0) := by
    intro id
    simp only [childSumL_append, childSumL_cons, childSumL_nil, hw1, List.append_assoc,
      List.cons_append]
    ring
  have hother : ∀ p ∈ l1 ++ ref :: l2, p.Id ≠ ref.Id →
      (if isApprovedChildOf p.Id child then child.Amount else 0) = 0 := by
    intro p _ hne
    rw [if_neg]
    intro hc
    exact hne (hc.2.2 ▸ (hcref hc.1 hc.2.1))
  have hmem : ∀ p ∈ l1 ++ ref1 :: l2 ++ [child],
      p = child ∨ p = ref1 ∨ (p ∈ l1 ++ ref :: l2 ∧ p.Id ≠ ref.Id) := by
    intro p hp
    simp only [List.mem_append, List.mem_cons, List.mem_singleton, List.not_mem_nil,
      or_false] at hp
    rw [List.map_append, List.map_cons] at h1
    have hnd := List.nodup_append.mp h1
    have hmid := List.nodup_cons.mp hnd.2.1
    rcases hp with (hp | hp | hp) | hp
    · refine Or.inr (Or.inr ⟨List.mem_append_left _ hp, fun e => ?_⟩)
      exact hnd.2.2 (List.mem_map_of_mem (fun p => p.Id) hp) (e ▸ List.mem_cons_self _ _)
    · exact Or.inr (Or.inl hp)
    · refine Or.inr (Or.inr ⟨List.mem_append_right _ (List.mem_cons_of_mem _ hp), fun e => ?_⟩)
      exact hmid.1 (e ▸ List.mem_map_of_mem (fun p => p.Id) hp)
    · exact Or.inl hp
  have href : ref ∈ l1 ++ ref :: l2 := List.mem_append_right _ (List.mem_cons_self _ _)
  refine ⟨?_, ?_, ?_⟩
  · rw [hids]
    refine List.Nodup.append h1 (List.nodup_singleton _) ?_
    intro x hx1 hx2
    rw [List.mem_singleton] at hx2
    exact hfresh (hx2 ▸ hx1)
  · intro p hp hpop hpst
    rw [hids]
    apply List.mem_append_left
    rcases hmem p hp with rfl | rfl | ⟨hp, _⟩
    · rw [hcref hpop hpst]
      exact List.mem_map_of_mem (fun p => p.Id) href
    · rw [hrid]
      exact h2 ref href (hop ▸ hpop) (hst ▸ hpst)
    · exact h2 p hp hpop hpst
  · intro p hp hpop hpst
    rw [hsum]
    rcases hmem p hp with rfl | rfl | ⟨hp, hne⟩
    · exact absurd hpop hcauth
    · obtain ⟨ha, hb⟩ := h3 ref href (hop ▸ hpop) (hst ▸ hpst)
      obtain ⟨hc, hd⟩ := hcur (hop ▸ hpop) (hst ▸ hpst)
      rw [hid, ham]
      exact ⟨hc, by omega⟩
    · rw [hother p hp hne]
      obtain ⟨ha, hb⟩ := h3 p hp hpop hpst
      exact ⟨ha, by omega⟩

/-- The same, on the store: `ref` is the record found under its key. -/
theorem chainInv_put_put {l : List Payment} {ref ref1 child : Payment}
    (h : ChainInv l) (hl : lookupPayment l ref.Id = some ref)
    (hid : ref1.Id = ref.Id) (hop : ref1.Operation = ref.Operation)
    (hst : ref1.Status = ref.Status) (hrid : ref1.ReferenceId = ref.ReferenceId)
    (ham : ref1.Amount = ref.Amount)
    (hfresh : child.Id ∉ l.map (fun p => p.Id))
    (hcauth : child.Operation ≠ constant.AUTHORIZATION)
    (hcref : (child.Operation = constant.CAPTURE ∨ child.Operation = constant.REVERSAL) →
      child.Status = "0" → child.ReferenceId = ref.Id)
    (hcur : ref.Operation = constant.AUTHORIZATION → ref.Status = "0" →
      0 ≤ ref1.CurrentAmount ∧
      ref1.CurrentAmount = ref.CurrentAmount
        - (if isApprovedChildOf ref.Id child then child.Amount else 0)) :
    ChainInv (putPayment (putPayment l ref1) child) := by
  obtain ⟨l1, l2, e1, e2⟩ := putPayment_split (p := ref1) (hid ▸ hl)
  subst e1
  rw [e2]
  have hf : child.Id ∉ (l1 ++ ref1 :: l2).map (fun p => p.Id) := by
    simpa [hid] using hfresh
  rw [putPayment_fresh hf]
  exact chainInv_modify_append h hid hop hst hrid ham hfresh hcauth hcref hcur

theorem chainInv_authorization {db : DB} (h : ChainInv db.payments) (From : String)
    (req : dto.AuthorizationRequestDto) (newId : String)
    (ho : Orderly db (.authorization From req newId)) :
    ChainInv (PaymentsAuthorization db From req newId).1.payments := by
  obtain ⟨hfresh, ha⟩ := ho
  unfold PaymentsAuthorization
  simp only
  split_ifs with h1 h2 h3 h4 h5 h6
  all_goals first
    | exact h
    | (simp only [saveAccount, savePayment]
       refine chainInv_put_fresh h hfresh ?_ ?_
       · simp [CreateAuthorizationPayment, constant.AUTHORIZATION, constant.CAPTURE,
           constant.REVERSAL]
       · simp [CreateAuthorizationPayment, ha])

theorem chainInv_successive {db : DB} (h : ChainInv db.payments) {referenceId newId : String}
    (req : dto.SuccessiveRequestDto) (kind : String)
    (hkind : kind = constant.CAPTURE ∨ kind = constant.REVERSAL ∨ kind = constant.REFUND)
    (hparent : (getPayment db referenceId).Operation = constant.AUTHORIZATION →
      kind ≠ constant.REFUND)
    (hchild : kind ≠ constant.REFUND →
      (getPayment db referenceId).Operation = constant.AUTHORIZATION ∧
        (getPayment db referenceId).Status = "0")
    (hr : ResolvesPayment db referenceId)
    (hle : ¬ (getPayment db referenceId).CurrentAmount < req.Amount)
    (hfresh : newId ∉ db.payments.map (fun p => p.Id)) :
    ChainInv (putPayment
      (putPayment db.payments
        { getPayment db referenceId with
          CurrentAmount := (getPayment db referenceId).CurrentAmount - req.Amount })
      (CreateSuccessivePayment newId
        { req with Type_ := kind, ReferenceId := referenceId }
        { getPayment db referenceId with
          CurrentAmount := (getPayment db referenceId).CurrentAmount - req.Amount }
        "0" "Approved")) := by
  have hl : lookupPayment db.payments (getPayment db referenceId).Id
      = some (getPayment db referenceId) := by
    rw [hr.2]; exact lookupPayment_of_resolves hr
  refine chainInv_put_put h hl rfl rfl rfl rfl rfl hfresh ?_ ?_ ?_
  · rcases hkind with rfl | rfl | rfl <;>
      simp [CreateSuccessivePayment, constant.AUTHORIZATION, constant.CAPTURE,
        constant.REVERSAL, constant.REFUND]
  · intro _ _
    rfl
  · intro hop hst
    have hk := hparent hop
    have hc : isApprovedChildOf (getPayment db referenceId).Id
        (CreateSuccessivePayment newId
          { req with Type_ := kind, ReferenceId := referenceId }
          { getPayment db referenceId with
            CurrentAmount := (getPayment db referenceId).CurrentAmount - req.Amount }
          "0" "Approved") := by
      refine ⟨?_, rfl, rfl⟩
      rcases hkind with rfl | rfl | rfl
      · exact Or.inl rfl
      · exact Or.inr rfl
      · exact absurd rfl hk
    rw [if_pos hc]
    simp only [CreateSuccessivePayment, and_true]
    omega

theorem chainInv_capture {db : DB} (h : ChainInv db.payments) (From referenceId : String)
    (req : dto.SuccessiveRequestDto) (newId : String)
    (ho : Orderly db (.capture From referenceId req newId)) :
    ChainInv (PaymentsCapture db From referenceId req newId).1.payments := by
  have hfresh : newId ∉ db.payments.map (fun p => p.Id) := ho
  unfold PaymentsCapture
  simp only
  split_ifs with h1 h2 h3 h4 h5 h6
  all_goals first
    | exact h
    | (simp only [saveAccount, savePayment]
       refine chainInv_put_fresh h hfresh ?_ ?_
       · simp [CreateSuccessivePayment]
       · simp [CreateSuccessivePayment])
    | skip
  simp only [saveAccount, savePayment]
  exact chainInv_successive h req constant.CAPTURE (Or.inl rfl) (fun _ => by decide)
    (fun _ => h5) ⟨not_le.mp h3, not_not.mp h4⟩ h6 hfresh

theorem chainInv_reversal {db : DB} (h : ChainInv db.payments) (From referenceId : String)
    (req : dto.SuccessiveRequestDto) (newId : String)
    (ho : Orderly db (.reversal From referenceId req newId)) :
    ChainInv (PaymentsReversal db From referenceId req newId).1.payments := by
  have hfresh : newId ∉ db.payments.map (fun p => p.Id) := ho
  unfold PaymentsReversal
  simp only
  split_ifs with h1 h2 h3 h4 h5 h6
  all_goals first
    | exact h
    | (simp only [saveAccount, savePayment]
       refine chainInv_put_fresh h hfresh ?_ ?_
       · simp [CreateSuccessivePayment]
       · simp [CreateSuccessivePayment])
    | skip
  simp only [saveAccount, savePayment]
  exact chainInv_successive h req constant.REVERSAL (Or.inr (Or.inl rfl)) (fun _ => by decide)
    (fun _ => h5) ⟨not_le.mp h3, not_not.mp h4⟩ h6 hfresh

theorem chainInv_refund {db : DB} (h : ChainInv db.payments) (From referenceId : String)
    (req : dto.SuccessiveRequestDto) (newId : String)
    (ho : Orderly db (.refund From referenceId req newId)) :
    ChainInv (PaymentsRefund db From referenceId req newId).1.payments := by
  have hfresh : newId ∉ db.payments.map (fun p => p.Id) := ho
  unfold PaymentsRefund
  simp only
  split_ifs with h1 h2 h3 h4 h5 h6
  all_goals first
    | exact h
    | (simp only [saveAccount, savePayment]
       refine chainInv_put_fresh h hfresh ?_ ?_
       · simp [CreateSuccessivePayment]
       · simp [CreateSuccessivePayment])
    | skip
  simp only [saveAccount, savePayment]
  refine chainInv_successive h req constant.REFUND (Or.inr (Or.inr rfl)) ?_
    (fun hne => absurd rfl hne) ⟨not_le.mp h3, not_not.mp h4⟩ h6 hfresh
  intro hop
  rw [h5.1] at hop
  exact absurd hop (by decide)

theorem chainInv_step {db : DB} (h : ChainInv db.payments) (r : Request)
    (ho : Orderly db r) : ChainInv (step db r).payments := by
  cases r with
  | create c s m y => exact h
  | deposit req =>
    show ChainInv (AccountsDeposit db req).1.payments
    unfold AccountsDeposit
    simp only
    split_ifs <;> exact h
  | authorization f req n => exact chainInv_authorization h f req n ho
  | capture f r req n => exact chainInv_capture h f r req n ho
  | reversal f r req n => exact chainInv_reversal h f r req n ho
  | refund f r req n => exact chainInv_refund h f r req n ho

theorem chainInv_run (reqs : List Request) :
    ∀ db : DB, ChainInv db.payments → OrderlyRun db reqs → ChainInv (run db reqs).payments := by
  induction reqs with
  | nil => intro db h _; exact h
  | cons r rest ih =>
    intro db h ho
    exact ih (step db r) (chainInv_step h r ho.1) ho.2

/-- C6 (counterexample): merchant `M` asks for an authorization of −5 on the new card `C`;
it is approved, its `currentAmount` is −5, below zero, and the (empty) sum of approved
captures and reversals against it, 0, exceeds its amount −5. -/
theorem negative_authorization_exceeds_amount :
    getPayment dbNegativeAuthorization "p1" ∈ dbNegativeAuthorization.payments ∧
    (getPayment dbNegativeAuthorization "p1").Operation = constant.AUTHORIZATION ∧
    (getPayment dbNegativeAuthorization "p1").Status = "0" ∧
    (getPayment dbNegativeAuthorization "p1").Amount = -5 ∧
    (getPayment dbNegativeAuthorization "p1").CurrentAmount = -5 ∧
    childSum dbNegativeAuthorization "p1" = 0 ∧
    ¬ (childSum dbNegativeAuthorization "p1" ≤ (getPayment dbNegativeAuthorization "p1").Amount) ∧
    ¬ (0 ≤ (getPayment dbNegativeAuthorization "p1").CurrentAmount) := by
  decide

/-- C6 (amended): in every store reached from the empty store by API operations whose new
payment identifiers are fresh and whose authorizations ask for non-negative amounts, every
stored approved authorization has the sum of the amounts of the approved captures and
reversals referencing it at most its original amount; its `currentAmount` is that amount
less this sum and is never below zero. -/
theorem chain_children_within_amount (reqs : List Request)
    (h : OrderlyRun DB.empty reqs) :
    ∀ p ∈ (run DB.empty reqs).payments,
      p.Operation = constant.AUTHORIZATION → p.Status = "0" →
      childSum (run DB.empty reqs) p.Id ≤ p.Amount ∧
      0 ≤ p.CurrentAmount ∧
      p.CurrentAmount = p.Amount - childSum (run DB.empty reqs) p.Id := by
  intro p hp hop hst
  obtain ⟨ha, hb⟩ := (chainInv_run reqs DB.empty chainInv_nil h).2.2 p hp hop hst
  unfold childSum
  exact ⟨by omega, ha, hb⟩

/-- Witness for C6 (amended): in the scenario the captures of 150 and 50 against the
authorization of 200 sum to 200 and leave `currentAmount` 0. -/
theorem chain_children_within_amount_witness :
    OrderlyRun DB.empty scenario ∧
    childSum (run DB.empty scenario) "p1" = 200 ∧
    (childSum (run DB.empty scenario) (getPayment (run DB.empty scenario) "p1").Id
        ≤ (getPayment (run DB.empty scenario) "p1").Amount ∧
      0 ≤ (getPayment (run DB.empty scenario) "p1").CurrentAmount ∧
      (getPayment (run DB.empty scenario) "p1").CurrentAmount
        = (getPayment (run DB.empty scenario) "p1").Amount
          - childSum (run DB.empty scenario) (getPayment (run DB.empty scenario) "p1").Id) :=
  ⟨by decide, by decide,
    chain_children_within_amount scenario (by decide)
      (getPayment (run DB.empty scenario) "p1") (by decide) (by decide) (by decide)⟩

/-! ## Declines -/

theorem capture_excess_declined (db : DB) (From referenceId : String)
    (req : dto.SuccessiveRequestDto) (newId : String)
    (hm : ResolvesAccount db From) (hr : ResolvesPayment db referenceId)
    (hkind : (getPayment db referenceId).Operation = constant.AUTHORIZATION ∧
      (getPayment db referenceId).Status = "0")
    (hgt : (getPayment db referenceId).CurrentAmount < req.Amount)
    (hfresh : newId ≠ referenceId) :
    (PaymentsCapture db From referenceId req newId).2.Status = "13" ∧
    balances (PaymentsCapture db From referenceId req newId).1 = balances db ∧
    (getPayment (PaymentsCapture db From referenceId req newId).1 referenceId).CurrentAmount
      = (getPayment db referenceId).CurrentAmount := by
  have h1 : From.length > 0 := hm.1
  have h2 : ¬ (getAccount db From).Id ≠ From := not_not.mpr hm.2
  have h3 : ¬ referenceId.length ≤ 0 := not_le.mpr hr.1
  have h4 : ¬ (getPayment db referenceId).Id ≠ referenceId := not_not.mpr hr.2
  unfold PaymentsCapture
  simp only [h1, h2, h3, h4, hkind, hgt, if_true, if_false, and_self]
  refine ⟨rfl, balances_append_statement db _ From _ hm, ?_⟩
  simp [getPayment_saveAccount, getPayment_savePayment, CreateSuccessivePayment, hfresh]

theorem reversal_excess_declined (db : DB) (From referenceId : String)
    (req : dto.SuccessiveRequestDto) (newId : String)
    (hm : ResolvesAccount db From) (hr : ResolvesPayment db referenceId)
    (hkind : (getPayment db referenceId).Operation = constant.AUTHORIZATION ∧
      (getPayment db referenceId).Status = "0")
    (hgt : (getPayment db referenceId).CurrentAmount < req.Amount)
    (hfresh : newId ≠ referenceId) :
    (PaymentsReversal db From referenceId req newId).2.Status = "13" ∧
    balances (PaymentsReversal db From referenceId req newId).1 = balances db ∧
    (getPayment (PaymentsReversal db From referenceId req newId).1 referenceId).CurrentAmount
      = (getPayment db referenceId).CurrentAmount := by
  have h1 : From.length > 0 := hm.1
  have h2 : ¬ (getAccount db From).Id ≠ From := not_not.mpr hm.2
  have h3 : ¬ referenceId.length ≤ 0 := not_le.mpr hr.1
  have h4 : ¬ (getPayment db referenceId).Id ≠ referenceId := not_not.mpr hr.2
  unfold PaymentsReversal
  simp only [h1, h2, h3, h4, hkind, hgt, if_true, if_false, and_self]
  refine ⟨rfl, balances_append_statement db _ From _ hm, ?_⟩
  simp [getPayment_saveAccount, getPayment_savePayment, CreateSuccessivePayment, hfresh]

theorem refund_excess_declined (db : DB) (From referenceId : String)
    (req : dto.SuccessiveRequestDto) (newId : String)
    (hm : ResolvesAccount db From) (hr : ResolvesPayment db referenceId)
    (hkind : (getPayment db referenceId).Operation = constant.CAPTURE ∧
      (getPayment db referenceId).Status = "0")
    (hgt : (getPayment db referenceId).CurrentAmount < req.Amount)
    (hfresh : newId ≠ referenceId) :
    (PaymentsRefund db From referenceId req newId).2.Status = "13" ∧
    balances (PaymentsRefund db From referenceId req newId).1 = balances db ∧
    (getPayment (PaymentsRefund db From referenceId req newId).1 referenceId).CurrentAmount
      = (getPayment db referenceId).CurrentAmount := by
  have h1 : From.length > 0 := hm.1
  have h2 : ¬ (getAccount db From).Id ≠ From := not_not.mpr hm.2
  have h3 : ¬ referenceId.length ≤ 0 := not_le.mpr hr.1
  have h4 : ¬ (getPayment db referenceId).Id ≠ referenceId := not_not.mpr hr.2
  unfold PaymentsRefund
  simp only [h1, h2, h3, h4, hkind, hgt, if_true, if_false, and_self]
  refine ⟨rfl, balances_append_statement db _ From _ hm, ?_⟩
  simp [getPayment_saveAccount, getPayment_savePayment, CreateSuccessivePayment, hfresh]

/-- C7: a capture, reversal or refund whose merchant resolves, whose reference resolves to
an approved payment of the expected parent kind (`AUTHORIZATION` for capture and reversal,
`CAPTURE` for refund) and whose amount exceeds that payment's `currentAmount` is answered
with status "13"; identifier, available and blocked of every stored account and the
`currentAmount` of the referenced payment are the same afterwards (the identifier of the
recorded decline being a new one, not the reference). -/
theorem excess_amount_status_13 (db : DB) (From referenceId : String)
    (req : dto.SuccessiveRequestDto) (newId : String)
    (hm : ResolvesAccount db From) (hr : ResolvesPayment db referenceId)
    (hgt : (getPayment db referenceId).CurrentAmount < req.Amount)
    (hfresh : newId ≠ referenceId) :
    ((getPayment db referenceId).Operation = constant.AUTHORIZATION ∧
        (getPayment db referenceId).Status = "0" →
      ((PaymentsCapture db From referenceId req newId).2.Status = "13" ∧
        balances (PaymentsCapture db From referenceId req newId).1 = balances db ∧
        (getPayment (PaymentsCapture db From referenceId req newId).1 referenceId).CurrentAmount
          = (getPayment db referenceId).CurrentAmount) ∧
      ((PaymentsReversal db From referenceId req newId).2.Status = "13" ∧
        balances (PaymentsReversal db From referenceId req newId).1 = balances db ∧
        (getPayment (PaymentsReversal db From referenceId req newId).1 referenceId).CurrentAmount
          = (getPayment db referenceId).CurrentAmount)) ∧
    ((getPayment db referenceId).Operation = constant.CAPTURE ∧
        (getPayment db referenceId).Status = "0" →
      (PaymentsRefund db From referenceId req newId).2.Status = "13" ∧
        balances (PaymentsRefund db From referenceId req newId).1 = balances db ∧
        (getPayment (PaymentsRefund db From referenceId req newId).1 referenceId).CurrentAmount
          = (getPayment db referenceId).CurrentAmount) :=
  ⟨fun hk => ⟨capture_excess_declined db From referenceId req newId hm hr hk hgt hfresh,
      reversal_excess_declined db From referenceId req newId hm hr hk hgt hfresh⟩,
    fun hk => refund_excess_declined db From referenceId req newId hm hr hk hgt hfresh⟩

/-- Witness for C7: after 150 of the 200 authorized were captured, a capture of 100 is
declined with "13" and nothing moves. -/
theorem excess_amount_status_13_witness :
    ResolvesAccount dbCaptured "M" ∧ ResolvesPayment dbCaptured "p1" ∧
    (getPayment dbCaptured "p1").CurrentAmount = 50 ∧
    ((PaymentsCapture dbCaptured "M" "p1" (successive 100) "p3").2.Status = "13" ∧
      balances (PaymentsCapture dbCaptured "M" "p1" (successive 100) "p3").1
        = balances dbCaptured ∧
      (getPayment (PaymentsCapture dbCaptured "M" "p1" (successive 100) "p3").1 "p1").CurrentAmount
        = (getPayment dbCaptured "p1").CurrentAmount) :=
  ⟨by decide, by decide, by decide,
    ((excess_amount_status_13 dbCaptured "M" "p1" (successive 100) "p3"
      (by decide) (by decide) (by decide) (by decide)).1 (by decide)).1⟩

theorem declineFrame_refl (db : DB) (merchant newId : String) :
    DeclineFrame db db merchant newId :=
  ⟨rfl, fun _ _ => rfl, Or.inl rfl⟩

theorem declineFrame_append (db : DB) (p : Payment) (merchant newId : String)
    (hm : ResolvesAccount db merchant) :
    DeclineFrame db
      (saveAccount (savePayment db p)
        { getAccount db merchant with
          Statement := (getAccount db merchant).Statement ++ [newId] })
      merchant newId := by
  refine ⟨balances_append_statement db p merchant _ hm, ?_, ?_⟩
  · intro k hk
    rw [getAccount_saveAccount, getAccount_savePayment]
    have : ¬ (getAccount db merchant).Id = k := by
      rw [hm.2]; exact fun h => hk h.symm
    simp [this]
  · right
    rw [getAccount_saveAccount, getAccount_savePayment]
    simp [hm.2]

/-- C8 (counterexample): the lone account `X` requests, as merchant, an authorization of
10 on its own card.  The request is declined with "51", and the cardholder's statement
is not unchanged: the cardholder is the merchant, whose statement receives the record. -/
theorem declined_authorization_extends_cardholder_statement :
    (PaymentsAuthorization dbLoneAccount "X" ⟨"O9", "X", "777", "07", "2031", 10⟩ "q1").2.Status
      = "51" ∧
    (PaymentsAuthorization dbLoneAccount "X" ⟨"O9", "X", "777", "07", "2031", 10⟩ "q1").2.Status
      ≠ "0" ∧
    (getAccount dbLoneAccount "X").Statement = [] ∧
    (getAccount (PaymentsAuthorization dbLoneAccount "X"
      ⟨"O9", "X", "777", "07", "2031", 10⟩ "q1").1 "X").Statement = ["q1"] ∧
    (getAccount (PaymentsAuthorization dbLoneAccount "X"
      ⟨"O9", "X", "777", "07", "2031", 10⟩ "q1").1 "X").Statement
      ≠ (getAccount dbLoneAccount "X").Statement := by
  decide

/-- C8 (amended): for every store and every authorization, capture, reversal or refund
request answered with a status other than "0", identifier, available and blocked of every
stored account are unchanged, every account other than the requesting merchant is
unchanged in all its fields (so the cardholder's statement is unchanged whenever the
cardholder is not the requesting merchant), and the merchant's record is unchanged or has
exactly the new payment identifier appended to its statement. -/
theorem decline_frame (db : DB) (From referenceId : String)
    (areq : dto.AuthorizationRequestDto) (req : dto.SuccessiveRequestDto) (newId : String) :
    ((PaymentsAuthorization db From areq newId).2.Status ≠ "0" →
      DeclineFrame db (PaymentsAuthorization db From areq newId).1 From newId) ∧
    ((PaymentsCapture db From referenceId req newId).2.Status ≠ "0" →
      DeclineFrame db (PaymentsCapture db From referenceId req newId).1 From newId) ∧
    ((PaymentsReversal db From referenceId req newId).2.Status ≠ "0" →
      DeclineFrame db (PaymentsReversal db From referenceId req newId).1 From newId) ∧
    ((PaymentsRefund db From referenceId req newId).2.Status ≠ "0" →
      DeclineFrame db (PaymentsRefund db From referenceId req newId).1 From newId) := by
  refine ⟨?_, ?_, ?_, ?_⟩
  · intro h
    unfold PaymentsAuthorization at h ⊢
    simp only at h ⊢
    split_ifs at h ⊢ with h1 h2 h3 h4 h5 h6
    all_goals first
      | exact declineFrame_refl db From newId
      | exact declineFrame_append db _ From newId ⟨h1, not_not.mp h2⟩
      | exact absurd rfl h
  · intro h
    unfold PaymentsCapture at h ⊢
    simp only at h ⊢
    split_ifs at h ⊢ with h1 h2 h3 h4 h5 h6
    all_goals first
      | exact declineFrame_refl db From newId
      | exact declineFrame_append db _ From newId ⟨h1, not_not.mp h2⟩
      | exact absurd rfl h
  · intro h
    unfold PaymentsReversal at h ⊢
    simp only at h ⊢
    split_ifs at h ⊢ with h1 h2 h3 h4 h5 h6
    all_goals first
      | exact declineFrame_refl db From newId
      | exact declineFrame_append db _ From newId ⟨h1, not_not.mp h2⟩
      | exact absurd rfl h
  · intro h
    unfold PaymentsRefund at h ⊢
    simp only at h ⊢
    split_ifs at h ⊢ with h1 h2 h3 h4 h5 h6
    all_goals first
      | exact declineFrame_refl db From newId
      | exact declineFrame_append db _ From newId ⟨h1, not_not.mp h2⟩
      | exact absurd rfl h

/-- Witness for C8 (amended): the scenario's declined capture of 100 against the 50 left. -/
theorem decline_frame_witness :
    (PaymentsCapture dbCaptured "M" "p1" (successive 100) "p3").2.Status ≠ "0" ∧
    DeclineFrame dbCaptured (PaymentsCapture dbCaptured "M" "p1" (successive 100) "p3").1
      "M" "p3" :=
  ⟨by decide,
    (decline_frame dbCaptured "M" "p1" authO1 (successive 100) "p3").2.1 (by decide)⟩

/-- C9 (counterexample): a capture that names no merchant, against the stored record `p2`
(a `CAPTURE`, not an `AUTHORIZATION`), is answered with "3", not "12": the merchant check
comes before the reference checks. -/
theorem wrong_parent_without_merchant_status_3 :
    ResolvesPayment dbCaptured "p2" ∧
    (getPayment dbCaptured "p2").Operation ≠ constant.AUTHORIZATION ∧
    (PaymentsCapture dbCaptured "" "p2" (successive 10) "p9").2.Status = "3" ∧
    (PaymentsCapture dbCaptured "" "p2" (successive 10) "p9").2.Status ≠ "12" := by
  decide

/-- C9 (amended): for every store, a capture or reversal whose reference resolves to a
payment that is not an `AUTHORIZATION` with status "0", and a refund whose reference
resolves to a payment that is not a `CAPTURE` with status "0", is never approved and
leaves the store as it was; when the requesting merchant resolves, its status is "12". -/
theorem wrong_parent_declined (db : DB) (From referenceId : String)
    (req : dto.SuccessiveRequestDto) (newId : String)
    (hr : ResolvesPayment db referenceId) :
    (¬ ((getPayment db referenceId).Operation = constant.AUTHORIZATION ∧
        (getPayment db referenceId).Status = "0") →
      ((PaymentsCapture db From referenceId req newId).2.Status ≠ "0" ∧
        (PaymentsCapture db From referenceId req newId).1 = db ∧
        (ResolvesAccount db From →
          (PaymentsCapture db From referenceId req newId).2.Status = "12")) ∧
      ((PaymentsReversal db From referenceId req newId).2.Status ≠ "0" ∧
        (PaymentsReversal db From referenceId req newId).1 = db ∧
        (ResolvesAccount db From →
          (PaymentsReversal db From referenceId req newId).2.Status = "12"))) ∧
    (¬ ((getPayment db referenceId).Operation = constant.CAPTURE ∧
        (getPayment db referenceId).Status = "0") →
      (PaymentsRefund db From referenceId req newId).2.Status ≠ "0" ∧
        (PaymentsRefund db From referenceId req newId).1 = db ∧
        (ResolvesAccount db From →
          (PaymentsRefund db From referenceId req newId).2.Status = "12")) := by
  have h3 : ¬ referenceId.length ≤ 0 := not_le.mpr hr.1
  have h4 : ¬ (getPayment db referenceId).Id ≠ referenceId := not_not.mpr hr.2
  refine ⟨fun hk => ⟨?_, ?_⟩, fun hk => ?_⟩
  · unfold PaymentsCapture
    simp only [h3, h4, hk, if_false]
    refine ⟨?_, ?_, ?_⟩
    · split_ifs <;> simp [dto.CreatePaymentResponseDto]
    · split_ifs <;> rfl
    · intro hm
      have h1 : From.length > 0 := hm.1
      have h2 : ¬ (getAccount db From).Id ≠ From := not_not.mpr hm.2
      simp [h1, h2, dto.CreatePaymentResponseDto]
  · unfold PaymentsReversal
    simp only [h3, h4, hk, if_false]
    refine ⟨?_, ?_, ?_⟩
    · split_ifs <;> simp [dto.CreatePaymentResponseDto]
    · split_ifs <;> rfl
    · intro hm
      have h1 : From.length > 0 := hm.1
      have h2 : ¬ (getAccount db From).Id ≠ From := not_not.mpr hm.2
      simp [h1, h2, dto.CreatePaymentResponseDto]
  · unfold PaymentsRefund
    simp only [h3, h4, hk, if_false]
    refine ⟨?_, ?_, ?_⟩
    · split_ifs <;> simp [dto.CreatePaymentResponseDto]
    · split_ifs <;> rfl
    · intro hm
      have h1 : From.length > 0 := hm.1
      have h2 : ¬ (getAccount db From).Id ≠ From := not_not.mpr hm.2
      simp [h1, h2, dto.CreatePaymentResponseDto]

/-- Witness for C9 (amended): merchant `M` tries to capture against the capture `p2`. -/
theorem wrong_parent_declined_witness :
    ResolvesPayment dbCaptured "p2" ∧
    ¬ ((getPayment dbCaptured "p2").Operation = constant.AUTHORIZATION ∧
        (getPayment dbCaptured "p2").Status = "0") ∧
    ResolvesAccount dbCaptured "M" ∧
    (PaymentsCapture dbCaptured "M" "p2" (successive 10) "p9").2.Status = "12" :=
  ⟨by decide, by decide, by decide,
    ((wrong_parent_declined dbCaptured "M" "p2" (successive 10) "p9" (by decide)).1
      (by decide)).1.2.2 (by decide)⟩

/-- C10: for every authorization request whose merchant and card both resolve and whose
card number, security code, expiry month and expiry year all match the stored values, the
status is "51" exactly when the cardholder's available is less than the amount and "0"
otherwise; on "51" the response reads "Insufficient Funds", the declined payment record is
stored under the new identifier, that identifier is appended to the merchant's statement,
every other account is unchanged in all its fields, and identifier, available and blocked
of every stored account are unchanged. -/
theorem authorization_funds_check (db : DB) (From : String)
    (req : dto.AuthorizationRequestDto) (newId : String)
    (hm : ResolvesAccount db From) (hc : ResolvesAccount db req.CardNumber)
    (hnum : (getAccount db req.CardNumber).CardNumber = req.CardNumber)
    (hsec : (getAccount db req.CardNumber).CardSecurityCode = req.CardSecurityCode)
    (hmonth : (getAccount db req.CardNumber).CardExpiryMonth = req.CardExpiryMonth)
    (hyear : (getAccount db req.CardNumber).CardExpiryYear = req.CardExpiryYear) :
    ((PaymentsAuthorization db From req newId).2.Status = "51" ↔
      (getAccount db req.CardNumber).Available < req.Amount) ∧
    (¬ (getAccount db req.CardNumber).Available < req.Amount →
      (PaymentsAuthorization db From req newId).2
        = dto.CreatePaymentResponseDto newId "0" "Approved") ∧
    ((getAccount db req.CardNumber).Available < req.Amount →
      (PaymentsAuthorization db From req newId).2
        = dto.CreatePaymentResponseDto newId "51" "Insufficient Funds" ∧
      getPayment (PaymentsAuthorization db From req newId).1 newId
        = { Id := newId, Operation := constant.AUTHORIZATION, ReferenceId := "",
            OrderId := req.OrderId, CardNumber := req.CardNumber, Amount := req.Amount,
            CurrentAmount := req.Amount, Status := "51",
            StatusMessage := "Insufficient Funds" } ∧
      (getAccount (PaymentsAuthorization db From req newId).1 From).Statement
        = (getAccount db From).Statement ++ [newId] ∧
      (∀ k, k ≠ From →
        getAccount (PaymentsAuthorization db From req newId).1 k = getAccount db k) ∧
      balances (PaymentsAuthorization db From req newId).1 = balances db) := by
  have h1 : From.length > 0 := hm.1
  have h2 : ¬ (getAccount db From).Id ≠ From := not_not.mpr hm.2
  have h3 : req.CardNumber.length > 0 := hc.1
  have h4 : ¬ (getAccount db req.CardNumber).Id ≠ req.CardNumber := not_not.mpr hc.2
  have h5 : ¬ ((getAccount db req.CardNumber).CardNumber ≠ req.CardNumber ∨
      (getAccount db req.CardNumber).CardSecurityCode ≠ req.CardSecurityCode ∨
      (getAccount db req.CardNumber).CardExpiryYear ≠ req.CardExpiryYear ∨
      (getAccount db req.CardNumber).CardExpiryMonth ≠ req.CardExpiryMonth) := by
    simp [hnum, hsec, hmonth, hyear]
  unfold PaymentsAuthorization
  simp only [h1, h2, h3, h4, h5, if_true, if_false]
  by_cases hlt : (getAccount db req.CardNumber).Available < req.Amount
  · simp only [hlt, if_true]
    refine ⟨⟨fun _ => trivial, fun _ => rfl⟩, fun h => absurd trivial h, fun _ => ?_⟩
    have hf := declineFrame_append db
      (CreateAuthorizationPayment newId req (getAccount db req.CardNumber)
        (getAccount db From) "51" "Insufficient Funds") From newId hm
    refine ⟨rfl, ?_, ?_, hf.2.1, hf.1⟩
    · rw [getPayment_saveAccount, getPayment_savePayment]
      simp [CreateAuthorizationPayment]
    · rw [getAccount_saveAccount, getAccount_savePayment]
      simp [CreateAuthorizationPayment, hm.2]
  · simp only [hlt, if_false]
    refine ⟨⟨fun h => ?_, fun h => absurd h (by simp)⟩, fun _ => rfl, fun h => absurd h (by simp)⟩
    revert h
    simp [dto.CreatePaymentResponseDto]

/-- Witness for C10: merchant `M` asks for 1001 on card `C`, which holds 1000, with
matching credentials. -/
theorem authorization_funds_check_witness :
    ResolvesAccount dbFunded "M" ∧ ResolvesAccount dbFunded "C" ∧
    ((PaymentsAuthorization dbFunded "M" { authO1 with Amount := 1001 } "p1").2.Status = "51" ↔
      (getAccount dbFunded "C").Available < 1001) :=
  ⟨by decide, by decide,
    (authorization_funds_check dbFunded "M" { authO1 with Amount := 1001 } "p1"
      (by decide) (by decide) (by decide) (by decide) (by decide) (by decide)).1⟩

/-! ## Validation order of the authorization and the merchant check -/

/-- C11 (counterexample): the lone account `X` requests, as merchant, an authorization on
its own card with a wrong security code.  The answer is "5", and the cardholder account is
not left unchanged: its statement receives the declined record. -/
theorem mismatch_decline_changes_own_cardholder :
    ResolvesAccount dbLoneAccount "X" ∧
    (getAccount dbLoneAccount "X").CardSecurityCode ≠ "000" ∧
    (PaymentsAuthorization dbLoneAccount "X" ⟨"O9", "X", "000", "07", "2031", 10⟩ "q1").2.Status
      = "5" ∧
    getAccount (PaymentsAuthorization dbLoneAccount "X"
        ⟨"O9", "X", "000", "07", "2031", 10⟩ "q1").1 "X"
      ≠ getAccount dbLoneAccount "X" := by
  decide

/-- C11 (amended): for every authorization request whose merchant and card both resolve
but whose security code, expiry month or expiry year differs from the stored value, the
response is "5" "Do Not Honour" whatever the amount and the available funds, a payment
record with status "5" is stored under the new identifier, that identifier is the last
entry of the merchant's statement, every account other than the requesting merchant is
unchanged in all its fields (so the cardholder account is unchanged whenever the
cardholder is not the requesting merchant), and identifier, available and blocked of
every stored account are unchanged. -/
theorem mismatch_declined_with_5 (db : DB) (From : String)
    (req : dto.AuthorizationRequestDto) (newId : String)
    (hm : ResolvesAccount db From) (hc : ResolvesAccount db req.CardNumber)
    (hdiff : (getAccount db req.CardNumber).CardSecurityCode ≠ req.CardSecurityCode ∨
      (getAccount db req.CardNumber).CardExpiryMonth ≠ req.CardExpiryMonth ∨
      (getAccount db req.CardNumber).CardExpiryYear ≠ req.CardExpiryYear) :
    (PaymentsAuthorization db From req newId).2
      = dto.CreatePaymentResponseDto newId "5" "Do Not Honour" ∧
    getPayment (PaymentsAuthorization db From req newId).1 newId
      = { Id := newId, Operation := constant.AUTHORIZATION, ReferenceId := "",
          OrderId := req.OrderId, CardNumber := req.CardNumber, Amount := req.Amount,
          CurrentAmount := req.Amount, Status := "5", StatusMessage := "Do Not Honour" } ∧
    (getAccount (PaymentsAuthorization db From req newId).1 From).Statement
      = (getAccount db From).Statement ++ [newId] ∧
    (∀ k, k ≠ From →
      getAccount (PaymentsAuthorization db From req newId).1 k = getAccount db k) ∧
    balances (PaymentsAuthorization db From req newId).1 = balances db := by
  have h1 : From.length > 0 := hm.1
  have h2 : ¬ (getAccount db From).Id ≠ From := not_not.mpr hm.2
  have h3 : req.CardNumber.length > 0 := hc.1
  have h4 : ¬ (getAccount db req.CardNumber).Id ≠ req.CardNumber := not_not.mpr hc.2
  have h5 : (getAccount db req.CardNumber).CardNumber ≠ req.CardNumber ∨
      (getAccount db req.CardNumber).CardSecurityCode ≠ req.CardSecurityCode ∨
      (getAccount db req.CardNumber).CardExpiryYear ≠ req.CardExpiryYear ∨
      (getAccount db req.CardNumber).CardExpiryMonth ≠ req.CardExpiryMonth := by
    rcases hdiff with h | h | h
    · exact Or.inr (Or.inl h)
    · exact Or.inr (Or.inr (Or.inr h))
    · exact Or.inr (Or.inr (Or.inl h))
  unfold PaymentsAuthorization
  simp only [h1, h2, h3, h4, h5, if_true, if_false]
  have hf := declineFrame_append db
    (CreateAuthorizationPayment newId req (getAccount db req.CardNumber)
      (getAccount db From) "5" "Do Not Honour") From newId hm
  refine ⟨rfl, ?_, ?_, hf.2.1, hf.1⟩
  · rw [getPayment_saveAccount, getPayment_savePayment]
    simp [CreateAuthorizationPayment]
  · rw [getAccount_saveAccount, getAccount_savePayment]
    simp [CreateAuthorizationPayment, hm.2]

/-- Witness for C11 (amended): merchant `M` presents card `C` with a wrong security code
for 200, which the card could cover. -/
theorem mismatch_declined_with_5_witness :
    ResolvesAccount dbFunded "M" ∧ ResolvesAccount dbFunded "C" ∧
    (PaymentsAuthorization dbFunded "M" authWrongCode "p1").2
      = dto.CreatePaymentResponseDto "p1" "5" "Do Not Honour" :=
  ⟨by decide, by decide,
    (mismatch_declined_with_5 dbFunded "M" authWrongCode "p1"
      (by decide) (by decide) (by decide)).1⟩

/-- C12 (counterexample): a merchant identifier that is present but names no stored
account is answered with "15" "No Such Issuer", not "3", by each of the four handlers. -/
theorem unknown_merchant_status_15 :
    ¬ ResolvesAccount dbCaptured "Z" ∧
    (PaymentsAuthorization dbCaptured "Z" authO1 "p9").2.Status = "15" ∧
    (PaymentsCapture dbCaptured "Z" "p1" (successive 10) "p9").2.Status = "15" ∧
    (PaymentsReversal dbCaptured "Z" "p1" (successive 10) "p9").2.Status = "15" ∧
    (PaymentsRefund dbCaptured "Z" "p2" (successive 10) "p9").2.Status = "15" ∧
    (PaymentsAuthorization dbCaptured "Z" authO1 "p9").2.Status ≠ "3" := by
  decide

/-- C12 (amended): for each of authorization, capture, reversal and refund, a request
whose merchant identifier is absent (empty) is declined with "3" "Invalid Merchant", a
request whose merchant identifier is present but does not resolve to a stored account is
declined with "15" "No Such Issuer", and in both cases the store is left as it was. -/
theorem merchant_check (db : DB) (From referenceId : String)
    (areq : dto.AuthorizationRequestDto) (req : dto.SuccessiveRequestDto) (newId : String) :
    (From = "" →
      PaymentsAuthorization db From areq newId
        = (db, dto.CreatePaymentResponseDto areq.OrderId "3" "Invalid Merchant") ∧
      PaymentsCapture db From referenceId req newId
        = (db, dto.CreatePaymentResponseDto referenceId "3" "Invalid Merchant") ∧
      PaymentsReversal db From referenceId req newId
        = (db, dto.CreatePaymentResponseDto referenceId "3" "Invalid Merchant") ∧
      PaymentsRefund db From referenceId req newId
        = (db, dto.CreatePaymentResponseDto referenceId "3" "Invalid Merchant")) ∧
    (From ≠ "" → (getAccount db From).Id ≠ From →
      PaymentsAuthorization db From areq newId
        = (db, dto.CreatePaymentResponseDto areq.OrderId "15" "No Such Issuer") ∧
      PaymentsCapture db From referenceId req newId
        = (db, dto.CreatePaymentResponseDto referenceId "15" "No Such Issuer") ∧
      PaymentsReversal db From referenceId req newId
        = (db, dto.CreatePaymentResponseDto referenceId "15" "No Such Issuer") ∧
      PaymentsRefund db From referenceId req newId
        = (db, dto.CreatePaymentResponseDto referenceId "15" "No Such Issuer")) := by
  refine ⟨fun h => ?_, fun h hid => ?_⟩
  · subst h
    have h0 : ¬ ("".length > 0) := by decide
    refine ⟨?_, ?_, ?_, ?_⟩
    · unfold PaymentsAuthorization; simp only [h0, if_false]
    · unfold PaymentsCapture; simp only [h0, if_false]
    · unfold PaymentsReversal; simp only [h0, if_false]
    · unfold PaymentsRefund; simp only [h0, if_false]
  · have h1 : From.length > 0 := by
      obtain ⟨data⟩ := From
      cases data with
      | nil => exact absurd rfl h
      | cons c cs => simp [String.length]
    refine ⟨?_, ?_, ?_, ?_⟩
    · unfold PaymentsAuthorization; simp only [h1, if_true]; rw [if_pos hid]
    · unfold PaymentsCapture; simp only [h1, if_true]; rw [if_pos hid]
    · unfold PaymentsReversal; simp only [h1, if_true]; rw [if_pos hid]
    · unfold PaymentsRefund; simp only [h1, if_true]; rw [if_pos hid]

/-- Witness for C12 (amended): the unknown merchant `Z` and the absent merchant. -/
theorem merchant_check_witness :
    (getAccount dbCaptured "Z").Id ≠ "Z" ∧
    (PaymentsCapture dbCaptured "Z" "p1" (successive 10) "p9").2.Status = "15" ∧
    (PaymentsCapture dbCaptured "" "p1" (successive 10) "p9").2.Status = "3" :=
  ⟨by decide,
    congrArg (fun r => r.2.Status)
      ((merchant_check dbCaptured "Z" "p1" authO1 (successive 10) "p9").2
        (by decide) (by decide)).2.1,
    congrArg (fun r => r.2.Status)
      ((merchant_check dbCaptured "" "p1" authO1 (successive 10) "p9").1 rfl).2.1⟩

/-! ## Reference checks, deposits and the amount bound -/

/-- C13 (counterexample): merchant `M` resolves; a capture with an empty reference, a
capture whose reference names no stored payment, and a capture against the `CAPTURE`
record `p2` are each answered with "12" and write nothing: the store, and with it the
payment store and the merchant's statement, is the same afterwards. -/
theorem failed_reference_writes_nothing :
    ResolvesAccount dbCaptured "M" ∧
    (PaymentsCapture dbCaptured "M" "" (successive 10) "p9").2.Status = "12" ∧
    (PaymentsCapture dbCaptured "M" "" (successive 10) "p9").1 = dbCaptured ∧
    (PaymentsCapture dbCaptured "M" "zz" (successive 10) "p9").2.Status = "12" ∧
    (PaymentsCapture dbCaptured "M" "zz" (successive 10) "p9").1 = dbCaptured ∧
    (PaymentsCapture dbCaptured "M" "p2" (successive 10) "p9").2.Status = "12" ∧
    (PaymentsCapture dbCaptured "M" "p2" (successive 10) "p9").1 = dbCaptured ∧
    lookupPayment (PaymentsCapture dbCaptured "M" "p2" (successive 10) "p9").1.payments "p9"
      = none ∧
    (getAccount (PaymentsCapture dbCaptured "M" "p2" (successive 10) "p9").1 "M").Statement
      = (getAccount dbCaptured "M").Statement := by
  decide

/-- C13 (amended): for every capture, reversal or refund request whose merchant resolves
but whose reference check fails (the reference is empty, does not resolve to a stored
payment, or resolves to a payment of the wrong kind or status), the request is declined
with status "12" and nothing is written: the payment store and every account, the
merchant's statement included, are as before. -/
theorem failed_reference_declined (db : DB) (From referenceId : String)
    (req : dto.SuccessiveRequestDto) (newId : String)
    (hm : ResolvesAccount db From) :
    (¬ ResolvesPayment db referenceId ∨
        ¬ ((getPayment db referenceId).Operation = constant.AUTHORIZATION ∧
          (getPayment db referenceId).Status = "0") →
      ((PaymentsCapture db From referenceId req newId).2.Status = "12" ∧
        (PaymentsCapture db From referenceId req newId).1 = db) ∧
      ((PaymentsReversal db From referenceId req newId).2.Status = "12" ∧
        (PaymentsReversal db From referenceId req newId).1 = db)) ∧
    (¬ ResolvesPayment db referenceId ∨
        ¬ ((getPayment db referenceId).Operation = constant.CAPTURE ∧
          (getPayment db referenceId).Status = "0") →
      (PaymentsRefund db From referenceId req newId).2.Status = "12" ∧
        (PaymentsRefund db From referenceId req newId).1 = db) := by
  have h1 : From.length > 0 := hm.1
  have h2 : ¬ (getAccount db From).Id ≠ From := not_not.mpr hm.2
  refine ⟨fun hf => ⟨?_, ?_⟩, fun hf => ?_⟩
  · unfold PaymentsCapture
    simp only [h1, h2, if_true, if_false]
    split_ifs with h3 h4 h5 h6
    all_goals first
      | exact ⟨rfl, rfl⟩
      | (exfalso
         rcases hf with hf | hf
         · exact hf ⟨not_le.mp h3, not_not.mp h4⟩
         · exact hf h5)
  · unfold PaymentsReversal
    simp only [h1, h2, if_true, if_false]
    split_ifs with h3 h4 h5 h6
    all_goals first
      | exact ⟨rfl, rfl⟩
      | (exfalso
         rcases hf with hf | hf
         · exact hf ⟨not_le.mp h3, not_not.mp h4⟩
         · exact hf h5)
  · unfold PaymentsRefund
    simp only [h1, h2, if_true, if_false]
    split_ifs with h3 h4 h5 h6
    all_goals first
      | exact ⟨rfl, rfl⟩
      | (exfalso
         rcases hf with hf | hf
         · exact hf ⟨not_le.mp h3, not_not.mp h4⟩
         · exact hf h5)

/-- Witness for C13 (amended): merchant `M` names a reference that is not stored. -/
theorem failed_reference_declined_witness :
    ResolvesAccount dbCaptured "M" ∧ ¬ ResolvesPayment dbCaptured "zz" ∧
    ((PaymentsCapture dbCaptured "M" "zz" (successive 10) "p9").2.Status = "12" ∧
      (PaymentsCapture dbCaptured "M" "zz" (successive 10) "p9").1 = dbCaptured) :=
  ⟨by decide, by decide,
    ((failed_reference_declined dbCaptured "M" "zz" (successive 10) "p9" (by decide)).1
      (Or.inl (by decide))).1⟩

/-- C14 (counterexample): a deposit of −1 into the existing account `X` is answered "0"
"Approved" and the account's available changes, from 0 to −1. -/
theorem negative_deposit_approved :
    ResolvesAccount dbLoneAccount "X" ∧
    (AccountsDeposit dbLoneAccount ⟨"X", -1⟩).2
      = dto.CreateAccountResponseDto "X" "0" "Approved" ∧
    (getAccount dbLoneAccount "X").Available = 0 ∧
    (getAccount (AccountsDeposit dbLoneAccount ⟨"X", -1⟩).1 "X").Available = -1 := by
  decide

/-- C14 (amended): for every existing account and every amount, negative amounts
included, `AccountsDeposit` answers "0" "Approved" and adds the amount to the account's
available; the account's other fields and every other account are unchanged. -/
theorem deposit_adds_amount (db : DB) (req : dto.AccountRequestDto)
    (h : ResolvesAccount db req.Id) :
    (AccountsDeposit db req).2 = dto.CreateAccountResponseDto req.Id "0" "Approved" ∧
    getAccount (AccountsDeposit db req).1 req.Id
      = { getAccount db req.Id with
          Available := (getAccount db req.Id).Available + req.Amount } ∧
    (∀ k, k ≠ req.Id → getAccount (AccountsDeposit db req).1 k = getAccount db k) := by
  have h1 : req.Id.length > 0 := h.1
  have h2 : (getAccount db req.Id).Id.length > 0 := by rw [h.2]; exact h.1
  unfold AccountsDeposit
  simp only [h1, h2, if_true]
  refine ⟨trivial, ?_, ?_⟩
  · rw [getAccount_saveAccount]
    simp [h.2]
  · intro k hk
    rw [getAccount_saveAccount]
    have : ¬ (getAccount db req.Id).Id = k := by
      rw [h.2]; exact fun e => hk e.symm
    simp [this]

/-- Witness for C14 (amended): the deposit of −1 into `X`. -/
theorem deposit_adds_amount_witness :
    ResolvesAccount dbLoneAccount "X" ∧
    (AccountsDeposit dbLoneAccount ⟨"X", -1⟩).2
      = dto.CreateAccountResponseDto "X" "0" "Approved" :=
  ⟨by decide, (deposit_adds_amount dbLoneAccount ⟨"X", -1⟩ (by decide)).1⟩

/-- C15: for every capture or reversal against an approved authorization, and every refund
against an approved capture, with a resolved merchant, the request is approved exactly
when its amount is at most the referenced payment's `currentAmount`; when the amount
equals `currentAmount` the request is approved and the referenced payment's stored
`currentAmount` becomes 0 (the new record's identifier not being the reference). -/
theorem amount_bound_decides (db : DB) (From referenceId : String)
    (req : dto.SuccessiveRequestDto) (newId : String)
    (hm : ResolvesAccount db From) (hr : ResolvesPayment db referenceId)
    (hfresh : newId ≠ referenceId) :
    ((getPayment db referenceId).Operation = constant.AUTHORIZATION ∧
        (getPayment db referenceId).Status = "0" →
      (((PaymentsCapture db From referenceId req newId).2.Status = "0" ↔
          req.Amount ≤ (getPayment db referenceId).CurrentAmount) ∧
        (req.Amount = (getPayment db referenceId).CurrentAmount →
          (PaymentsCapture db From referenceId req newId).2.Status = "0" ∧
          (getPayment (PaymentsCapture db From referenceId req newId).1
            referenceId).CurrentAmount = 0)) ∧
      (((PaymentsReversal db From referenceId req newId).2.Status = "0" ↔
          req.Amount ≤ (getPayment db referenceId).CurrentAmount) ∧
        (req.Amount = (getPayment db referenceId).CurrentAmount →
          (PaymentsReversal db From referenceId req newId).2.Status = "0" ∧
          (getPayment (PaymentsReversal db From referenceId req newId).1
            referenceId).CurrentAmount = 0))) ∧
    ((getPayment db referenceId).Operation = constant.CAPTURE ∧
        (getPayment db referenceId).Status = "0" →
      ((PaymentsRefund db From referenceId req newId).2.Status = "0" ↔
          req.Amount ≤ (getPayment db referenceId).CurrentAmount) ∧
        (req.Amount = (getPayment db referenceId).CurrentAmount →
          (PaymentsRefund db From referenceId req newId).2.Status = "0" ∧
          (getPayment (PaymentsRefund db From referenceId req newId).1
            referenceId).CurrentAmount = 0)) := by
  have h1 : From.length > 0 := hm.1
  have h2 : ¬ (getAccount db From).Id ≠ From := not_not.mpr hm.2
  have h3 : ¬ referenceId.length ≤ 0 := not_le.mpr hr.1
  have h4 : ¬ (getPayment db referenceId).Id ≠ referenceId := not_not.mpr hr.2
  refine ⟨fun hk => ⟨?_, ?_⟩, fun hk => ?_⟩
  · unfold PaymentsCapture
    simp only [h1, h2, h3, h4, hk, if_true, if_false, and_self]
    by_cases hlt : (getPayment db referenceId).CurrentAmount < req.Amount
    · simp only [hlt, if_true]
      refine ⟨⟨fun h => ?_, fun h => absurd hlt (not_lt.mpr h)⟩,
        fun h => absurd hlt (by omega)⟩
      revert h; simp [dto.CreatePaymentResponseDto]
    · simp only [hlt, if_false]
      refine ⟨⟨fun _ => not_lt.mp hlt, fun _ => rfl⟩, fun h => ⟨rfl, ?_⟩⟩
      simp [getPayment_saveAccount, getPayment_savePayment, CreateSuccessivePayment,
        hfresh, hr.2, h]
  · unfold PaymentsReversal
    simp only [h1, h2, h3, h4, hk, if_true, if_false, and_self]
    by_cases hlt : (getPayment db referenceId).CurrentAmount < req.Amount
    · simp only [hlt, if_true]
      refine ⟨⟨fun h => ?_, fun h => absurd hlt (not_lt.mpr h)⟩,
        fun h => absurd hlt (by omega)⟩
      revert h; simp [dto.CreatePaymentResponseDto]
    · simp only [hlt, if_false]
      refine ⟨⟨fun _ => not_lt.mp hlt, fun _ => rfl⟩, fun h => ⟨rfl, ?_⟩⟩
      simp [getPayment_saveAccount, getPayment_savePayment, CreateSuccessivePayment,
        hfresh, hr.2, h]
  · unfold PaymentsRefund
    simp only [h1, h2, h3, h4, hk, if_true, if_false, and_self]
    by_cases hlt : (getPayment db referenceId).CurrentAmount < req.Amount
    · simp only [hlt, if_true]
      refine ⟨⟨fun h => ?_, fun h => absurd hlt (not_lt.mpr h)⟩,
        fun h => absurd hlt (by omega)⟩
      revert h; simp [dto.CreatePaymentResponseDto]
    · simp only [hlt, if_false]
      refine ⟨⟨fun _ => not_lt.mp hlt, fun _ => rfl⟩, fun h => ⟨rfl, ?_⟩⟩
      simp [getPayment_saveAccount, getPayment_savePayment, CreateSuccessivePayment,
        hfresh, hr.2, h]

/-- Witness for C15: after the declined capture, merchant `M` captures exactly the 50
left on the authorization `p1`, which closes it. -/
theorem amount_bound_decides_witness :
    ResolvesAccount dbOverdrawn "M" ∧ ResolvesPayment dbOverdrawn "p1" ∧
    (getPayment dbOverdrawn "p1").CurrentAmount = 50 ∧
    ((PaymentsCapture dbOverdrawn "M" "p1" (successive 50) "p4").2.Status = "0" ∧
      (getPayment (PaymentsCapture dbOverdrawn "M" "p1" (successive 50) "p4").1
        "p1").CurrentAmount = 0) :=
  ⟨by decide, by decide, by decide,
    ((amount_bound_decides dbOverdrawn "M" "p1" (successive 50) "p4"
      (by decide) (by decide) (by decide)).1 (by decide)).1.2 (by decide)⟩

/-- C16 (counterexample): the authorization `p1` is approved and its `currentAmount` is 0.
A capture of 0 against it is approved, and so is a capture of −5, which moves balances:
the cardholder's blocked goes from 0 to 5. -/
theorem exhausted_authorization_still_captured :
    (getPayment dbSettled "p1").Operation = constant.AUTHORIZATION ∧
    (getPayment dbSettled "p1").Status = "0" ∧
    (getPayment dbSettled "p1").CurrentAmount = 0 ∧
    (PaymentsCapture dbSettled "M" "p1" (successive 0) "p9").2.Status = "0" ∧
    (PaymentsCapture dbSettled "M" "p1" (successive (-5)) "p9").2.Status = "0" ∧
    (getAccount dbSettled "C").Blocked = 0 ∧
    (getAccount (PaymentsCapture dbSettled "M" "p1" (successive (-5)) "p9").1 "C").Blocked
      = 5 ∧
    balances (PaymentsCapture dbSettled "M" "p1" (successive (-5)) "p9").1
      ≠ balances dbSettled := by
  decide

/-- C16 (amended): for every approved authorization (resp. capture) whose `currentAmount`
is 0, every capture or reversal (resp. refund) request against it for an amount greater
than 0 is not approved and changes no balance: identifier, available and blocked of every
stored account are as before, and with a resolved merchant the status is "13". -/
theorem exhausted_parent_declines_positive (db : DB) (From referenceId : String)
    (req : dto.SuccessiveRequestDto) (newId : String)
    (hr : ResolvesPayment db referenceId)
    (hzero : (getPayment db referenceId).CurrentAmount = 0)
    (hpos : 0 < req.Amount) :
    ((getPayment db referenceId).Operation = constant.AUTHORIZATION ∧
        (getPayment db referenceId).Status = "0" →
      ((PaymentsCapture db From referenceId req newId).2.Status ≠ "0" ∧
        balances (PaymentsCapture db From referenceId req newId).1 = balances db ∧
        (ResolvesAccount db From →
          (PaymentsCapture db From referenceId req newId).2.Status = "13")) ∧
      ((PaymentsReversal db From referenceId req newId).2.Status ≠ "0" ∧
        balances (PaymentsReversal db From referenceId req newId).1 = balances db ∧
        (ResolvesAccount db From →
          (PaymentsReversal db From referenceId req newId).2.Status = "13"))) ∧
    ((getPayment db referenceId).Operation = constant.CAPTURE ∧
        (getPayment db referenceId).Status = "0" →
      (PaymentsRefund db From referenceId req newId).2.Status ≠ "0" ∧
        balances (PaymentsRefund db From referenceId req newId).1 = balances db ∧
        (ResolvesAccount db From →
          (PaymentsRefund db From referenceId req newId).2.Status = "13")) := by
  have h3 : ¬ referenceId.length ≤ 0 := not_le.mpr hr.1
  have h4 : ¬ (getPayment db referenceId).Id ≠ referenceId := not_not.mpr hr.2
  have hlt : (getPayment db referenceId).CurrentAmount < req.Amount := by omega
  refine ⟨fun hk => ⟨?_, ?_⟩, fun hk => ?_⟩
  · unfold PaymentsCapture
    simp only [h3, h4, hk, hlt, if_true, if_false, and_self]
    split_ifs with h1 h2
    · exact ⟨by simp [dto.CreatePaymentResponseDto], rfl,
        fun hm => absurd hm.2 h2⟩
    · exact ⟨by simp [dto.CreatePaymentResponseDto],
        balances_append_statement db _ From _ ⟨h1, not_not.mp h2⟩, fun _ => rfl⟩
    · exact ⟨by simp [dto.CreatePaymentResponseDto], rfl, fun hm => absurd hm.1 h1⟩
  · unfold PaymentsReversal
    simp only [h3, h4, hk, hlt, if_true, if_false, and_self]
    split_ifs with h1 h2
    · exact ⟨by simp [dto.CreatePaymentResponseDto], rfl,
        fun hm => absurd hm.2 h2⟩
    · exact ⟨by simp [dto.CreatePaymentResponseDto],
        balances_append_statement db _ From _ ⟨h1, not_not.mp h2⟩, fun _ => rfl⟩
    · exact ⟨by simp [dto.CreatePaymentResponseDto], rfl, fun hm => absurd hm.1 h1⟩
  · unfold PaymentsRefund
    simp only [h3, h4, hk, hlt, if_true, if_false, and_self]
    split_ifs with h1 h2
    · exact ⟨by simp [dto.CreatePaymentResponseDto], rfl,
        fun hm => absurd hm.2 h2⟩
    · exact ⟨by simp [dto.CreatePaymentResponseDto],
        balances_append_statement db _ From _ ⟨h1, not_not.mp h2⟩, fun _ => rfl⟩
    · exact ⟨by simp [dto.CreatePaymentResponseDto], rfl, fun hm => absurd hm.1 h1⟩

/-- Witness for C16 (amended): a capture of 1 against the exhausted authorization `p1`. -/
theorem exhausted_parent_declines_positive_witness :
    ResolvesPayment dbSettled "p1" ∧ (getPayment dbSettled "p1").CurrentAmount = 0 ∧
    ((PaymentsCapture dbSettled "M" "p1" (successive 1) "p9").2.Status ≠ "0" ∧
      balances (PaymentsCapture dbSettled "M" "p1" (successive 1) "p9").1
        = balances dbSettled ∧
      (ResolvesAccount dbSettled "M" →
        (PaymentsCapture dbSettled "M" "p1" (successive 1) "p9").2.Status = "13")) :=
  ⟨by decide, by decide,
    ((exhausted_parent_declines_positive dbSettled "M" "p1" (successive 1) "p9"
      (by decide) (by decide) (by decide)).1 (by decide)).1⟩

/-! ## The scenario and conservation -/

/-- C17: the scenario of the specification, run from the new accounts `M` and `C`.
Deposit 1000 into `C`; authorize 200; capture 150; capture 100 (declined "13", nothing
moves); capture 50; refund 50 against the first capture. -/
theorem scenario_holds :
    -- 1. deposit
    ((getAccount dbFunded "C").Available = 1000 ∧ (getAccount dbFunded "C").Blocked = 0) ∧
    -- 2. authorization of 200
    ((PaymentsAuthorization dbFunded "M" authO1 "p1").2.Status = "0" ∧
      (getAccount dbAuthorized "C").Available = 800 ∧
      (getAccount dbAuthorized "C").Blocked = 200 ∧
      (getAccount dbAuthorized "M").Blocked = 200) ∧
    -- 3. capture of 150
    ((PaymentsCapture dbAuthorized "M" "p1" (successive 150) "p2").2.Status = "0" ∧
      (getPayment dbCaptured "p1").CurrentAmount = 50 ∧
      (getAccount dbCaptured "C").Blocked = 50 ∧
      (getAccount dbCaptured "M").Blocked = 50 ∧
      (getAccount dbCaptured "M").Available = 150) ∧
    -- 4. capture of 100
    ((PaymentsCapture dbCaptured "M" "p1" (successive 100) "p3").2.Status = "13" ∧
      balances dbOverdrawn = balances dbCaptured ∧
      (getPayment dbOverdrawn "p1").CurrentAmount = (getPayment dbCaptured "p1").CurrentAmount) ∧
    -- 5. capture of 50
    ((PaymentsCapture dbOverdrawn "M" "p1" (successive 50) "p4").2.Status = "0" ∧
      (getPayment dbSettled "p1").CurrentAmount = 0 ∧
      (getAccount dbSettled "C").Blocked = 0 ∧
      (getAccount dbSettled "M").Blocked = 0 ∧
      (getAccount dbSettled "M").Available = 200) ∧
    -- 6. refund of 50 against the first capture
    ((PaymentsRefund dbSettled "M" "p2" (successive 50) "p5").2.Status = "0" ∧
      (getAccount dbSettled "C").Available = 800 ∧
      (getAccount dbRefunded "C").Available = 850 ∧
      (getAccount dbRefunded "M").Available = 150 ∧
      (getPayment dbRefunded "p2").CurrentAmount
        = (getPayment dbSettled "p2").CurrentAmount - 50) ∧
    dbRefunded = run DB.empty scenario := by
  decide

/-- C19: for every store and every authorization, capture, reversal or refund request,
approved or declined, in which the cardholder account and the requesting merchant account
are distinct accounts (the card of the referenced payment being a stored account), the
cardholder's available plus the cardholder's blocked plus the merchant's available is the
same after the call as before. -/
theorem payments_conserve_total (db : DB) (From referenceId : String)
    (areq : dto.AuthorizationRequestDto) (req : dto.SuccessiveRequestDto) (newId : String) :
    (From ≠ areq.CardNumber →
      ledgerTotal (PaymentsAuthorization db From areq newId).1 From areq.CardNumber
        = ledgerTotal db From areq.CardNumber) ∧
    (From ≠ (getPayment db referenceId).CardNumber →
      (getAccount db (getPayment db referenceId).CardNumber).Id
        = (getPayment db referenceId).CardNumber →
      ledgerTotal (PaymentsCapture db From referenceId req newId).1 From
          (getPayment db referenceId).CardNumber
        = ledgerTotal db From (getPayment db referenceId).CardNumber ∧
      ledgerTotal (PaymentsReversal db From referenceId req newId).1 From
          (getPayment db referenceId).CardNumber
        = ledgerTotal db From (getPayment db referenceId).CardNumber ∧
      ledgerTotal (PaymentsRefund db From referenceId req newId).1 From
          (getPayment db referenceId).CardNumber
        = ledgerTotal db From (getPayment db referenceId).CardNumber) := by
  refine ⟨fun hd => ?_, fun hd hcard => ⟨?_, ?_, ?_⟩⟩
  · have hd2 : ¬ areq.CardNumber = From := fun e => hd e.symm
    unfold ledgerTotal PaymentsAuthorization
    simp only
    split_ifs with h1 h2 h3 h4 h5 h6
    all_goals first
      | rfl
      | (push_neg at h2
         simp [getAccount_saveAccount, getAccount_savePayment, h2, hd, hd2]
         done)
      | (push_neg at h2 h4
         simp [getAccount_saveAccount, getAccount_savePayment, h2, h4, hd, hd2]
         try ring)
  · have hd2 : ¬ (getPayment db referenceId).CardNumber = From := fun e => hd e.symm
    unfold ledgerTotal PaymentsCapture
    simp only
    split_ifs with h1 h2 h3 h4 h5 h6
    all_goals first
      | rfl
      | (push_neg at h2
         simp [getAccount_saveAccount, getAccount_savePayment, h2, hd, hd2]
         done)
      | (push_neg at h2
         simp [getAccount_saveAccount, getAccount_savePayment, h2, hcard, hd, hd2]
         try ring)
  · have hd2 : ¬ (getPayment db referenceId).CardNumber = From := fun e => hd e.symm
    unfold ledgerTotal PaymentsReversal
    simp only
    split_ifs with h1 h2 h3 h4 h5 h6
    all_goals first
      | rfl
      | (push_neg at h2
         simp [getAccount_saveAccount, getAccount_savePayment, h2, hd, hd2]
         done)
      | (push_neg at h2
         simp [getAccount_saveAccount, getAccount_savePayment, h2, hcard, hd, hd2]
         try ring)
  · have hd2 : ¬ (getPayment db referenceId).CardNumber = From := fun e => hd e.symm
    unfold ledgerTotal PaymentsRefund
    simp only
    split_ifs with h1 h2 h3 h4 h5 h6
    all_goals first
      | rfl
      | (push_neg at h2
         simp [getAccount_saveAccount, getAccount_savePayment, h2, hd, hd2]
         done)
      | (push_neg at h2
         simp [getAccount_saveAccount, getAccount_savePayment, h2, hcard, hd, hd2]
         try ring)

/-- Witness for C19: the scenario's capture of 150 leaves the total of `C` and `M` at
1000. -/
theorem payments_conserve_total_witness :
    ("M" : String) ≠ (getPayment dbAuthorized "p1").CardNumber ∧
    ledgerTotal dbAuthorized "M" "C" = 1000 ∧
    ledgerTotal (PaymentsCapture dbAuthorized "M" "p1" (successive 150) "p2").1 "M"
        (getPayment dbAuthorized "p1").CardNumber
      = ledgerTotal dbAuthorized "M" (getPayment dbAuthorized "p1").CardNumber :=
  ⟨by decide, by decide,
    ((payments_conserve_total dbAuthorized "M" "p1" authO1 (successive 150) "p2").2
      (by decide) (by decide)).1⟩

/-! ## Funds held on a card -/

theorem heldSumL_nil (k : String) : heldSumL [] k = 0 := rfl

theorem heldSumL_cons (p : Payment) (l : List Payment) (k : String) :
    heldSumL (p :: l) k
      = (if isApprovedAuthorizationOn k p then p.CurrentAmount else 0) + heldSumL l k := by
  unfold heldSumL
  by_cases h : isApprovedAuthorizationOn k p
  · simp [List.filter_cons, h]
  · simp [List.filter_cons, h]

theorem heldSumL_append (l1 l2 : List Payment) (k : String) :
    heldSumL (l1 ++ l2) k = heldSumL l1 k + heldSumL l2 k := by
  unfold heldSumL
  simp [List.filter_append]

theorem heldSumL_put_fresh {l : List Payment} {q : Payment} (k : String)
    (hfresh : q.Id ∉ l.map (fun p => p.Id)) :
    heldSumL (putPayment l q) k
      = heldSumL l k + (if isApprovedAuthorizationOn k q then q.CurrentAmount else 0) := by
  rw [putPayment_fresh hfresh, heldSumL_append, heldSumL_cons, heldSumL_nil]
  ring

theorem heldSumL_put_found {l : List Payment} {q ref : Payment} (k : String)
    (hl : lookupPayment l q.Id = some ref) :
    heldSumL (putPayment l q) k
      = heldSumL l k - (if isApprovedAuthorizationOn k ref then ref.CurrentAmount else 0)
        + (if isApprovedAuthorizationOn k q then q.CurrentAmount else 0) := by
  obtain ⟨l1, l2, e1, e2⟩ := putPayment_split hl
  rw [e2, e1]
  simp only [heldSumL_append, heldSumL_cons]
  ring

theorem map_id_putPayment_found {l : List Payment} {q ref : Payment}
    (hl : lookupPayment l q.Id = some ref) :
    (putPayment l q).map (fun p => p.Id) = l.map (fun p => p.Id) := by
  obtain ⟨l1, l2, e1, e2⟩ := putPayment_split hl
  have hid := lookupPayment_id hl
  rw [e2, e1]
  simp [hid]

theorem mem_putPayment {l : List Payment} {q x : Payment} (h : x ∈ putPayment l q) :
    x = q ∨ x ∈ l := by
  induction l with
  | nil => simpa [putPayment] using h
  | cons y rest ih =>
    unfold putPayment at h
    split_ifs at h with hy
    · rcases List.mem_cons.mp h with h | h
      · exact Or.inl h
      · exact Or.inr (List.mem_cons_of_mem _ h)
    · rcases List.mem_cons.mp h with h | h
      · exact Or.inr (h ▸ List.mem_cons_self _ _)
      · rcases ih h with h | h
        · exact Or.inl h
        · exact Or.inr (List.mem_cons_of_mem _ h)

theorem mem_of_lookupPayment {l : List Payment} {k : String} {q : Payment}
    (h : lookupPayment l k = some q) : q ∈ l := by
  induction l with
  | nil => simp [lookupPayment] at h
  | cons x rest ih =>
    unfold lookupPayment at h
    split_ifs at h with hx
    · exact (Option.some.inj h) ▸ List.mem_cons_self _ _
    · exact List.mem_cons_of_mem _ (ih h)

theorem lookupAccount_id {l : List Account} {k : String} {a : Account}
    (h : lookupAccount l k = some a) : a.Id = k := by
  induction l with
  | nil => simp [lookupAccount] at h
  | cons x rest ih =>
    unfold lookupAccount at h
    split_ifs at h with hx
    · exact (Option.some.inj h) ▸ hx
    · exact ih h

theorem lookupAccount_none_of_fresh {l : List Account} {k : String}
    (h : k ∉ l.map (fun a => a.Id)) : lookupAccount l k = none := by
  induction l with
  | nil => rfl
  | cons x rest ih =>
    have hx : ¬ x.Id = k := fun e => h (by simp [e])
    have hr : k ∉ rest.map (fun a => a.Id) := fun e => h (by simp at e ⊢; exact Or.inr e)
    simp [lookupAccount, hx, ih hr]

theorem getAccount_id_or_zero (db : DB) (k : String) :
    (getAccount db k).Id = k ∨ getAccount db k = Account.zero := by
  unfold getAccount
  cases hl : lookupAccount db.accounts k with
  | none => exact Or.inr rfl
  | some a => exact Or.inl (lookupAccount_id hl)

theorem getAccount_id_saveAccount {db : DB} {a : Account} {k : String}
    (h : (getAccount db k).Id = k) : (getAccount (saveAccount db a) k).Id = k := by
  rw [getAccount_saveAccount]
  split_ifs with e
  · exact e
  · exact h

/-- A change of store that moves the blocked balance of every non-merchant account by the
same amount `δ` as the card's outstanding authorized amount, keeps stored accounts stored
and adds approved payments only on stored non-merchant cards, keeps the held-funds
invariant. -/
theorem heldInv_of_effect {M : List String} {db db' : DB} (h : HeldInv M db)
    (δ : String → Int)
    (hacc : ∀ k, k ∉ M → (getAccount db' k).Blocked = (getAccount db k).Blocked + δ k)
    (hsum : ∀ k, heldSum db' k = heldSum db k + δ k)
    (hres : ∀ k, (getAccount db k).Id = k → (getAccount db' k).Id = k)
    (hmem : ∀ p ∈ db'.payments, p.Status = "0" →
      p ∈ db.payments ∨ ((getAccount db p.CardNumber).Id = p.CardNumber ∧ p.CardNumber ∉ M)) :
    HeldInv M db' := by
  obtain ⟨hK2, hK3⟩ := h
  refine ⟨fun k hk => ?_, fun p hp hst => ?_⟩
  · rw [hacc k hk, hsum k, hK2 k hk]
  · rcases hmem p hp hst with hold | ⟨hr, hn⟩
    · obtain ⟨hr, hn⟩ := hK3 p hold hst
      exact ⟨hres _ hr, hn⟩
    · exact ⟨hres _ hr, hn⟩

/-- Recording a declined payment under a new identifier and rewriting a merchant's account
keeps the held-funds invariant. -/
theorem heldInv_decline_record {M : List String} {db : DB} (h : HeldInv M db)
    {q : Payment} {b : Account}
    (hfresh : q.Id ∉ db.payments.map (fun p => p.Id)) (hst : q.Status ≠ "0")
    (hb : b.Id ∈ M) :
    HeldInv M (saveAccount (savePayment db q) b) := by
  refine heldInv_of_effect h (fun _ => 0) ?_ ?_ ?_ ?_
  · intro k hk
    have hne : ¬ b.Id = k := fun e => hk (e ▸ hb)
    rw [getAccount_saveAccount, if_neg hne, getAccount_savePayment]
    simp
  · intro k
    show heldSumL (putPayment db.payments q) k = heldSumL db.payments k + 0
    rw [heldSumL_put_fresh k hfresh, if_neg (fun hc => hst hc.2.1)]
  · intro k hk
    exact getAccount_id_saveAccount hk
  · intro p hp hp0
    rcases mem_putPayment hp with rfl | hp
    · exact absurd hp0 hst
    · exact Or.inl hp

theorem heldInv_authorization {M : List String} {db : DB} (h : HeldInv M db)
    (From : String) (req : dto.AuthorizationRequestDto) (newId : String)
    (hfresh : newId ∉ db.payments.map (fun p => p.Id))
    (hrole : From ∈ M ∧ req.CardNumber ∉ M) :
    HeldInv M (PaymentsAuthorization db From req newId).1 := by
  unfold PaymentsAuthorization
  simp only
  split_ifs with h1 h2 h3 h4 h5 h6
  all_goals first
    | exact h
    | (refine heldInv_decline_record h hfresh ?_ ?_
       · simp [CreateAuthorizationPayment]
       · rw [not_not.mp h2]; exact hrole.1)
    | skip
  have hb : (getAccount db From).Id = From := not_not.mp h2
  have hp : (getAccount db req.CardNumber).Id = req.CardNumber := not_not.mp h4
  refine heldInv_of_effect h (fun k => if req.CardNumber = k then req.Amount else 0) ?_ ?_ ?_ ?_
  · intro k hk
    have hne : ¬ From = k := fun e => hk (e ▸ hrole.1)
    simp only [getAccount_saveAccount, getAccount_savePayment, hb, hp, hne, if_false]
    by_cases hc : req.CardNumber = k
    · simp [hc]
    · simp [hc]
  · intro k
    show heldSumL (putPayment db.payments _) k = heldSumL db.payments k + _
    rw [heldSumL_put_fresh k hfresh]
    simp [isApprovedAuthorizationOn, CreateAuthorizationPayment]
  · intro k hk
    exact getAccount_id_saveAccount (getAccount_id_saveAccount (getAccount_id_saveAccount
      (getAccount_id_saveAccount hk)))
  · intro p hpm _
    rcases mem_putPayment hpm with rfl | hpm
    · exact Or.inr ⟨hp, hrole.2⟩
    · exact Or.inl hpm

/-- An approved capture, reversal or refund keeps the held-funds invariant: the referenced
record gives up `a`, the new record `child` is not an authorization, the cardholder's
record `p1` has its blocked lowered by `x`, which is `a` when the referenced record is an
authorization and 0 otherwise, and `b1` is a merchant's record. -/
theorem heldInv_successive {M : List String} {db : DB} (h : HeldInv M db)
    {child : Payment} {p1 b1 : Account} {referenceId : String} (a x : Int)
    (hr : ResolvesPayment db referenceId)
    (hst : (getPayment db referenceId).Status = "0")
    (hfresh : child.Id ∉ db.payments.map (fun p => p.Id))
    (hcop : child.Operation ≠ constant.AUTHORIZATION)
    (hccard : child.CardNumber = (getPayment db referenceId).CardNumber)
    (hx : x = if (getPayment db referenceId).Operation = constant.AUTHORIZATION then a else 0)
    (hp1id : p1.Id = (getAccount db (getPayment db referenceId).CardNumber).Id)
    (hp1b : p1.Blocked
      = (getAccount db (getPayment db referenceId).CardNumber).Blocked - x)
    (hb1 : b1.Id ∈ M) :
    HeldInv M
      (saveAccount
        (saveAccount
          (savePayment
            (savePayment db
              { getPayment db referenceId with
                CurrentAmount := (getPayment db referenceId).CurrentAmount - a })
            child)
          p1)
        b1) := by
  have hl : lookupPayment db.payments referenceId = some (getPayment db referenceId) :=
    lookupPayment_of_resolves hr
  have hrefmem : getPayment db referenceId ∈ db.payments := mem_of_lookupPayment hl
  obtain ⟨hcardres, hcardM⟩ := h.2 _ hrefmem hst
  have hl1 : lookupPayment db.payments
      ({ getPayment db referenceId with
          CurrentAmount := (getPayment db referenceId).CurrentAmount - a } : Payment).Id
      = some (getPayment db referenceId) := by
    show lookupPayment db.payments (getPayment db referenceId).Id = _
    rw [hr.2]; exact hl
  have hfresh1 : child.Id ∉ (putPayment db.payments
      { getPayment db referenceId with
        CurrentAmount := (getPayment db referenceId).CurrentAmount - a }).map
      (fun p => p.Id) := by
    rw [map_id_putPayment_found hl1]; exact hfresh
  refine heldInv_of_effect h
    (fun k => if (getPayment db referenceId).CardNumber = k then -x else 0) ?_ ?_ ?_ ?_
  · intro k hk
    have hne : ¬ b1.Id = k := fun e => hk (e ▸ hb1)
    show (getAccount _ k).Blocked = (getAccount db k).Blocked
      + (if (getPayment db referenceId).CardNumber = k then -x else 0)
    rw [getAccount_saveAccount, if_neg hne, getAccount_saveAccount, hp1id, hcardres]
    by_cases hc : (getPayment db referenceId).CardNumber = k
    · rw [if_pos hc, if_pos hc, hp1b, hc]
      ring
    · rw [if_neg hc, if_neg hc]
      simp [getAccount_savePayment]
  · intro k
    have hchild : ¬ isApprovedAuthorizationOn k child := fun hc => hcop hc.1
    show heldSumL (putPayment (putPayment db.payments _) child) k
      = heldSumL db.payments k
        + (if (getPayment db referenceId).CardNumber = k then -x else 0)
    rw [heldSumL_put_fresh k hfresh1, heldSumL_put_found k hl1, if_neg hchild]
    by_cases hop : (getPayment db referenceId).Operation = constant.AUTHORIZATION
    · by_cases hc : (getPayment db referenceId).CardNumber = k
      · simp only [isApprovedAuthorizationOn, hop, hst, hc, hx, if_true, and_self]
        ring
      · simp only [isApprovedAuthorizationOn, hop, hst, hc, hx, if_false, and_false]
        ring
    · simp only [isApprovedAuthorizationOn, hop, hx, if_false, false_and]
      split_ifs <;> ring
  · intro k hk
    exact getAccount_id_saveAccount (getAccount_id_saveAccount hk)
  · intro p hpm _
    rcases mem_putPayment hpm with rfl | hpm
    · exact Or.inr ⟨hccard ▸ hcardres, hccard ▸ hcardM⟩
    · rcases mem_putPayment hpm with rfl | hpm
      · exact Or.inr ⟨hcardres, hcardM⟩
      · exact Or.inl hpm

theorem heldInv_capture {M : List String} {db : DB} (h : HeldInv M db)
    (From referenceId : String) (req : dto.SuccessiveRequestDto) (newId : String)
    (hfresh : newId ∉ db.payments.map (fun p => p.Id)) (hrole : From ∈ M) :
    HeldInv M (PaymentsCapture db From referenceId req newId).1 := by
  unfold PaymentsCapture
  simp only
  split_ifs with h1 h2 h3 h4 h5 h6
  all_goals first
    | exact h
    | (refine heldInv_decline_record h hfresh ?_ ?_
       · simp [CreateSuccessivePayment]
       · rw [not_not.mp h2]; exact hrole)
    | skip
  refine heldInv_successive h req.Amount req.Amount ⟨not_le.mp h3, not_not.mp h4⟩ h5.2
    hfresh ?_ rfl ?_ rfl ?_ ?_
  · simp [CreateSuccessivePayment, constant.CAPTURE, constant.AUTHORIZATION]
  · simp [h5.1]
  · simp [getAccount_savePayment]
  · show (getAccount db From).Id ∈ M
    rw [not_not.mp h2]; exact hrole

theorem heldInv_reversal {M : List String} {db : DB} (h : HeldInv M db)
    (From referenceId : String) (req : dto.SuccessiveRequestDto) (newId : String)
    (hfresh : newId ∉ db.payments.map (fun p => p.Id)) (hrole : From ∈ M) :
    HeldInv M (PaymentsReversal db From referenceId req newId).1 := by
  unfold PaymentsReversal
  simp only
  split_ifs with h1 h2 h3 h4 h5 h6
  all_goals first
    | exact h
    | (refine heldInv_decline_record h hfresh ?_ ?_
       · simp [CreateSuccessivePayment]
       · rw [not_not.mp h2]; exact hrole)
    | skip
  refine heldInv_successive h req.Amount req.Amount ⟨not_le.mp h3, not_not.mp h4⟩ h5.2
    hfresh ?_ rfl ?_ rfl ?_ ?_
  · simp [CreateSuccessivePayment, constant.REVERSAL, constant.AUTHORIZATION]
  · simp [h5.1]
  · simp [getAccount_savePayment]
  · show (getAccount db From).Id ∈ M
    rw [not_not.mp h2]; exact hrole

theorem heldInv_refund {M : List String} {db : DB} (h : HeldInv M db)
    (From referenceId : String) (req : dto.SuccessiveRequestDto) (newId : String)
    (hfresh : newId ∉ db.payments.map (fun p => p.Id)) (hrole : From ∈ M) :
    HeldInv M (PaymentsRefund db From referenceId req newId).1 := by
  unfold PaymentsRefund
  simp only
  split_ifs with h1 h2 h3 h4 h5 h6
  all_goals first
    | exact h
    | (refine heldInv_decline_record h hfresh ?_ ?_
       · simp [CreateSuccessivePayment]
       · rw [not_not.mp h2]; exact hrole)
    | skip
  refine heldInv_successive h req.Amount 0 ⟨not_le.mp h3, not_not.mp h4⟩ h5.2
    hfresh ?_ rfl ?_ rfl ?_ ?_
  · simp [CreateSuccessivePayment, constant.REFUND, constant.AUTHORIZATION]
  · simp [h5.1, constant.CAPTURE, constant.AUTHORIZATION]
  · simp [getAccount_savePayment]
  · show (getAccount db From).Id ∈ M
    rw [not_not.mp h2]; exact hrole

theorem heldInv_create {M : List String} {db : DB} (h : HeldInv M db)
    (c s m y : String) (hfresh : c ∉ db.accounts.map (fun a => a.Id)) :
    HeldInv M (AccountsCreate db (GenerateAccount c s m y)).1 := by
  unfold AccountsCreate
  simp only
  refine heldInv_of_effect h (fun _ => 0) ?_ (fun _ => by simp [heldSum, saveAccount]) ?_ ?_
  · intro k _
    rw [getAccount_saveAccount]
    by_cases hc : (GenerateAccount c s m y).Id = k
    · rw [if_pos hc]
      have hck : c = k := hc
      have hz : getAccount db k = Account.zero := by
        unfold getAccount
        rw [← hck, lookupAccount_none_of_fresh hfresh]
        rfl
      rw [hz]
      simp [GenerateAccount, Account.zero]
    · rw [if_neg hc]
      simp
  · intro k hk
    exact getAccount_id_saveAccount hk
  · intro p hp _
    exact Or.inl hp

theorem heldInv_deposit {M : List String} {db : DB} (h : HeldInv M db)
    (req : dto.AccountRequestDto) : HeldInv M (AccountsDeposit db req).1 := by
  unfold AccountsDeposit
  simp only
  split_ifs with h1 h2
  · have hid : (getAccount db req.Id).Id = req.Id := by
      rcases getAccount_id_or_zero db req.Id with hid | hz
      · exact hid
      · rw [hz] at h2
        exact absurd h2 (by decide)
    refine heldInv_of_effect h (fun _ => 0) ?_ (fun _ => by simp [heldSum, saveAccount]) ?_ ?_
    · intro k _
      rw [getAccount_saveAccount]
      by_cases hc : (getAccount db req.Id).Id = k
      · simp only [hc, if_true]
        rw [← hc, hid]
        simp
      · simp only [hc, if_false]
        simp
    · intro k hk
      exact getAccount_id_saveAccount hk
    · intro p hp _
      exact Or.inl hp
  · exact h
  · exact h

theorem heldInv_step {M : List String} {db : DB} (h : HeldInv M db) (r : Request)
    (hf : FreshIds db r) (ho : RoleOk M r) : HeldInv M (step db r) := by
  cases r with
  | create c s m y => exact heldInv_create h c s m y hf
  | deposit req => exact heldInv_deposit h req
  | authorization f req n => exact heldInv_authorization h f req n hf ho
  | capture f r req n => exact heldInv_capture h f r req n hf ho
  | reversal f r req n => exact heldInv_reversal h f r req n hf ho
  | refund f r req n => exact heldInv_refund h f r req n hf ho

theorem heldInv_run {M : List String} (reqs : List Request) :
    ∀ db : DB, HeldInv M db → FreshRun db reqs → (∀ r ∈ reqs, RoleOk M r) →
      HeldInv M (run db reqs) := by
  induction reqs with
  | nil => intro db h _ _; exact h
  | cons r rest ih =>
    intro db h hf ho
    exact ih (step db r) (heldInv_step h r hf.1 (ho r (List.mem_cons_self _ _))) hf.2
      (fun r' hr' => ho r' (List.mem_cons_of_mem _ hr'))

theorem heldInv_empty (M : List String) : HeldInv M DB.empty :=
  ⟨fun _ _ => rfl, fun _ hp => absurd hp (List.not_mem_nil _)⟩

theorem roleOk_of_separate {reqs : List Request}
    (hroles : ∀ k ∈ merchantsOf reqs, k ∉ cardsOf reqs) :
    ∀ r ∈ reqs, RoleOk (merchantsOf reqs) r := by
  intro r hr
  have hm : ∀ f, r.merchant? = some f → f ∈ merchantsOf reqs := fun f hf =>
    List.mem_filterMap.mpr ⟨r, hr, hf⟩
  have hc : ∀ c, r.card? = some c → c ∉ merchantsOf reqs := fun c hc hcm =>
    hroles c hcm (List.mem_filterMap.mpr ⟨r, hr, hc⟩)
  cases r with
  | create c s m y => trivial
  | deposit req => trivial
  | authorization f req n => exact ⟨hm f rfl, hc req.CardNumber rfl⟩
  | capture f r req n => exact hm f rfl
  | reversal f r req n => exact hm f rfl
  | refund f r req n => exact hm f rfl

/-- C20: in every store reached from the empty store by API operations with fresh
identifiers (payment identifiers, and the identifiers `AccountsCreate` generates) in which
no account is used both as a cardholder and as a merchant, each cardholder account's
blocked equals the sum of `currentAmount` over the stored approved (status "0")
`AUTHORIZATION` payments whose `cardNumber` is that account; the same holds under every
identifier that is not used as a merchant. -/
theorem cardholder_blocked_is_held (reqs : List Request)
    (hfresh : FreshRun DB.empty reqs)
    (hroles : ∀ k ∈ merchantsOf reqs, k ∉ cardsOf reqs) :
    (∀ k ∈ cardsOf reqs,
      (getAccount (run DB.empty reqs) k).Blocked = heldSum (run DB.empty reqs) k) ∧
    (∀ k, k ∉ merchantsOf reqs →
      (getAccount (run DB.empty reqs) k).Blocked = heldSum (run DB.empty reqs) k) := by
  have h := heldInv_run reqs DB.empty (heldInv_empty (merchantsOf reqs)) hfresh
    (roleOk_of_separate hroles)
  exact ⟨fun k hk => h.1 k (fun hm => hroles k hm hk), h.1⟩

/-- Witness for C20: after the scenario's first capture, card `C` has 50 blocked and the
authorization `p1` has 50 left. -/
theorem cardholder_blocked_is_held_witness :
    FreshRun DB.empty scenarioHeld ∧
    (∀ k ∈ merchantsOf scenarioHeld, k ∉ cardsOf scenarioHeld) ∧
    "C" ∈ cardsOf scenarioHeld ∧
    heldSum (run DB.empty scenarioHeld) "C" = 50 ∧
    (getAccount (run DB.empty scenarioHeld) "C").Blocked
      = heldSum (run DB.empty scenarioHeld) "C" :=
  ⟨by decide, by decide, by decide, by decide,
    (cardholder_blocked_is_held scenarioHeld (by decide) (by decide)).1 "C" (by decide)⟩

/-! ## Approved payments name stored cards -/

theorem cardsStored_of_effect {db db' : DB} (h : CardsStored db)
    (hres : ∀ k, (getAccount db k).Id = k → (getAccount db' k).Id = k)
    (hmem : ∀ p ∈ db'.payments, p.Status = "0" →
      p ∈ db.payments ∨ (getAccount db p.CardNumber).Id = p.CardNumber) :
    CardsStored db' := by
  intro p hp hst
  rcases hmem p hp hst with hold | hr
  · exact hres _ (h p hold hst)
  · exact hres _ hr

theorem cardsStored_decline_record {db : DB} (h : CardsStored db) {q : Payment}
    {b : Account} (hst : q.Status ≠ "0") :
    CardsStored (saveAccount (savePayment db q) b) := by
  refine cardsStored_of_effect h (fun k hk => getAccount_id_saveAccount hk) ?_
  intro p hp hp0
  rcases mem_putPayment hp with rfl | hp
  · exact absurd hp0 hst
  · exact Or.inl hp

theorem cardsStored_successive {db : DB} (h : CardsStored db) {child : Payment}
    {p1 b1 : Account} {referenceId : String} (a : Int)
    (hr : ResolvesPayment db referenceId)
    (hst : (getPayment db referenceId).Status = "0")
    (hccard : child.CardNumber = (getPayment db referenceId).CardNumber) :
    CardsStored
      (saveAccount
        (saveAccount
          (savePayment
            (savePayment db
              { getPayment db referenceId with
                CurrentAmount := (getPayment db referenceId).CurrentAmount - a })
            child)
          p1)
        b1) := by
  have hcard := h _ (mem_of_lookupPayment (lookupPayment_of_resolves hr)) hst
  refine cardsStored_of_effect h
    (fun k hk => getAccount_id_saveAccount (getAccount_id_saveAccount hk)) ?_
  intro p hpm _
  rcases mem_putPayment hpm with rfl | hpm
  · exact Or.inr (hccard ▸ hcard)
  · rcases mem_putPayment hpm with rfl | hpm
    · exact Or.inr hcard
    · exact Or.inl hpm

theorem cardsStored_step {db : DB} (h : CardsStored db) (r : Request) :
    CardsStored (step db r) := by
  cases r with
  | create c s m y =>
    exact cardsStored_of_effect h (fun k hk => getAccount_id_saveAccount hk)
      (fun p hp _ => Or.inl hp)
  | deposit req =>
    show CardsStored (AccountsDeposit db req).1
    unfold AccountsDeposit
    simp only
    split_ifs
    · exact cardsStored_of_effect h (fun k hk => getAccount_id_saveAccount hk)
        (fun p hp _ => Or.inl hp)
    · exact h
    · exact h
  | authorization f req n =>
    show CardsStored (PaymentsAuthorization db f req n).1
    unfold PaymentsAuthorization
    simp only
    split_ifs with h1 h2 h3 h4 h5 h6
    all_goals first
      | exact h
      | (refine cardsStored_decline_record h ?_
         simp [CreateAuthorizationPayment])
      | skip
    refine cardsStored_of_effect h
      (fun k hk => getAccount_id_saveAccount (getAccount_id_saveAccount
        (getAccount_id_saveAccount (getAccount_id_saveAccount hk)))) ?_
    intro p hpm _
    rcases mem_putPayment hpm with rfl | hpm
    · exact Or.inr (not_not.mp h4)
    · exact Or.inl hpm
  | capture f r req n =>
    show CardsStored (PaymentsCapture db f r req n).1
    unfold PaymentsCapture
    simp only
    split_ifs with h1 h2 h3 h4 h5 h6
    all_goals first
      | exact h
      | (refine cardsStored_decline_record h ?_
         simp [CreateSuccessivePayment])
      | exact cardsStored_successive h req.Amount ⟨not_le.mp h3, not_not.mp h4⟩ h5.2 rfl
  | reversal f r req n =>
    show CardsStored (PaymentsReversal db f r req n).1
    unfold PaymentsReversal
    simp only
    split_ifs with h1 h2 h3 h4 h5 h6
    all_goals first
      | exact h
      | (refine cardsStored_decline_record h ?_
         simp [CreateSuccessivePayment])
      | exact cardsStored_successive h req.Amount ⟨not_le.mp h3, not_not.mp h4⟩ h5.2 rfl
  | refund f r req n =>
    show CardsStored (PaymentsRefund db f r req n).1
    unfold PaymentsRefund
    simp only
    split_ifs with h1 h2 h3 h4 h5 h6
    all_goals first
      | exact h
      | (refine cardsStored_decline_record h ?_
         simp [CreateSuccessivePayment])
      | exact cardsStored_successive h req.Amount ⟨not_le.mp h3, not_not.mp h4⟩ h5.2 rfl

/-- In every store reached from the empty store by any sequence of requests, whatever the
identifiers and amounts, the card of every stored approved payment is a stored account:
the cardholder account that the effects of capture, reversal and refund are stated for
exists. -/
theorem cardsStored_run (reqs : List Request) :
    ∀ db : DB, CardsStored db → CardsStored (run db reqs) := by
  induction reqs with
  | nil => intro db h; exact h
  | cons r rest ih => intro db h; exact ih (step db r) (cardsStored_step h r)

/-- From the empty store: every approved payment that `getPayment` finds names a stored
card. -/
theorem approved_reference_card_stored (reqs : List Request) (referenceId : String)
    (hr : ResolvesPayment (run DB.empty reqs) referenceId)
    (hst : (getPayment (run DB.empty reqs) referenceId).Status = "0") :
    (getAccount (run DB.empty reqs) (getPayment (run DB.empty reqs) referenceId).CardNumber).Id
      = (getPayment (run DB.empty reqs) referenceId).CardNumber :=
  cardsStored_run reqs DB.empty (fun _ hp => absurd hp (List.not_mem_nil _)) _
    (mem_of_lookupPayment (lookupPayment_of_resolves hr)) hst

/-! ## Non-negative balances along disciplined runs -/

theorem ownedSumL_nil (kind : String) (stmt : List String) : ownedSumL kind stmt [] = 0 := rfl

theorem ownedSumL_cons (kind : String) (stmt : List String) (p : Payment) (l : List Payment) :
    ownedSumL kind stmt (p :: l)
      = (if isApprovedOwned kind stmt p then p.CurrentAmount else 0)
        + ownedSumL kind stmt l := by
  unfold ownedSumL
  by_cases h : isApprovedOwned kind stmt p
  · simp [List.filter_cons, h]
  · simp [List.filter_cons, h]

theorem ownedSumL_append (kind : String) (stmt : List String) (l1 l2 : List Payment) :
    ownedSumL kind stmt (l1 ++ l2) = ownedSumL kind stmt l1 + ownedSumL kind stmt l2 := by
  unfold ownedSumL
  simp [List.filter_append]

theorem ownedSumL_put_fresh (kind : String) (stmt : List String) {l : List Payment}
    {q : Payment} (hfresh : q.Id ∉ l.map (fun p => p.Id)) :
    ownedSumL kind stmt (putPayment l q)
      = ownedSumL kind stmt l
        + (if isApprovedOwned kind stmt q then q.CurrentAmount else 0) := by
  rw [putPayment_fresh hfresh, ownedSumL_append, ownedSumL_cons, ownedSumL_nil]
  ring

theorem ownedSumL_put_found (kind : String) (stmt : List String) {l : List Payment}
    {q ref : Payment} (hl : lookupPayment l q.Id = some ref) :
    ownedSumL kind stmt (putPayment l q)
      = ownedSumL kind stmt l
        - (if isApprovedOwned kind stmt ref then ref.CurrentAmount else 0)
        + (if isApprovedOwned kind stmt q then q.CurrentAmount else 0) := by
  obtain ⟨l1, l2, e1, e2⟩ := putPayment_split hl
  rw [e2, e1]
  simp only [ownedSumL_append, ownedSumL_cons]
  ring

/-- An identifier that is no stored payment's key adds nothing when put on a statement. -/
theorem ownedSumL_statement_fresh (kind : String) (stmt : List String) {l : List Payment}
    {n : String} (hfresh : n ∉ l.map (fun p => p.Id)) :
    ownedSumL kind (stmt ++ [n]) l = ownedSumL kind stmt l := by
  induction l with
  | nil => rfl
  | cons x rest ih =>
    have hx : ¬ x.Id = n := fun e => hfresh (by simp [e])
    have hr : n ∉ rest.map (fun p => p.Id) := fun e => hfresh (by simp at e ⊢; exact Or.inr e)
    rw [ownedSumL_cons, ownedSumL_cons, ih hr]
    simp [isApprovedOwned, hx]

theorem ownedSumL_nonneg (kind : String) (stmt : List String) {l : List Payment}
    (h : ∀ p ∈ l, p.Status = "0" → 0 ≤ p.CurrentAmount) : 0 ≤ ownedSumL kind stmt l := by
  induction l with
  | nil => exact le_refl 0
  | cons x rest ih =>
    rw [ownedSumL_cons]
    have hr := ih (fun p hp => h p (List.mem_cons_of_mem _ hp))
    by_cases hx : isApprovedOwned kind stmt x
    · rw [if_pos hx]
      have := h x (List.mem_cons_self _ _) hx.2.1
      omega
    · rw [if_neg hx]
      omega

theorem heldSumL_nonneg (k : String) {l : List Payment}
    (h : ∀ p ∈ l, p.Status = "0" → 0 ≤ p.CurrentAmount) : 0 ≤ heldSumL l k := by
  induction l with
  | nil => exact le_refl 0
  | cons x rest ih =>
    rw [heldSumL_cons]
    have hr := ih (fun p hp => h p (List.mem_cons_of_mem _ hp))
    by_cases hx : isApprovedAuthorizationOn k x
    · rw [if_pos hx]
      have := h x (List.mem_cons_self _ _) hx.2.1
      omega
    · rw [if_neg hx]
      omega

theorem amountsInv_saveAccount {db : DB} {a : Account} (h : AmountsInv db) :
    AmountsInv (saveAccount db a) := h

theorem amountsInv_savePayment {db : DB} {q : Payment} (h : AmountsInv db)
    (hq : q.Status = "0" → 0 ≤ q.CurrentAmount) : AmountsInv (savePayment db q) := by
  intro p hp hst
  rcases mem_putPayment hp with rfl | hp
  · exact hq hst
  · exact h p hp hst

theorem amountsInv_step {db : DB} (h : AmountsInv db) (r : Request) (hn : NonnegAmount r) :
    AmountsInv (step db r) := by
  cases r with
  | create c s m y => exact h
  | deposit req =>
    show AmountsInv (AccountsDeposit db req).1
    unfold AccountsDeposit
    simp only
    split_ifs <;> exact h
  | authorization f req n =>
    have ha : 0 ≤ req.Amount := hn
    show AmountsInv (PaymentsAuthorization db f req n).1
    unfold PaymentsAuthorization
    simp only
    split_ifs with h1 h2 h3 h4 h5 h6
    all_goals first
      | exact h
      | (refine amountsInv_saveAccount (amountsInv_savePayment h ?_)
         simp [CreateAuthorizationPayment]
         done)
      | (refine amountsInv_saveAccount (amountsInv_saveAccount (amountsInv_savePayment
           (amountsInv_saveAccount (amountsInv_saveAccount h)) ?_))
         intro _
         exact ha)
  | capture f r req n =>
    have ha : 0 ≤ req.Amount := hn
    show AmountsInv (PaymentsCapture db f r req n).1
    unfold PaymentsCapture
    simp only
    split_ifs with h1 h2 h3 h4 h5 h6
    all_goals first
      | exact h
      | (refine amountsInv_saveAccount (amountsInv_savePayment h ?_)
         simp [CreateSuccessivePayment])
      | (refine amountsInv_saveAccount (amountsInv_saveAccount (amountsInv_savePayment
           (amountsInv_savePayment h ?_) ?_))
         · intro _
           show 0 ≤ (getPayment db r).CurrentAmount - req.Amount
           omega
         · intro _
           exact ha)
  | reversal f r req n =>
    have ha : 0 ≤ req.Amount := hn
    show AmountsInv (PaymentsReversal db f r req n).1
    unfold PaymentsReversal
    simp only
    split_ifs with h1 h2 h3 h4 h5 h6
    all_goals first
      | exact h
      | (refine amountsInv_saveAccount (amountsInv_savePayment h ?_)
         simp [CreateSuccessivePayment])
      | (refine amountsInv_saveAccount (amountsInv_saveAccount (amountsInv_savePayment
           (amountsInv_savePayment h ?_) ?_))
         · intro _
           show 0 ≤ (getPayment db r).CurrentAmount - req.Amount
           omega
         · intro _
           exact ha)
  | refund f r req n =>
    have ha : 0 ≤ req.Amount := hn
    show AmountsInv (PaymentsRefund db f r req n).1
    unfold PaymentsRefund
    simp only
    split_ifs with h1 h2 h3 h4 h5 h6
    all_goals first
      | exact h
      | (refine amountsInv_saveAccount (amountsInv_savePayment h ?_)
         simp [CreateSuccessivePayment])
      | (refine amountsInv_saveAccount (amountsInv_saveAccount (amountsInv_savePayment
           (amountsInv_savePayment h ?_) ?_))
         · intro _
           show 0 ≤ (getPayment db r).CurrentAmount - req.Amount
           omega
         · intro _
           exact ha)

theorem cardAvail_getAccount {M : List String} {db : DB} (h : CardAvailInv M db)
    (k : String) (hk : (getAccount db k).Id ∉ M) : 0 ≤ (getAccount db k).Available := by
  rcases getAccount_id_or_zero db k with hid | hz
  · rw [hid] at hk
    exact h k hk
  · rw [hz]
    exact le_refl 0

theorem cardAvail_saveAccount {M : List String} {db : DB} {a : Account}
    (h : CardAvailInv M db) (ha : a.Id ∉ M → 0 ≤ a.Available) :
    CardAvailInv M (saveAccount db a) := by
  intro k hk
  rw [getAccount_saveAccount]
  split_ifs with e
  · exact ha (e ▸ hk)
  · exact h k hk

theorem cardAvail_savePayment {M : List String} {db : DB} {q : Payment}
    (h : CardAvailInv M db) : CardAvailInv M (savePayment db q) := h

theorem cardAvail_step {M : List String} {db : DB} (h : CardAvailInv M db) (r : Request)
    (hn : NonnegAmount r) (ho : RoleOk M r) : CardAvailInv M (step db r) := by
  cases r with
  | create c s m y =>
    exact cardAvail_saveAccount h (fun _ => le_refl 0)
  | deposit req =>
    have ha : 0 ≤ req.Amount := hn
    show CardAvailInv M (AccountsDeposit db req).1
    unfold AccountsDeposit
    simp only
    split_ifs
    · refine cardAvail_saveAccount h (fun hk => ?_)
      have := cardAvail_getAccount h req.Id hk
      show 0 ≤ (getAccount db req.Id).Available + req.Amount
      omega
    · exact h
    · exact h
  | authorization f req n =>
    have ha : 0 ≤ req.Amount := hn
    show CardAvailInv M (PaymentsAuthorization db f req n).1
    unfold PaymentsAuthorization
    simp only
    split_ifs with h1 h2 h3 h4 h5 h6
    all_goals first
      | exact h
      | exact cardAvail_saveAccount (cardAvail_savePayment h)
          (fun hk => cardAvail_getAccount h f hk)
      | skip
    have hp : 0 ≤ (getAccount db req.CardNumber).Available - req.Amount := by omega
    exact cardAvail_saveAccount (cardAvail_saveAccount (cardAvail_savePayment
      (cardAvail_saveAccount (cardAvail_saveAccount h (fun _ => hp))
        (fun hk => cardAvail_getAccount h f hk))) (fun hk => cardAvail_getAccount h f hk))
      (fun _ => hp)
  | capture f r req n =>
    have ha : 0 ≤ req.Amount := hn
    show CardAvailInv M (PaymentsCapture db f r req n).1
    unfold PaymentsCapture
    simp only
    split_ifs with h1 h2 h3 h4 h5 h6
    all_goals first
      | exact h
      | exact cardAvail_saveAccount (cardAvail_savePayment h)
          (fun hk => cardAvail_getAccount h f hk)
      | skip
    refine cardAvail_saveAccount (cardAvail_saveAccount (cardAvail_savePayment
      (cardAvail_savePayment h)) (fun hk => ?_)) (fun hk => ?_)
    · exact cardAvail_getAccount h (getPayment db r).CardNumber hk
    · have := cardAvail_getAccount h f hk
      show 0 ≤ (getAccount db f).Available + req.Amount
      omega
  | reversal f r req n =>
    have ha : 0 ≤ req.Amount := hn
    show CardAvailInv M (PaymentsReversal db f r req n).1
    unfold PaymentsReversal
    simp only
    split_ifs with h1 h2 h3 h4 h5 h6
    all_goals first
      | exact h
      | exact cardAvail_saveAccount (cardAvail_savePayment h)
          (fun hk => cardAvail_getAccount h f hk)
      | skip
    refine cardAvail_saveAccount (cardAvail_saveAccount (cardAvail_savePayment
      (cardAvail_savePayment h)) (fun hk => ?_)) (fun hk => ?_)
    · have := cardAvail_getAccount h (getPayment db r).CardNumber hk
      show 0 ≤ (getAccount db (getPayment db r).CardNumber).Available + req.Amount
      omega
    · exact cardAvail_getAccount h f hk
  | refund f r req n =>
    have ha : 0 ≤ req.Amount := hn
    show CardAvailInv M (PaymentsRefund db f r req n).1
    unfold PaymentsRefund
    simp only
    split_ifs with h1 h2 h3 h4 h5 h6
    all_goals first
      | exact h
      | exact cardAvail_saveAccount (cardAvail_savePayment h)
          (fun hk => cardAvail_getAccount h f hk)
      | skip
    refine cardAvail_saveAccount (cardAvail_saveAccount (cardAvail_savePayment
      (cardAvail_savePayment h)) (fun hk => ?_)) (fun hk => ?_)
    · have := cardAvail_getAccount h (getPayment db r).CardNumber hk
      show 0 ≤ (getAccount db (getPayment db r).CardNumber).Available + req.Amount
      omega
    · have hf : f ∈ M := ho
      exact absurd (show (getAccount db f).Id ∈ M by rw [not_not.mp h2]; exact hf) hk

theorem mem_ids_putAccount {l : List Account} {a : Account} {k : String}
    (h : k ∈ (putAccount l a).map (fun a => a.Id)) :
    k = a.Id ∨ k ∈ l.map (fun a => a.Id) := by
  obtain ⟨x, hx, rfl⟩ := List.mem_map.mp h
  rcases mem_putAccount hx with rfl | hx
  · exact Or.inl rfl
  · exact Or.inr (List.mem_map_of_mem (fun a => a.Id) hx)

theorem nodup_putAccount {l : List Account} (a : Account)
    (h : (l.map (fun a => a.Id)).Nodup) : ((putAccount l a).map (fun a => a.Id)).Nodup := by
  induction l with
  | nil => simp [putAccount]
  | cons x rest ih =>
    rw [List.map_cons, List.nodup_cons] at h
    unfold putAccount
    split_ifs with hx
    · rw [List.map_cons, List.nodup_cons, ← hx]
      exact h
    · rw [List.map_cons, List.nodup_cons]
      refine ⟨fun hmem => ?_, ih h.2⟩
      rcases mem_ids_putAccount hmem with e | hmem
      · exact hx e
      · exact h.1 hmem

theorem lookupAccount_of_mem_nodup {l : List Account} {a : Account}
    (h : (l.map (fun a => a.Id)).Nodup) (ha : a ∈ l) : lookupAccount l a.Id = some a := by
  induction l with
  | nil => exact absurd ha (List.not_mem_nil _)
  | cons x rest ih =>
    rw [List.map_cons, List.nodup_cons] at h
    unfold lookupAccount
    rcases List.mem_cons.mp ha with rfl | har
    · rw [if_pos rfl]
    · have hx : ¬ x.Id = a.Id := fun e =>
        h.1 (e ▸ List.mem_map_of_mem (fun a => a.Id) har)
      rw [if_neg hx]
      exact ih h.2 har

theorem accountsNodup_saveAccount {db : DB} {a : Account} (h : AccountsNodup db) :
    AccountsNodup (saveAccount db a) :=
  nodup_putAccount a h

theorem accountsNodup_savePayment {db : DB} {q : Payment} (h : AccountsNodup db) :
    AccountsNodup (savePayment db q) := h

theorem accountsNodup_step {db : DB} (h : AccountsNodup db) (r : Request) :
    AccountsNodup (step db r) := by
  cases r with
  | create c s m y => exact accountsNodup_saveAccount h
  | deposit req =>
    show AccountsNodup (AccountsDeposit db req).1
    unfold AccountsDeposit
    simp only
    split_ifs
    · exact accountsNodup_saveAccount h
    · exact h
    · exact h
  | authorization f req n =>
    show AccountsNodup (PaymentsAuthorization db f req n).1
    unfold PaymentsAuthorization
    simp only
    split_ifs
    all_goals first
      | exact h
      | exact accountsNodup_saveAccount (accountsNodup_savePayment h)
      | exact accountsNodup_saveAccount (accountsNodup_saveAccount (accountsNodup_savePayment
          (accountsNodup_saveAccount (accountsNodup_saveAccount h))))
  | capture f r req n =>
    show AccountsNodup (PaymentsCapture db f r req n).1
    unfold PaymentsCapture
    simp only
    split_ifs
    all_goals first
      | exact h
      | exact accountsNodup_saveAccount (accountsNodup_savePayment h)
      | exact accountsNodup_saveAccount (accountsNodup_saveAccount
          (accountsNodup_savePayment (accountsNodup_savePayment h)))
  | reversal f r req n =>
    show AccountsNodup (PaymentsReversal db f r req n).1
    unfold PaymentsReversal
    simp only
    split_ifs
    all_goals first
      | exact h
      | exact accountsNodup_saveAccount (accountsNodup_savePayment h)
      | exact accountsNodup_saveAccount (accountsNodup_saveAccount
          (accountsNodup_savePayment (accountsNodup_savePayment h)))
  | refund f r req n =>
    show AccountsNodup (PaymentsRefund db f r req n).1
    unfold PaymentsRefund
    simp only
    split_ifs
    all_goals first
      | exact h
      | exact accountsNodup_saveAccount (accountsNodup_savePayment h)
      | exact accountsNodup_saveAccount (accountsNodup_saveAccount
          (accountsNodup_savePayment (accountsNodup_savePayment h)))

/-- A change of store by the merchant `f` that records the new identifier `n` on `f`'s
statement, touches stored payments of `f`'s statement only (the list `T`), leaves the
other merchants' accounts alone, and moves `f`'s blocked and available in step with the
amounts left on `f`'s authorizations and captures, keeps the merchant-side invariant. -/
theorem merchantInv_of_effect {M : List String} {db db' : DB} (h : MerchantInv M db)
    (f n : String) (T : List String) (hf : f ∈ M)
    (hfresh : n ∉ db.payments.map (fun p => p.Id))
    (hT : ∀ id ∈ T, id ∈ (getAccount db f).Statement)
    (hother : ∀ m ∈ M, m ≠ f → getAccount db' m = getAccount db m)
    (hstmtf : (getAccount db' f).Statement = (getAccount db f).Statement ++ [n])
    (hstmt : ∀ k, ∀ id ∈ (getAccount db' k).Statement,
      id ∈ (getAccount db k).Statement ∨ id = n)
    (hids : ∀ id, id ∈ db.payments.map (fun p => p.Id) ∨ id = n →
      id ∈ db'.payments.map (fun p => p.Id))
    (hsum : ∀ kind stmt, n ∉ stmt → (∀ id ∈ T, id ∉ stmt) →
      ownedSumL kind stmt db'.payments = ownedSumL kind stmt db.payments)
    (hblocked : (getAccount db' f).Blocked
        - ownedSumL constant.AUTHORIZATION ((getAccount db f).Statement ++ [n]) db'.payments
      = (getAccount db f).Blocked
        - ownedSumL constant.AUTHORIZATION (getAccount db f).Statement db.payments)
    (havail : (getAccount db f).Available
        - ownedSumL constant.CAPTURE (getAccount db f).Statement db.payments
      ≤ (getAccount db' f).Available
        - ownedSumL constant.CAPTURE ((getAccount db f).Statement ++ [n]) db'.payments) :
    MerchantInv M db' := by
  obtain ⟨hA, hB, hC, hD⟩ := h
  have hn : ∀ k, n ∉ (getAccount db k).Statement := fun k hk => hfresh (hC k n hk)
  have hsame : ∀ m ∈ M, m ≠ f → ∀ kind,
      ownedSumL kind (getAccount db m).Statement db'.payments
        = ownedSumL kind (getAccount db m).Statement db.payments := by
    intro m hm hne kind
    exact hsum kind _ (hn m) (fun id hid hid' => hD f hf m hm (Ne.symm hne) id (hT id hid) hid')
  refine ⟨fun m hm => ?_, fun m hm => ?_, fun k id hid => ?_, fun m hm m' hm' hne id hid hid' => ?_⟩
  · by_cases hmf : m = f
    · subst hmf
      have := hA m hm
      unfold ownedSum at this ⊢
      rw [hstmtf]
      omega
    · unfold ownedSum
      rw [hother m hm hmf, hsame m hm hmf]
      exact hA m hm
  · by_cases hmf : m = f
    · subst hmf
      have := hB m hm
      unfold ownedSum at this ⊢
      rw [hstmtf]
      omega
    · unfold ownedSum
      rw [hother m hm hmf, hsame m hm hmf]
      exact hB m hm
  · rcases hstmt k id hid with hold | rfl
    · exact hids id (Or.inl (hC k id hold))
    · exact hids id (Or.inr rfl)
  · rcases hstmt m id hid with hold | rfl
    · rcases hstmt m' id hid' with hold' | rfl
      · exact hD m hm m' hm' hne id hold hold'
      · exact hn m hold
    · by_cases hmf : m' = f
      · have hmf' : m ≠ f := fun e => hne (e.trans hmf.symm)
        rw [hother m hm hmf'] at hid
        exact hn m hid
      · rw [hother m' hm' hmf] at hid'
        exact hn m' hid'

/-- A change of store that leaves the payments and all statements alone, keeps every
merchant's blocked and does not lower a merchant's available, keeps the merchant-side
invariant. -/
theorem merchantInv_of_same {M : List String} {db db' : DB} (h : MerchantInv M db)
    (hpay : db'.payments = db.payments)
    (hstmt : ∀ k, (getAccount db' k).Statement = (getAccount db k).Statement)
    (hblocked : ∀ m ∈ M, (getAccount db' m).Blocked = (getAccount db m).Blocked)
    (havail : ∀ m ∈ M, (getAccount db m).Available ≤ (getAccount db' m).Available) :
    MerchantInv M db' := by
  obtain ⟨hA, hB, hC, hD⟩ := h
  refine ⟨fun m hm => ?_, fun m hm => ?_, fun k id hid => ?_, fun m hm m' hm' hne id hid hid' => ?_⟩
  · unfold ownedSum
    rw [hblocked m hm, hstmt, hpay]
    exact hA m hm
  · have := hB m hm
    have := havail m hm
    unfold ownedSum at *
    rw [hstmt, hpay]
    omega
  · rw [hpay]
    rw [hstmt] at hid
    exact hC k id hid
  · rw [hstmt] at hid hid'
    exact hD m hm m' hm' hne id hid hid'

theorem map_id_putPayment_fresh {l : List Payment} {q : Payment}
    (hfresh : q.Id ∉ l.map (fun p => p.Id)) :
    (putPayment l q).map (fun p => p.Id) = l.map (fun p => p.Id) ++ [q.Id] := by
  rw [putPayment_fresh hfresh]
  simp

/-- Recording a declined payment under a new identifier on the statement of the merchant
`f` keeps the merchant-side invariant. -/
theorem merchantInv_decline_record {M : List String} {db : DB} (h : MerchantInv M db)
    {q : Payment} {f : String} (hf : f ∈ M) (hid : (getAccount db f).Id = f)
    (hfresh : q.Id ∉ db.payments.map (fun p => p.Id)) (hst : q.Status ≠ "0") :
    MerchantInv M
      (saveAccount (savePayment db q)
        { getAccount db f with Statement := (getAccount db f).Statement ++ [q.Id] }) := by
  have hn : ∀ k, q.Id ∉ (getAccount db k).Statement := fun k hk => hfresh (h.2.2.1 k _ hk)
  have hw : ∀ kind stmt, ¬ isApprovedOwned kind stmt q := fun _ _ hc => hst hc.2.1
  refine merchantInv_of_effect h f q.Id [] hf hfresh (fun _ hx => absurd hx (List.not_mem_nil _))
    ?_ ?_ ?_ ?_ ?_ ?_ ?_
  · intro m _ hne
    rw [getAccount_saveAccount, getAccount_savePayment]
    have : ¬ (getAccount db f).Id = m := by rw [hid]; exact fun e => hne e.symm
    simp [this]
  · rw [getAccount_saveAccount, getAccount_savePayment]
    simp [hid]
  · intro k id hk
    rw [getAccount_saveAccount, getAccount_savePayment] at hk
    by_cases hfk : (getAccount db f).Id = k
    · simp only [hfk, if_true, List.mem_append, List.mem_singleton] at hk
      rw [hid] at hfk
      subst hfk
      exact hk
    · simp only [hfk, if_false] at hk
      exact Or.inl hk
  · intro id hx
    show id ∈ (putPayment db.payments q).map (fun p => p.Id)
    rw [map_id_putPayment_fresh hfresh, List.mem_append, List.mem_singleton]
    exact hx
  · intro kind stmt _ _
    show ownedSumL kind stmt (putPayment db.payments q) = _
    rw [ownedSumL_put_fresh kind stmt hfresh, if_neg (hw kind stmt)]
    ring
  · rw [getAccount_saveAccount, getAccount_savePayment]
    simp only [hid, if_true]
    show _ - ownedSumL _ _ (putPayment db.payments q) = _
    rw [ownedSumL_put_fresh _ _ hfresh, if_neg (hw _ _), ownedSumL_statement_fresh _ _ hfresh]
    ring
  · rw [getAccount_saveAccount, getAccount_savePayment]
    simp only [hid, if_true]
    show _ ≤ _ - ownedSumL _ _ (putPayment db.payments q)
    rw [ownedSumL_put_fresh _ _ hfresh, if_neg (hw _ _), ownedSumL_statement_fresh _ _ hfresh]
    simp

/-- An approved capture, reversal or refund by the merchant `f` against a payment of its
own statement keeps the merchant-side invariant: the referenced record gives up `a`, the
new record `child` goes on the statements of `f` and of the cardholder, `f`'s blocked
goes down by `a` when the referenced record is an authorization, and `f`'s available
gains what a new capture holds and loses `a` when the referenced record is a capture. -/
theorem merchantInv_successive {M : List String} {db : DB} (h : MerchantInv M db)
    (hheld : HeldInv M db) {child : Payment} {p1 b1 : Account} {f referenceId : String}
    (a : Int) (hf : f ∈ M) (hid : (getAccount db f).Id = f)
    (hr : ResolvesPayment db referenceId)
    (hst : (getPayment db referenceId).Status = "0")
    (hown : referenceId ∈ (getAccount db f).Statement)
    (hfresh : child.Id ∉ db.payments.map (fun p => p.Id))
    (hcst : child.Status = "0")
    (hcauth : child.Operation ≠ constant.AUTHORIZATION)
    (hp1id : p1.Id = (getAccount db (getPayment db referenceId).CardNumber).Id)
    (hp1s : p1.Statement
      = (getAccount db (getPayment db referenceId).CardNumber).Statement ++ [child.Id])
    (hb1id : b1.Id = (getAccount db f).Id)
    (hb1s : b1.Statement = (getAccount db f).Statement ++ [child.Id])
    (hb1B : b1.Blocked = (getAccount db f).Blocked
      - (if (getPayment db referenceId).Operation = constant.AUTHORIZATION then a else 0))
    (hb1A : b1.Available = (getAccount db f).Available
      + (if child.Operation = constant.CAPTURE then child.CurrentAmount else 0)
      - (if (getPayment db referenceId).Operation = constant.CAPTURE then a else 0)) :
    MerchantInv M
      (saveAccount
        (saveAccount
          (savePayment
            (savePayment db
              { getPayment db referenceId with
                CurrentAmount := (getPayment db referenceId).CurrentAmount - a })
            child)
          p1)
        b1) := by
  have hl : lookupPayment db.payments referenceId = some (getPayment db referenceId) :=
    lookupPayment_of_resolves hr
  obtain ⟨hcardres, hcardM⟩ := hheld.2 _ (mem_of_lookupPayment hl) hst
  have hl1 : lookupPayment db.payments
      ({ getPayment db referenceId with
          CurrentAmount := (getPayment db referenceId).CurrentAmount - a } : Payment).Id
      = some (getPayment db referenceId) := by
    show lookupPayment db.payments (getPayment db referenceId).Id = _
    rw [hr.2]; exact hl
  have hfresh1 : child.Id ∉ (putPayment db.payments
      { getPayment db referenceId with
        CurrentAmount := (getPayment db referenceId).CurrentAmount - a }).map
      (fun p => p.Id) := by
    rw [map_id_putPayment_found hl1]; exact hfresh
  have hne : child.Id ≠ referenceId := fun e =>
    hfresh (e ▸ (hr.2 ▸ List.mem_map_of_mem (fun p => p.Id) (mem_of_lookupPayment hl)))
  have hcardf : ¬ (getPayment db referenceId).CardNumber = f := fun e => hcardM (e ▸ hf)
  have hsumAll : ∀ kind stmt,
      ownedSumL kind stmt
        (putPayment (putPayment db.payments
          { getPayment db referenceId with
            CurrentAmount := (getPayment db referenceId).CurrentAmount - a }) child)
      = ownedSumL kind stmt db.payments
        - (if isApprovedOwned kind stmt (getPayment db referenceId)
            then (getPayment db referenceId).CurrentAmount else 0)
        + (if isApprovedOwned kind stmt (getPayment db referenceId)
            then (getPayment db referenceId).CurrentAmount - a else 0)
        + (if isApprovedOwned kind stmt child then child.CurrentAmount else 0) := by
    intro kind stmt
    rw [ownedSumL_put_fresh kind stmt hfresh1, ownedSumL_put_found kind stmt hl1]
    simp only [isApprovedOwned]
  have hget : ∀ k, getAccount
      (saveAccount
        (saveAccount
          (savePayment
            (savePayment db
              { getPayment db referenceId with
                CurrentAmount := (getPayment db referenceId).CurrentAmount - a })
            child)
          p1)
        b1) k
      = if f = k then b1 else if (getPayment db referenceId).CardNumber = k then p1
        else getAccount db k := by
    intro k
    rw [getAccount_saveAccount, getAccount_saveAccount, hb1id, hid, hp1id, hcardres]
    rfl
  refine merchantInv_of_effect h f child.Id [referenceId] hf hfresh ?_ ?_ ?_ ?_ ?_ ?_ ?_ ?_
  · intro id hx
    rw [List.mem_singleton] at hx
    exact hx ▸ hown
  · intro m hm hmf
    have h1 : ¬ f = m := fun e => hmf e.symm
    have h2 : ¬ (getPayment db referenceId).CardNumber = m := fun e => hcardM (e ▸ hm)
    rw [hget, if_neg h1, if_neg h2]
  · rw [hget, if_pos rfl, hb1s]
  · intro k id hk
    rw [hget] at hk
    by_cases h1 : f = k
    · rw [if_pos h1, hb1s, List.mem_append, List.mem_singleton] at hk
      exact h1 ▸ hk
    · rw [if_neg h1] at hk
      by_cases h2 : (getPayment db referenceId).CardNumber = k
      · rw [if_pos h2, hp1s, List.mem_append, List.mem_singleton] at hk
        exact h2 ▸ hk
      · rw [if_neg h2] at hk
        exact Or.inl hk
  · intro id hx
    show id ∈ (putPayment (putPayment db.payments _) child).map (fun p => p.Id)
    rw [map_id_putPayment_fresh hfresh1, map_id_putPayment_found hl1, List.mem_append,
      List.mem_singleton]
    exact hx
  · intro kind stmt hnew hT
    have hrs : referenceId ∉ stmt := hT referenceId (List.mem_singleton.mpr rfl)
    have h1 : ¬ isApprovedOwned kind stmt (getPayment db referenceId) := fun hc =>
      hrs (hr.2 ▸ hc.2.2)
    have h2 : ¬ isApprovedOwned kind stmt child := fun hc => hnew hc.2.2
    show ownedSumL kind stmt (putPayment (putPayment db.payments _) child) = _
    rw [hsumAll, if_neg h1, if_neg h1, if_neg h2]
    ring
  · rw [hget, if_pos rfl, hb1B]
    show _ - ownedSumL _ _ (putPayment (putPayment db.payments _) child) = _
    rw [hsumAll, ← ownedSumL_statement_fresh constant.AUTHORIZATION
      (getAccount db f).Statement hfresh]
    have hc : ¬ isApprovedOwned constant.AUTHORIZATION
        ((getAccount db f).Statement ++ [child.Id]) child := fun hc => hcauth hc.1
    rw [if_neg hc]
    by_cases hop : (getPayment db referenceId).Operation = constant.AUTHORIZATION
    · have hro : isApprovedOwned constant.AUTHORIZATION
          ((getAccount db f).Statement ++ [child.Id]) (getPayment db referenceId) :=
        ⟨hop, hst, by rw [hr.2]; exact List.mem_append_left _ hown⟩
      rw [if_pos hro, if_pos hro, if_pos hop]
      ring
    · have hro : ¬ isApprovedOwned constant.AUTHORIZATION
          ((getAccount db f).Statement ++ [child.Id]) (getPayment db referenceId) :=
        fun hc => hop hc.1
      rw [if_neg hro, if_neg hro, if_neg hop]
      ring
  · rw [hget, if_pos rfl, hb1A]
    show _ ≤ _ - ownedSumL _ _ (putPayment (putPayment db.payments _) child)
    rw [hsumAll, ← ownedSumL_statement_fresh constant.CAPTURE
      (getAccount db f).Statement hfresh]
    have hchild : (if isApprovedOwned constant.CAPTURE
          ((getAccount db f).Statement ++ [child.Id]) child then child.CurrentAmount else 0)
        = (if child.Operation = constant.CAPTURE then child.CurrentAmount else 0) := by
      by_cases hco : child.Operation = constant.CAPTURE
      · rw [if_pos hco, if_pos ⟨hco, hcst, List.mem_append_right _ (List.mem_singleton.mpr rfl)⟩]
      · rw [if_neg hco, if_neg (fun hc => hco hc.1)]
    rw [hchild]
    by_cases hop : (getPayment db referenceId).Operation = constant.CAPTURE
    · have hro : isApprovedOwned constant.CAPTURE
          ((getAccount db f).Statement ++ [child.Id]) (getPayment db referenceId) :=
        ⟨hop, hst, by rw [hr.2]; exact List.mem_append_left _ hown⟩
      rw [if_pos hro, if_pos hro, if_pos hop]
      apply le_of_eq
      ring
    · have hro : ¬ isApprovedOwned constant.CAPTURE
          ((getAccount db f).Statement ++ [child.Id]) (getPayment db referenceId) :=
        fun hc => hop hc.1
      rw [if_neg hro, if_neg hro, if_neg hop]
      apply le_of_eq
      ring

theorem merchantInv_authorization {M : List String} {db : DB} (h : MerchantInv M db)
    (From : String) (req : dto.AuthorizationRequestDto) (newId : String)
    (hfresh : newId ∉ db.payments.map (fun p => p.Id))
    (hrole : From ∈ M ∧ req.CardNumber ∉ M) :
    MerchantInv M (PaymentsAuthorization db From req newId).1 := by
  unfold PaymentsAuthorization
  simp only
  split_ifs with h1 h2 h3 h4 h5 h6
  all_goals first
    | exact h
    | exact merchantInv_decline_record h hrole.1 (not_not.mp h2) hfresh
        (by simp [CreateAuthorizationPayment])
    | skip
  have hb : (getAccount db From).Id = From := not_not.mp h2
  have hp : (getAccount db req.CardNumber).Id = req.CardNumber := not_not.mp h4
  have hcf : ¬ req.CardNumber = From := fun e => hrole.2 (e ▸ hrole.1)
  have hfc : ¬ From = req.CardNumber := fun e => hcf e.symm
  have hn : ∀ k, newId ∉ (getAccount db k).Statement := fun k hk => hfresh (h.2.2.1 k _ hk)
  refine merchantInv_of_effect h From newId [] hrole.1 hfresh
    (fun _ hx => absurd hx (List.not_mem_nil _)) ?_ ?_ ?_ ?_ ?_ ?_ ?_
  · intro m hm hmf
    have e1 : ¬ From = m := fun e => hmf e.symm
    have e2 : ¬ req.CardNumber = m := fun e => hrole.2 (e ▸ hm)
    simp [getAccount_saveAccount, getAccount_savePayment, hb, hp, e1, e2]
  · simp [getAccount_saveAccount, getAccount_savePayment, hb, hp, hcf, CreateAuthorizationPayment]
  · intro k id hk
    simp only [getAccount_saveAccount, getAccount_savePayment, hb, hp] at hk
    by_cases e2 : req.CardNumber = k
    · subst e2
      simp only [if_true, List.mem_append, List.mem_singleton, CreateAuthorizationPayment] at hk
      exact hk
    · by_cases e1 : From = k
      · subst e1
        simp only [e2, if_true, if_false, List.mem_append, List.mem_singleton,
          CreateAuthorizationPayment] at hk
        exact hk
      · simp only [e2, e1, if_false] at hk
        exact Or.inl hk
  · intro id hx
    show id ∈ (putPayment db.payments _).map (fun p => p.Id)
    rw [map_id_putPayment_fresh hfresh, List.mem_append, List.mem_singleton]
    exact hx
  · intro kind stmt hnew _
    show ownedSumL kind stmt (putPayment db.payments _) = _
    rw [ownedSumL_put_fresh kind stmt hfresh, if_neg (fun hc => hnew hc.2.2)]
    ring
  · simp only [getAccount_saveAccount, getAccount_savePayment, hb, hp, hcf, if_true, if_false]
    show _ - ownedSumL _ _ (putPayment db.payments _) = _
    rw [ownedSumL_put_fresh _ _ hfresh, ownedSumL_statement_fresh _ _ hfresh]
    simp [isApprovedOwned, CreateAuthorizationPayment]
  · simp only [getAccount_saveAccount, getAccount_savePayment, hb, hp, hcf, if_true, if_false]
    show _ ≤ _ - ownedSumL _ _ (putPayment db.payments _)
    rw [ownedSumL_put_fresh _ _ hfresh, ownedSumL_statement_fresh _ _ hfresh]
    simp [isApprovedOwned, CreateAuthorizationPayment, constant.AUTHORIZATION, constant.CAPTURE]

theorem merchantInv_capture {M : List String} {db : DB} (h : MerchantInv M db)
    (hheld : HeldInv M db) (From referenceId : String) (req : dto.SuccessiveRequestDto)
    (newId : String) (hfresh : newId ∉ db.payments.map (fun p => p.Id)) (hrole : From ∈ M)
    (hown : OwnReference db (.capture From referenceId req newId)) :
    MerchantInv M (PaymentsCapture db From referenceId req newId).1 := by
  unfold OwnReference PaymentsCapture at hown
  unfold PaymentsCapture
  simp only at hown ⊢
  split_ifs at hown ⊢ with h1 h2 h3 h4 h5 h6
  all_goals first
    | exact h
    | exact merchantInv_decline_record h hrole (not_not.mp h2) hfresh
        (by simp [CreateSuccessivePayment])
    | skip
  refine merchantInv_successive h hheld req.Amount hrole (not_not.mp h2)
    ⟨not_le.mp h3, not_not.mp h4⟩ h5.2 (hown rfl) hfresh rfl ?_ rfl rfl rfl rfl ?_ ?_
  · simp [CreateSuccessivePayment, constant.CAPTURE, constant.AUTHORIZATION]
  · simp [h5.1]
  · simp [CreateSuccessivePayment, h5.1, constant.CAPTURE, constant.AUTHORIZATION]

theorem merchantInv_reversal {M : List String} {db : DB} (h : MerchantInv M db)
    (hheld : HeldInv M db) (From referenceId : String) (req : dto.SuccessiveRequestDto)
    (newId : String) (hfresh : newId ∉ db.payments.map (fun p => p.Id)) (hrole : From ∈ M)
    (hown : OwnReference db (.reversal From referenceId req newId)) :
    MerchantInv M (PaymentsReversal db From referenceId req newId).1 := by
  unfold OwnReference PaymentsReversal at hown
  unfold PaymentsReversal
  simp only at hown ⊢
  split_ifs at hown ⊢ with h1 h2 h3 h4 h5 h6
  all_goals first
    | exact h
    | exact merchantInv_decline_record h hrole (not_not.mp h2) hfresh
        (by simp [CreateSuccessivePayment])
    | skip
  refine merchantInv_successive h hheld req.Amount hrole (not_not.mp h2)
    ⟨not_le.mp h3, not_not.mp h4⟩ h5.2 (hown rfl) hfresh rfl ?_ rfl rfl rfl rfl ?_ ?_
  · simp [CreateSuccessivePayment, constant.REVERSAL, constant.AUTHORIZATION]
  · simp [h5.1]
  · simp [CreateSuccessivePayment, h5.1, constant.CAPTURE, constant.REVERSAL,
      constant.AUTHORIZATION]

theorem merchantInv_refund {M : List String} {db : DB} (h : MerchantInv M db)
    (hheld : HeldInv M db) (From referenceId : String) (req : dto.SuccessiveRequestDto)
    (newId : String) (hfresh : newId ∉ db.payments.map (fun p => p.Id)) (hrole : From ∈ M)
    (hown : OwnReference db (.refund From referenceId req newId)) :
    MerchantInv M (PaymentsRefund db From referenceId req newId).1 := by
  unfold OwnReference PaymentsRefund at hown
  unfold PaymentsRefund
  simp only at hown ⊢
  split_ifs at hown ⊢ with h1 h2 h3 h4 h5 h6
  all_goals first
    | exact h
    | exact merchantInv_decline_record h hrole (not_not.mp h2) hfresh
        (by simp [CreateSuccessivePayment])
    | skip
  refine merchantInv_successive h hheld req.Amount hrole (not_not.mp h2)
    ⟨not_le.mp h3, not_not.mp h4⟩ h5.2 (hown rfl) hfresh rfl ?_ rfl rfl rfl rfl ?_ ?_
  · simp [CreateSuccessivePayment, constant.REFUND, constant.AUTHORIZATION]
  · simp [h5.1, constant.CAPTURE, constant.AUTHORIZATION]
  · simp [CreateSuccessivePayment, h5.1, constant.CAPTURE, constant.REFUND]

theorem merchantInv_create {M : List String} {db : DB} (h : MerchantInv M db)
    (c s m y : String) (hfresh : c ∉ db.accounts.map (fun a => a.Id)) :
    MerchantInv M (AccountsCreate db (GenerateAccount c s m y)).1 := by
  unfold AccountsCreate
  simp only
  have hz : getAccount db c = Account.zero := by
    unfold getAccount
    rw [lookupAccount_none_of_fresh hfresh]
    rfl
  have hget : ∀ k, getAccount (saveAccount db (GenerateAccount c s m y)) k
      = if c = k then GenerateAccount c s m y else getAccount db k := fun k =>
    getAccount_saveAccount db _ k
  refine merchantInv_of_same h rfl (fun k => ?_) (fun k _ => ?_) (fun k _ => ?_)
  · rw [hget]
    by_cases e : c = k
    · rw [if_pos e, ← e, hz]; rfl
    · rw [if_neg e]
  · rw [hget]
    by_cases e : c = k
    · rw [if_pos e, ← e, hz]; rfl
    · rw [if_neg e]
  · rw [hget]
    by_cases e : c = k
    · rw [if_pos e, ← e, hz]; exact le_refl _
    · rw [if_neg e]

theorem merchantInv_deposit {M : List String} {db : DB} (h : MerchantInv M db)
    (req : dto.AccountRequestDto) (ha : 0 ≤ req.Amount) :
    MerchantInv M (AccountsDeposit db req).1 := by
  unfold AccountsDeposit
  simp only
  split_ifs with h1 h2
  · have hid : (getAccount db req.Id).Id = req.Id := by
      rcases getAccount_id_or_zero db req.Id with hid | hz
      · exact hid
      · rw [hz] at h2
        exact absurd h2 (by decide)
    have hget : ∀ k, getAccount (saveAccount db
          { getAccount db req.Id with
            Available := (getAccount db req.Id).Available + req.Amount }) k
        = if req.Id = k then
            { getAccount db req.Id with
              Available := (getAccount db req.Id).Available + req.Amount }
          else getAccount db k := by
      intro k
      rw [getAccount_saveAccount]
      simp only [hid]
    refine merchantInv_of_same h rfl (fun k => ?_) (fun k _ => ?_) (fun k _ => ?_)
    · rw [hget]
      by_cases e : req.Id = k
      · rw [if_pos e, ← e]
      · rw [if_neg e]
    · rw [hget]
      by_cases e : req.Id = k
      · rw [if_pos e, ← e]
      · rw [if_neg e]
    · rw [hget]
      by_cases e : req.Id = k
      · rw [if_pos e, ← e]
        show _ ≤ (getAccount db req.Id).Available + req.Amount
        omega
      · rw [if_neg e]
  · exact h
  · exact h

theorem merchantInv_step {M : List String} {db : DB} (h : MerchantInv M db)
    (hheld : HeldInv M db) (r : Request) (hd : Disciplined db r) (ho : RoleOk M r) :
    MerchantInv M (step db r) := by
  obtain ⟨hf, hn, hown⟩ := hd
  cases r with
  | create c s m y => exact merchantInv_create h c s m y hf
  | deposit req => exact merchantInv_deposit h req hn
  | authorization f req n => exact merchantInv_authorization h f req n hf ho
  | capture f r req n => exact merchantInv_capture h hheld f r req n hf ho hown
  | reversal f r req n => exact merchantInv_reversal h hheld f r req n hf ho hown
  | refund f r req n => exact merchantInv_refund h hheld f r req n hf ho hown

theorem ledger_run {M : List String} (reqs : List Request) :
    ∀ db : DB, HeldInv M db → MerchantInv M db → AmountsInv db → CardAvailInv M db →
      AccountsNodup db → DisciplinedRun db reqs → (∀ r ∈ reqs, RoleOk M r) →
      HeldInv M (run db reqs) ∧ MerchantInv M (run db reqs) ∧ AmountsInv (run db reqs) ∧
        CardAvailInv M (run db reqs) ∧ AccountsNodup (run db reqs) := by
  induction reqs with
  | nil => intro db h1 h2 h3 h4 h5 _ _; exact ⟨h1, h2, h3, h4, h5⟩
  | cons r rest ih =>
    intro db h1 h2 h3 h4 h5 hd ho
    have hr := ho r (List.mem_cons_self _ _)
    exact ih (step db r) (heldInv_step h1 r hd.1.1 hr) (merchantInv_step h2 h1 r hd.1 hr)
      (amountsInv_step h3 r hd.1.2.1) (cardAvail_step h4 r hd.1.2.1 hr)
      (accountsNodup_step h5 r) hd.2 (fun r' hr' => ho r' (List.mem_cons_of_mem _ hr'))

theorem merchantInv_empty (M : List String) : MerchantInv M DB.empty :=
  ⟨fun _ _ => rfl, fun _ _ => le_refl _, fun _ _ hid => absurd hid (List.not_mem_nil _),
    fun _ _ _ _ _ _ hid => absurd hid (List.not_mem_nil _)⟩

/-- C1 (counterexample): from the empty store, with fresh identifiers throughout,
(1) a negative amount breaks the invariant in each kind of request: a deposit of −1
leaves available at −1, an authorization of −5 leaves the cardholder's blocked at −5, a
capture of −5 leaves the merchant's available at −5, a reversal or a refund of −900
leaves the cardholder's available at −100;
(2) with non-negative amounts and separate roles, a capture requested by the merchant `N`,
which never requested the authorization, is approved and leaves `N`'s blocked at −200;
(3) likewise a refund requested by `N` leaves `N`'s available at −150;
(4) with non-negative amounts and every capture and refund requested by the merchant that
requested the referenced payment, the merchant `M`, used as a cardholder after its
capture, refunds that capture and is left with available −150. -/
theorem balances_can_go_negative :
    ((FreshRun DB.empty runNegativeDeposit ∧
        (getAccount (run DB.empty runNegativeDeposit) "X").Available = -1 ∧
        ¬ BalancesNonneg (run DB.empty runNegativeDeposit)) ∧
      ((getAccount dbNegativeAuthorization "C").Blocked = -5 ∧
        ¬ BalancesNonneg dbNegativeAuthorization) ∧
      (FreshRun DB.empty runNegativeCapture ∧
        (getAccount (run DB.empty runNegativeCapture) "M").Available = -5 ∧
        ¬ BalancesNonneg (run DB.empty runNegativeCapture)) ∧
      (FreshRun DB.empty runNegativeReversal ∧
        (getAccount (run DB.empty runNegativeReversal) "C").Available = -100 ∧
        ¬ BalancesNonneg (run DB.empty runNegativeReversal)) ∧
      (FreshRun DB.empty runNegativeRefund ∧
        (getAccount (run DB.empty runNegativeRefund) "C").Available = -100 ∧
        ¬ BalancesNonneg (run DB.empty runNegativeRefund))) ∧
    (FreshRun DB.empty runForeignCapture ∧ (∀ r ∈ runForeignCapture, NonnegAmount r) ∧
      (∀ k ∈ merchantsOf runForeignCapture, k ∉ cardsOf runForeignCapture) ∧
      (getAccount (run DB.empty runForeignCapture) "N").Blocked = -200 ∧
      ¬ BalancesNonneg (run DB.empty runForeignCapture)) ∧
    (FreshRun DB.empty runForeignRefund ∧ (∀ r ∈ runForeignRefund, NonnegAmount r) ∧
      (∀ k ∈ merchantsOf runForeignRefund, k ∉ cardsOf runForeignRefund) ∧
      (getAccount (run DB.empty runForeignRefund) "N").Available = -150 ∧
      ¬ BalancesNonneg (run DB.empty runForeignRefund)) ∧
    (DisciplinedRun DB.empty runMerchantAsCard ∧
      ¬ (∀ k ∈ merchantsOf runMerchantAsCard, k ∉ cardsOf runMerchantAsCard) ∧
      (getAccount (run DB.empty runMerchantAsCard) "M").Available = -150 ∧
      ¬ BalancesNonneg (run DB.empty runMerchantAsCard)) := by
  decide

/-- C1 (amended): starting from the empty store, after any finite sequence of account
creations, deposits, authorizations, captures, reversals and refunds, served with fresh
identifiers, in which every amount is non-negative, no account is used both as a
cardholder and as a merchant, and every approved capture, reversal or refund is requested
by the merchant on whose statement the referenced payment stands (the merchant that
requested it), every stored account has `available ≥ 0` and `blocked ≥ 0`. -/
theorem balances_nonneg_of_disciplined (reqs : List Request)
    (h : DisciplinedRun DB.empty reqs)
    (hroles : ∀ k ∈ merchantsOf reqs, k ∉ cardsOf reqs) :
    BalancesNonneg (run DB.empty reqs) := by
  obtain ⟨hheld, hmer, ham, hcard, hnd⟩ :=
    ledger_run reqs DB.empty (heldInv_empty (merchantsOf reqs))
      (merchantInv_empty (merchantsOf reqs))
      (fun _ hp => absurd hp (List.not_mem_nil _)) (fun _ _ => le_refl 0)
      List.nodup_nil h (roleOk_of_separate hroles)
  intro a ha
  have hget : getAccount (run DB.empty reqs) a.Id = a := by
    unfold getAccount
    rw [lookupAccount_of_mem_nodup hnd ha]
    rfl
  by_cases hm : a.Id ∈ merchantsOf reqs
  · have hb := hmer.1 a.Id hm
    have hv := hmer.2.1 a.Id hm
    have h1 := ownedSumL_nonneg constant.AUTHORIZATION
      (getAccount (run DB.empty reqs) a.Id).Statement ham
    have h2 := ownedSumL_nonneg constant.CAPTURE
      (getAccount (run DB.empty reqs) a.Id).Statement ham
    unfold ownedSum at hb hv
    rw [hget] at hb hv h1 h2
    constructor <;> omega
  · have hb := hheld.1 a.Id hm
    have hv := hcard a.Id hm
    have h1 := heldSumL_nonneg a.Id ham
    unfold heldSum at hb
    rw [hget] at hb hv
    constructor <;> omega

/-- Witness for C1 (amended): the scenario of the specification is a disciplined run with
separate roles. -/
theorem balances_nonneg_of_disciplined_witness :
    DisciplinedRun DB.empty scenario ∧
    (∀ k ∈ merchantsOf scenario, k ∉ cardsOf scenario) ∧
    BalancesNonneg (run DB.empty scenario) :=
  ⟨by decide, by decide, balances_nonneg_of_disciplined scenario (by decide) (by decide)⟩
